import Mathlib

/-!
nDisplay: the generic display interface and its prompt state machines.

A shallow embedding of `nDisplay.h` / `nDisplay.cpp` (class `CDisplay`).

* Machine integers are natural numbers; a `uint8_t` result is reduced modulo 256,
  a `uint32_t` result modulo 2^32, at the places where the source can overflow.
* A `char` is its byte value (0..255); bit 7 of a unit's `value` is the indicator.
* The three input callbacks, the notification functor and the random source are
  external code.  The k-th call of each one is answered by an answer stream
  indexed by k; the state counts the calls made so far.  An absent (null)
  callback is `none`.
* `delay` records the display contents shown during the pause.
* Loops that the source cannot be shown to leave take a fuel argument and
  return `none` when the fuel runs out.
-/

namespace CDisplay

/-! ## Data model -/

/-- Status of a setter, `enum status_t`. -/
inductive status_t where
  | STATUS_OK
  | STATUS_ERROR
  deriving DecidableEq, Repr

/-- Notification kinds, `enum class Event`. -/
inductive Event where
  | DECREMENT
  | INCREMENT
  | SELECTION
  | TIMEOUT
  deriving DecidableEq, Repr

/-- Scroll direction, `enum class Direction`. -/
inductive Direction where
  | LEFT
  | RIGHT
  deriving DecidableEq, Repr

/-- Display mode of the selection prompt, `enum class Mode`. -/
inductive Mode where
  | STATIC
  | SCROLL
  deriving DecidableEq, Repr

/-- The level `Brightness::MAX` (= `L8`). -/
def Brightness.MAX : Nat := 8

/-- The level `Brightness::MIN` (= `AUTO`). -/
def Brightness.MIN : Nat := 0

/-- One display cell, `struct UnitStruct`: the stored byte (character in bits 0..6,
indicator in bit 7) and the brightness byte. -/
structure UnitStruct where
  value : Nat
  brightness : Nat
  deriving DecidableEq, Repr

/-- The object state: `m_display.unit` (its length is `m_display.unit_count`), the
number of calls made so far to each external capability, the notifications issued
so far and the frames shown at each `delay`. -/
structure State where
  unit : List UnitStruct
  polls_increment : Nat
  polls_select : Nat
  polls_update : Nat
  draws : Nat
  log : List (Event × Nat)
  frames : List (Nat × List UnitStruct)
  deriving DecidableEq

/-- The host: the three callbacks (`none` is `nullptr`), the raw random source, and
the indeterminate bytes found in an uninitialised stack buffer. -/
structure Host where
  m_callback_is_increment : Option (Nat → Bool)
  m_callback_is_select : Option (Nat → Bool)
  m_callback_is_update : Option (Nat → Bool)
  random : Nat → Nat
  stack : Nat → Nat

/-- Configuration of the selection prompt, `struct PromptSelectStruct`. -/
structure PromptSelectStruct where
  item_count : Nat
  initial_selection : Nat
  display_mode : Mode
  title : Option (List Nat)
  item_array : List (List Nat)

/-- Configuration of the value prompt, `struct PromptValueStruct`; `item_value` is the
caller's array and is threaded through the prompt separately. -/
structure PromptValueStruct where
  alphabetic : Bool
  item_count : Nat
  brightness_min : Nat
  brightness_max : Nat
  item_position : List Nat
  item_digit_count : List Nat
  item_lower_limit : List Nat
  item_upper_limit : List Nat
  initial_display : List Nat
  title : Option (List Nat)

/-! ## Control-flow helpers -/

/-- A counted loop `for (index = start; ...; index++)` running `n` times. -/
def forLoop {σ : Type} (body : Nat → σ → σ) : Nat → Nat → σ → σ
  | 0, _, s => s
  | n + 1, index, s => forLoop body n (index + 1) (body index s)

/-- Conversion of a byte to `int8_t`. -/
def toInt8 (n : Nat) : Int :=
  if n % 256 < 128 then ((n % 256 : Nat) : Int) else ((n % 256 : Nat) : Int) - 256

/-- The C library `strlen`: number of bytes before the first NUL. -/
def strlen (s : List Nat) : Nat :=
  (s.takeWhile (fun c => c != 0)).length

/-- The Arduino `delay`: the current display is shown for `ms` milliseconds. -/
def delay (ms : Nat) (st : State) : State :=
  { st with frames := st.frames ++ [(ms, st.unit)] }

/-- Modelled from the spec: the random capability `RandomInRange(min, max)` (the
Arduino `random` / FastLED `random8` called by `random_fast`), an integer in
`[min, max)` derived from the raw random word. -/
def RandomInRange (raw min max : Nat) : Nat :=
  if min < max then min + raw % (max - min) else min

/-! ## Unit and display setters and getters -/

/-- Source `CDisplay::Initialize`, as called by the constructor `CDisplay(unit_count)`:
`unit_count` units initialised to 0 (the allocation is taken to succeed); nothing has been
polled, notified or shown yet. -/
def Initialize (unit_count : Nat) : State :=
  ⟨List.replicate unit_count ⟨0, 0⟩, 0, 0, 0, 0, [], []⟩

/-- Source `CDisplay::GetUnitCount`. -/
def GetUnitCount (st : State) : Nat :=
  st.unit.length

/-- Source `CDisplay::SetUnitValue`. -/
def SetUnitValue (st : State) (unit character : Nat) : status_t × State :=
  if unit < st.unit.length then
    let old := st.unit.getD unit ⟨0, 0⟩
    let indicator := old.value &&& 0x80
    (status_t.STATUS_OK,
      { st with unit := st.unit.set unit { old with value := (character &&& 0x7F) ||| indicator } })
  else
    (status_t.STATUS_ERROR, st)

/-- Source `CDisplay::SetUnitIndicator`. -/
def SetUnitIndicator (st : State) (unit : Nat) (state : Bool) : status_t × State :=
  if unit < st.unit.length then
    let old := st.unit.getD unit ⟨0, 0⟩
    if state = true then
      (status_t.STATUS_OK, { st with unit := st.unit.set unit { old with value := old.value ||| 0x80 } })
    else
      (status_t.STATUS_OK, { st with unit := st.unit.set unit { old with value := old.value &&& 0x7F } })
  else
    (status_t.STATUS_ERROR, st)

/-- Source `CDisplay::SetUnitBrightness`. -/
def SetUnitBrightness (st : State) (unit brightness : Nat) : status_t × State :=
  if unit < st.unit.length then
    if brightness ≤ Brightness.MAX then
      let old := st.unit.getD unit ⟨0, 0⟩
      (status_t.STATUS_OK, { st with unit := st.unit.set unit { old with brightness := brightness } })
    else
      (status_t.STATUS_ERROR, st)
  else
    (status_t.STATUS_ERROR, st)

/-- Source `CDisplay::SetDisplayValue(const char*)`; `string` holds the bytes found at the
pointer, bytes past its end read as NUL. -/
def SetDisplayValue (st : State) (string : Option (List Nat)) : status_t × State :=
  match string with
  | some s =>
    (status_t.STATUS_OK,
      forLoop (fun index acc => (SetUnitValue acc index (s.getD index 0)).2) st.unit.length 0 st)
  | none => (status_t.STATUS_ERROR, st)

/-- Source `CDisplay::SetDisplayValue(const __FlashStringHelper*)`: `unit_count` bytes are
copied from flash and passed on. -/
def SetDisplayValue_P (st : State) (string : List Nat) : status_t × State :=
  SetDisplayValue st (some ((string ++ List.replicate st.unit.length 0).take st.unit.length))

/-- Source `CDisplay::itoa`: the low `unit_count` decimal digits of `value`, written
right to left into `s`. -/
def itoa.loop (unit_count : Nat) : Nat → Nat → List Nat → Nat → List Nat
  | 0, _, s, _ => s
  | n + 1, index, s, value =>
    itoa.loop unit_count n (index + 1) (s.set (unit_count - index - 1) (48 + value % 10)) (value / 10)

/-- Source `CDisplay::itoa`. -/
def itoa (st : State) (s : List Nat) (value : Nat) : List Nat :=
  itoa.loop st.unit.length st.unit.length 0 s value

/-- Source `CDisplay::SetDisplayValue(const uint32_t)`; the local buffer starts with the
host's indeterminate bytes. -/
def SetDisplayValue_value (h : Host) (st : State) (value : Nat) : status_t × State :=
  SetDisplayValue st (some (itoa st ((List.range st.unit.length).map h.stack) value))

/-- Source `CDisplay::SetDisplayIndicator`. -/
def SetDisplayIndicator (st : State) (state : Bool) : status_t × State :=
  (status_t.STATUS_ERROR,
    forLoop (fun index acc => (SetUnitIndicator acc index state).2) st.unit.length 0 st)

/-- Source `CDisplay::SetDisplayBrightness`. -/
def SetDisplayBrightness (st : State) (brightness : Nat) : status_t × State :=
  if brightness ≤ Brightness.MAX then
    (status_t.STATUS_OK,
      forLoop (fun index acc =>
        { acc with unit := acc.unit.set index { acc.unit.getD index ⟨0, 0⟩ with brightness := brightness } })
        st.unit.length 0 st)
  else
    (status_t.STATUS_ERROR, st)

/-- Source `CDisplay::GetUnitValue`. -/
def GetUnitValue (st : State) (unit : Nat) : Nat :=
  if unit < st.unit.length then (st.unit.getD unit ⟨0, 0⟩).value &&& 0x7F else 0

/-- Source `CDisplay::GetUnitIndicator`. -/
def GetUnitIndicator (st : State) (unit : Nat) : Bool :=
  if unit < st.unit.length then ((st.unit.getD unit ⟨0, 0⟩).value &&& 0x80) != 0 else false

/-- Source `CDisplay::GetUnitBrightness`. -/
def GetUnitBrightness (st : State) (unit : Nat) : Nat :=
  if unit < st.unit.length then (st.unit.getD unit ⟨0, 0⟩).brightness else Brightness.MIN

/-- Source `CDisplay::GetDisplayValue` into a non-null buffer: the characters written. -/
def GetDisplayValue (st : State) : List Nat :=
  st.unit.map (fun u => u.value &&& 0x7F)

/-! ## Input polls and notification -/

/-- Source `CDisplay::IsInputIncrement`. -/
def IsInputIncrement (h : Host) (st : State) : Bool × State :=
  match h.m_callback_is_increment with
  | some f => (f st.polls_increment, { st with polls_increment := st.polls_increment + 1 })
  | none => (false, st)

/-- Source `CDisplay::IsInputSelect`. -/
def IsInputSelect (h : Host) (st : State) : Bool × State :=
  match h.m_callback_is_select with
  | some f => (f st.polls_select, { st with polls_select := st.polls_select + 1 })
  | none => (false, st)

/-- Source `CDisplay::IsInputUpdate`. -/
def IsInputUpdate (h : Host) (st : State) : Bool × State :=
  match h.m_callback_is_update with
  | some f => (f st.polls_update, { st with polls_update := st.polls_update + 1 })
  | none => (false, st)

/-- Source `CDisplay::random_fast`: one draw, returned as `uint8_t`. -/
def random_fast (h : Host) (st : State) (min max : Nat) : Nat × State :=
  (RandomInRange (h.random st.draws) min max % 256, { st with draws := st.draws + 1 })

/-- A call `functor(event, value)`: the answer of the call with this index, and the
call appended to the log. -/
def notify (functor : Nat → Event → Nat → Bool) (event : Event) (value : Nat) (st : State) :
    Bool × State :=
  (functor st.log.length event value, { st with log := st.log ++ [(event, value)] })

/-- The default functor `default_parameter`. -/
def default_parameter : Nat → Event → Nat → Bool :=
  fun _ _ _ => false

/-! ## Effects -/

/-- Source `CDisplay::EffectScroll(const char*, ...)`. -/
def EffectScroll (st : State) (string : List Nat) (direction : Direction) (delay_ms : Nat) : State :=
  let string_length := strlen string % 256
  let s :=
    match direction with
    | Direction.LEFT => GetDisplayValue st ++ string.take string_length
    | Direction.RIGHT => string.take string_length ++ GetDisplayValue st
  forLoop (fun index acc =>
      let acc1 :=
        match direction with
        | Direction.LEFT => (SetDisplayValue acc (some (s.drop (1 + index)))).2
        | Direction.RIGHT => (SetDisplayValue acc (some (s.drop (string_length - index - 1)))).2
      delay delay_ms acc1)
    string_length 0 st

/-- Source `CDisplay::EffectScroll(const __FlashStringHelper*, ...)`: the string is copied
out of flash with its terminator and scrolled. -/
def EffectScroll_P (st : State) (string : List Nat) (direction : Direction) (delay_ms : Nat) : State :=
  EffectScroll st (string.takeWhile (fun c => c != 0)) direction delay_ms

/-- The latch loop `while (array[random_fast(0, unit_count)]++);` of
`EffectSlotMachine`. -/
def EffectSlotMachine.latch (h : Host) : Nat → List Nat → State → Option (List Nat × State)
  | 0, _, _ => none
  | fuel + 1, array, st =>
    let r := random_fast h st 0 st.unit.length
    let old := array.getD r.1 0
    let array1 := array.set r.1 ((old + 1) % 256)
    if old ≠ 0 then EffectSlotMachine.latch h fuel array1 r.2 else some (array1, r.2)

/-- One frame of `EffectSlotMachine`: the inner loop over the units. -/
def EffectSlotMachine.render (h : Host) (s array : List Nat) (st : State) : State :=
  forLoop (fun index acc =>
      if array.getD index 0 ≠ 0 ∨ (index = 1 ∧ s.getD index 0 = 58) then
        (SetUnitValue acc index (s.getD index 0)).2
      else
        let r := random_fast h acc 0 10
        (SetUnitValue r.2 index ((48 + r.1) % 256)).2)
    st.unit.length 0 st

/-- The round loop `for (uint8_t count = 0; count < unit_count + 3; count++)` of
`EffectSlotMachine`. -/
def EffectSlotMachine.rounds (h : Host) (delay_ms : Nat) (s : List Nat) :
    Nat → Nat → List Nat → State → Option State
  | 0, _, _, _ => none
  | fuel + 1, count, array, st =>
    if count < st.unit.length + 3 then
      match (if 2 < count then EffectSlotMachine.latch h fuel array st else some (array, st)) with
      | none => none
      | some (array1, st1) =>
        let st2 := forLoop (fun _ acc => delay delay_ms (EffectSlotMachine.render h s array1 acc)) 5 0 st1
        EffectSlotMachine.rounds h delay_ms s fuel ((count + 1) % 256) array1 st2
    else
      some st

/-- Source `CDisplay::EffectSlotMachine`. -/
def EffectSlotMachine (fuel : Nat) (h : Host) (st : State) (delay_ms : Nat) : Option State :=
  EffectSlotMachine.rounds h delay_ms (GetDisplayValue st) fuel 0 (List.replicate st.unit.length 0) st

/-- Source `CDisplay::EffectStrobe`. -/
def EffectStrobe (st : State) (iteration delay_ms : Nat) : State :=
  let s := GetDisplayValue st
  let st1 :=
    forLoop (fun count acc =>
        let acc1 :=
          if count % 2 ≠ 0 then (SetDisplayValue acc (some s)).2
          else forLoop (fun index a => (SetUnitValue a index 32).2) acc.unit.length 0 acc
        delay delay_ms acc1)
      iteration 0 st
  (SetDisplayValue st1 (some s)).2

/-! ## The selection prompt -/

/-- The increment branch of `PromptSelect`: `selection += 1`, reset to 0 above
`item_count - 1` (compared as `int`). -/
def PromptSelect.increment (item_count selection : Nat) : Nat :=
  let selection1 := (selection + 1) % 256
  if ((selection1 : Nat) : Int) > ((item_count : Nat) : Int) - 1 then 0 else selection1

/-- The decrement branch of `PromptSelect`; `item_count - 1` is stored as `uint8_t`. -/
def PromptSelect.decrement (item_count selection : Nat) : Nat :=
  if selection > 0 then selection - 1 else (item_count + 255) % 256

/-- The redraw after an update in `PromptSelect`. -/
def PromptSelect.redraw (h : Host) (prompt : PromptSelectStruct) (selection : Nat) (st : State) : State :=
  if prompt.display_mode = Mode.SCROLL then
    let p := IsInputIncrement h st
    let direction := if p.1 then Direction.LEFT else Direction.RIGHT
    let st1 := forLoop (fun _ acc => EffectScroll acc [32] direction 25) st.unit.length 0 p.2
    EffectScroll_P st1 (prompt.item_array.getD selection []) direction 25
  else
    (SetDisplayValue_P st (prompt.item_array.getD selection [])).2

/-- What one pass through the body of the `do ... while` loop of a prompt leads to:
the loop condition is evaluated next (`next`, also after `continue`), or the prompt
returns -1 (`timeout`). -/
inductive Step where
  | next (selection count : Nat) (st : State)
  | timeout (st : State)

/-- The body of the `do ... while` loop of `PromptSelect`. -/
def PromptSelect.body (h : Host) (prompt : PromptSelectStruct) (timeout_count : Nat)
    (functor : Nat → Event → Nat → Bool) (selection count : Nat) (st : State) : Step :=
  let u := IsInputUpdate h st
  if u.1 then
    let i := IsInputIncrement h u.2
    if i.1 then
      let selection1 := PromptSelect.increment prompt.item_count selection
      let n := notify functor Event.INCREMENT selection1 i.2
      Step.next selection1 0 (PromptSelect.redraw h prompt selection1 n.2)
    else
      let selection1 := PromptSelect.decrement prompt.item_count selection
      let n := notify functor Event.DECREMENT selection1 i.2
      Step.next selection1 0 (PromptSelect.redraw h prompt selection1 n.2)
  else
    let count1 := (count + 1) % 2 ^ 32
    if count1 > timeout_count then
      let n := notify functor Event.TIMEOUT selection u.2
      if n.1 then Step.next selection 0 n.2 else Step.timeout n.2
    else
      Step.next selection count1 u.2

/-- The `do ... while (IsInputSelect() == false)` loop of `PromptSelect`: `none` when
the prompt returns -1 from inside the loop, `some selection` when the loop is left
by select. -/
def PromptSelect.loop (h : Host) (prompt : PromptSelectStruct) (timeout_count : Nat)
    (functor : Nat → Event → Nat → Bool) : Nat → Nat → Nat → State → Option (Option Nat × State)
  | 0, _, _, _ => none
  | fuel + 1, selection, count, st =>
    match PromptSelect.body h prompt timeout_count functor selection count st with
    | Step.timeout st1 => some (none, st1)
    | Step.next selection1 count1 st1 =>
      let p := IsInputSelect h st1
      if p.1 = false then PromptSelect.loop h prompt timeout_count functor fuel selection1 count1 p.2
      else some (some selection1, p.2)

/-- The title sequence shared by both prompts: `SetDisplayValue(title)`,
`EffectSlotMachine(10)`, `delay(1000)` when a title is configured. -/
def showTitle (fuel : Nat) (h : Host) (title : Option (List Nat)) (st : State) : Option State :=
  match title with
  | some t => (EffectSlotMachine fuel h (SetDisplayValue_P st t).2 10).map (delay 1000)
  | none => some st

/-- The loop `for (index < unit_count) { EffectScroll(" ", direction, 25);
brightness_copy[index] = GetUnitBrightness(index); }` of both prompts. -/
def blankAndCopy (direction : Direction) (st : State) : List Nat × State :=
  forLoop (fun index (acc : List Nat × State) =>
      let s := EffectScroll acc.2 [32] direction 25
      (acc.1 ++ [GetUnitBrightness s index], s))
    st.unit.length 0 ([], st)

/-- The loop `for (index < unit_count) SetUnitBrightness(index, brightness_copy[index])`
of both prompts. -/
def restoreBrightness (brightness_copy : List Nat) (st : State) : State :=
  forLoop (fun index acc => (SetUnitBrightness acc index (brightness_copy.getD index 0)).2)
    st.unit.length 0 st

/-- The choice of `initial_direction` in `PromptSelect`; the increment input is polled
only in SCROLL mode. -/
def PromptSelect.initialDirection (h : Host) (prompt : PromptSelectStruct) (st : State) :
    Direction × State :=
  if prompt.display_mode = Mode.SCROLL then
    let p := IsInputIncrement h st
    (if p.1 then Direction.LEFT else Direction.RIGHT, p.2)
  else (Direction.LEFT, st)

/-- The entry of `PromptSelect` up to the clearing poll of `IsInputUpdate`: the saved
brightness levels and the state in which the loop starts. -/
def PromptSelect.enter (fuel : Nat) (h : Host) (st : State) (prompt : PromptSelectStruct) :
    Option (List Nat × State) :=
  match showTitle fuel h prompt.title st with
  | none => none
  | some st1 =>
    let d := PromptSelect.initialDirection h prompt st1
    let c := blankAndCopy d.1 d.2
    let st2 := EffectScroll_P c.2 (prompt.item_array.getD prompt.initial_selection []) d.1 25
    some (c.1, (IsInputUpdate h st2).2)

/-- The closing sequence of both prompts: `SetDisplayBrightness(Brightness::MAX)`,
`EffectStrobe(10, 36)`, `delay(250)`, then the saved brightness levels are restored. -/
def confirmAndRestore (brightness_copy : List Nat) (st : State) : State :=
  let st1 := (SetDisplayBrightness st Brightness.MAX).2
  let st2 := delay 250 (EffectStrobe st1 10 36)
  restoreBrightness brightness_copy st2

/-- The normal exit of `PromptSelect` after the loop. -/
def PromptSelect.leave (functor : Nat → Event → Nat → Bool) (brightness_copy : List Nat)
    (selection : Nat) (st : State) : Int × State :=
  let n := notify functor Event.SELECTION selection st
  (toInt8 selection, confirmAndRestore brightness_copy n.2)

/-- The part of `PromptSelect` up to the end of its loop: how the loop ended (`none`
for the `return -1` inside it, `some selection` when left by select), the saved
brightness levels and the state reached. -/
def PromptSelect.run (fuel : Nat) (h : Host) (st : State) (prompt : PromptSelectStruct)
    (timeout : Nat) (functor : Nat → Event → Nat → Bool) : Option (Option Nat × List Nat × State) :=
  let timeout_count := (timeout * 3000) % 2 ^ 32
  match PromptSelect.enter fuel h st prompt with
  | none => none
  | some (brightness_copy, st1) =>
    match PromptSelect.loop h prompt timeout_count functor fuel prompt.initial_selection 0 st1 with
    | none => none
    | some (r, st2) => some (r, brightness_copy, st2)

/-- Source `CDisplay::PromptSelect`: the `int8_t` result and the final state, `none` when the
fuel does not suffice. -/
def PromptSelect (fuel : Nat) (h : Host) (st : State) (prompt : PromptSelectStruct) (timeout : Nat)
    (functor : Nat → Event → Nat → Bool) : Option (Int × State) :=
  match PromptSelect.run fuel h st prompt timeout functor with
  | none => none
  | some (none, _, st2) => some (-1, st2)
  | some (some selection, brightness_copy, st2) =>
    some (PromptSelect.leave functor brightness_copy selection st2)

/-! ## The value prompt -/

/-- The increment branch of `PromptValue`: `item_value[item] += 1` as `uint8_t`, replaced
by the lower limit when above the upper limit. -/
def PromptValue.increment (lower_limit upper_limit value : Nat) : Nat :=
  let value1 := (value + 1) % 256
  if value1 > upper_limit then lower_limit else value1

/-- The decrement branch of `PromptValue`. -/
def PromptValue.decrement (lower_limit upper_limit value : Nat) : Nat :=
  if value > 0 then
    let value1 := value - 1
    if value1 < lower_limit then upper_limit else value1
  else upper_limit

/-- The rendering of a field in `PromptValue`: the text buffer `s` is filled (last
character in alphabetic mode, `itoa` otherwise) and the field's units are written and set
to `brightness_max`.  The field is taken to fit the buffer (`digit_count ≤ unit_count`);
reads in front of `s` are not modelled. -/
def PromptValue.draw (prompt : PromptValueStruct) (item : Nat) (item_value s : List Nat)
    (st : State) : List Nat × State :=
  let value := item_value.getD item 0
  let s1 := if prompt.alphabetic = true then s.set (st.unit.length - 1) value else itoa st s value
  let digit_count := prompt.item_digit_count.getD item 0
  let position := prompt.item_position.getD item 0
  (s1, forLoop (fun index acc =>
      let a := (SetUnitValue acc ((position + index) % 256)
        (s1.getD (acc.unit.length + index - digit_count) 0)).2
      (SetUnitBrightness a ((position + index) % 256) prompt.brightness_max).2)
    digit_count 0 st)

/-- The loop `for (index < digit_count) SetUnitBrightness(position + index, brightness)`
of `PromptValue`. -/
def PromptValue.setFieldBrightness (prompt : PromptValueStruct) (item brightness : Nat)
    (st : State) : State :=
  forLoop (fun index acc =>
      (SetUnitBrightness acc ((prompt.item_position.getD item 0 + index) % 256) brightness).2)
    (prompt.item_digit_count.getD item 0) 0 st

/-- The blinking of an idle field in `PromptValue`: at every multiple of `timeout` the
field's units go to `brightness_max` (odd multiple) or `brightness_min` (even multiple).
(`count % timeout` and `count / timeout` with `timeout = 0` are undefined in the source;
here they are `count` and `0`.) -/
def PromptValue.blink (prompt : PromptValueStruct) (timeout item count : Nat) (st : State) : State :=
  if count % timeout = 0 then
    PromptValue.setFieldBrightness prompt item
      (if (count / timeout) % 2 ≠ 0 then prompt.brightness_max else prompt.brightness_min) st
  else st

/-- What one pass through the body of the inner `do ... while` loop of `PromptValue` leads
to: the loop condition is evaluated next (`next`, also after `continue`), or the prompt
returns -1 (`timeout`). -/
inductive PromptValue.Step where
  | next (item_value s : List Nat) (count : Nat) (st : State)
  | timeout (item_value : List Nat) (st : State)

/-- How the editing of fields ends: by select (`selected`) or by `return -1` (`timeout`);
with the caller's value array and the state. -/
inductive PromptValue.Exit where
  | selected (item_value s : List Nat) (st : State)
  | timeout (item_value : List Nat) (st : State)

/-- The body of the inner `do ... while` loop of `PromptValue`. -/
def PromptValue.body (h : Host) (prompt : PromptValueStruct) (timeout : Nat)
    (functor : Nat → Event → Nat → Bool) (brightness_copy : List Nat) (item : Nat)
    (item_value s : List Nat) (count : Nat) (st : State) : PromptValue.Step :=
  let u := IsInputUpdate h st
  if u.1 then
    let i := IsInputIncrement h u.2
    let lower_limit := prompt.item_lower_limit.getD item 0
    let upper_limit := prompt.item_upper_limit.getD item 0
    let value := item_value.getD item 0
    if i.1 then
      let item_value1 := item_value.set item (PromptValue.increment lower_limit upper_limit value)
      let n := notify functor Event.INCREMENT (item_value1.getD item 0) i.2
      let d := PromptValue.draw prompt item item_value1 s n.2
      PromptValue.Step.next item_value1 d.1 0 d.2
    else
      let item_value1 := item_value.set item (PromptValue.decrement lower_limit upper_limit value)
      let n := notify functor Event.DECREMENT (item_value1.getD item 0) i.2
      let d := PromptValue.draw prompt item item_value1 s n.2
      PromptValue.Step.next item_value1 d.1 0 d.2
  else
    let count1 := (count + 1) % 2 ^ 32
    let st1 := PromptValue.blink prompt timeout item count1 u.2
    if count1 > (timeout * 62) % 2 ^ 32 then
      let n := notify functor Event.TIMEOUT (item_value.getD item 0) st1
      if n.1 then PromptValue.Step.next item_value s 0 n.2
      else PromptValue.Step.timeout item_value (restoreBrightness brightness_copy n.2)
    else
      PromptValue.Step.next item_value s count1 st1

/-- The inner `do ... while (IsInputSelect() == false)` loop of `PromptValue`. -/
def PromptValue.loop (h : Host) (prompt : PromptValueStruct) (timeout : Nat)
    (functor : Nat → Event → Nat → Bool) (brightness_copy : List Nat) (item : Nat) :
    Nat → List Nat → List Nat → Nat → State → Option PromptValue.Exit
  | 0, _, _, _, _ => none
  | fuel + 1, item_value, s, count, st =>
    match PromptValue.body h prompt timeout functor brightness_copy item item_value s count st with
    | PromptValue.Step.timeout item_value1 st1 => some (PromptValue.Exit.timeout item_value1 st1)
    | PromptValue.Step.next item_value1 s1 count1 st1 =>
      let p := IsInputSelect h st1
      if p.1 = false then
        PromptValue.loop h prompt timeout functor brightness_copy item fuel item_value1 s1 count1 p.2
      else some (PromptValue.Exit.selected item_value1 s1 p.2)

/-- The loop `while (IsInputSelect() == true);` of `PromptValue`. -/
def PromptValue.release (h : Host) : Nat → State → Option State
  | 0, _ => none
  | fuel + 1, st =>
    let p := IsInputSelect h st
    if p.1 = true then PromptValue.release h fuel p.2 else some p.2

/-- One pass through the outer `do ... while` loop of `PromptValue`: the editing of the
field `item`. -/
def PromptValue.field (fuel : Nat) (h : Host) (prompt : PromptValueStruct) (timeout : Nat)
    (functor : Nat → Event → Nat → Bool) (brightness_copy : List Nat) (item : Nat)
    (item_value s : List Nat) (st : State) : Option PromptValue.Exit :=
  let d := PromptValue.draw prompt item item_value s st
  let st1 := (IsInputUpdate h d.2).2
  match PromptValue.loop h prompt timeout functor brightness_copy item fuel item_value d.1 0 st1 with
  | none => none
  | some (PromptValue.Exit.timeout item_value1 st2) => some (PromptValue.Exit.timeout item_value1 st2)
  | some (PromptValue.Exit.selected item_value1 s1 st2) =>
    match PromptValue.release h fuel st2 with
    | none => none
    | some st3 =>
      let n := notify functor Event.SELECTION (item_value1.getD item 0) st3
      some (PromptValue.Exit.selected item_value1 s1
        (PromptValue.setFieldBrightness prompt item prompt.brightness_min n.2))

/-- The outer loop `do { ... } while (++item < prompt.item_count)` of `PromptValue`,
entered at the field `item`. -/
def PromptValue.fields (fuel : Nat) (h : Host) (prompt : PromptValueStruct) (timeout : Nat)
    (functor : Nat → Event → Nat → Bool) (brightness_copy : List Nat) :
    Nat → Nat → List Nat → List Nat → State → Option PromptValue.Exit
  | 0, _, _, _, _ => none
  | n + 1, item, item_value, s, st =>
    match PromptValue.field fuel h prompt timeout functor brightness_copy item item_value s st with
    | none => none
    | some (PromptValue.Exit.timeout item_value1 st1) =>
      some (PromptValue.Exit.timeout item_value1 st1)
    | some (PromptValue.Exit.selected item_value1 s1 st1) =>
      let item1 := (item + 1) % 256
      if item1 < prompt.item_count then
        PromptValue.fields fuel h prompt timeout functor brightness_copy n item1 item_value1 s1 st1
      else some (PromptValue.Exit.selected item_value1 s1 st1)

/-- The entry of `PromptValue` up to `SetDisplayBrightness(prompt.brightness_min)`: the
saved brightness levels and the state in which the first field is entered. -/
def PromptValue.enter (fuel : Nat) (h : Host) (st : State) (prompt : PromptValueStruct) :
    Option (List Nat × State) :=
  match showTitle fuel h prompt.title st with
  | none => none
  | some st1 =>
    let c := blankAndCopy Direction.LEFT st1
    let st2 := EffectScroll c.2 prompt.initial_display Direction.LEFT 25
    some (c.1, (SetDisplayBrightness st2 prompt.brightness_min).2)

/-- The part of `PromptValue` up to the end of its outer loop: the saved brightness levels
and how the editing ended.  The text buffer `s` starts with the host's indeterminate
bytes. -/
def PromptValue.run (fuel : Nat) (h : Host) (st : State) (prompt : PromptValueStruct)
    (item_value : List Nat) (timeout : Nat) (functor : Nat → Event → Nat → Bool) :
    Option (List Nat × PromptValue.Exit) :=
  match PromptValue.enter fuel h st prompt with
  | none => none
  | some (brightness_copy, st1) =>
    match PromptValue.fields fuel h prompt timeout functor brightness_copy fuel 0 item_value
        ((List.range st1.unit.length).map h.stack) st1 with
    | none => none
    | some e => some (brightness_copy, e)

/-- Source `CDisplay::PromptValue`: the `int8_t` result, the caller's value array and the final
state, `none` when the fuel does not suffice. -/
def PromptValue (fuel : Nat) (h : Host) (st : State) (prompt : PromptValueStruct)
    (item_value : List Nat) (timeout : Nat) (functor : Nat → Event → Nat → Bool) :
    Option (Int × List Nat × State) :=
  match PromptValue.run fuel h st prompt item_value timeout functor with
  | none => none
  | some (_, PromptValue.Exit.timeout item_value1 st1) => some (-1, item_value1, st1)
  | some (brightness_copy, PromptValue.Exit.selected item_value1 _ st1) =>
    some (0, item_value1, confirmAndRestore brightness_copy st1)

/-! ## Definitions used to state the properties -/

/-- Brightness levels of all units, in order. -/
def State.levels (st : State) : List Nat := st.unit.map (fun u => u.brightness)

/-- The part of the state that value-only operations leave alone. -/
def Frame (st st' : State) : Prop :=
  st'.levels = st.levels ∧ st'.log = st.log

/-- The part of the state that every display operation leaves alone. -/
def Shape (st st' : State) : Prop :=
  st'.unit.length = st.unit.length ∧ st'.log = st.log

/-- The selection reached from `selection` by the increments and decrements notified in
`events`, in order. -/
def replaySelection (item_count : Nat) : Nat → List (Event × Nat) → Nat
  | selection, [] => selection
  | selection, (Event.INCREMENT, _) :: events =>
    replaySelection item_count (PromptSelect.increment item_count selection) events
  | selection, (Event.DECREMENT, _) :: events =>
    replaySelection item_count (PromptSelect.decrement item_count selection) events
  | selection, _ :: events => replaySelection item_count selection events

/-- A stretch of a selection prompt run: brightness levels untouched, the log extended by
`events`, none of them a SELECTION, and the selection moved as `events` say. -/
def SelectRun (ic : Nat) (sel : Nat) (st : State) (events : List (Event × Nat)) (sel' : Nat)
    (st' : State) : Prop :=
  st'.levels = st.levels ∧ st'.log = st.log ++ events ∧ sel' = replaySelection ic sel events ∧
    (∀ e ∈ events, e.1 ≠ Event.SELECTION) ∧ sel' < ic

/-- Both polls that keep a prompt waiting answer false from the current call on. -/
def QuietFrom (h : Host) (st : State) : Prop :=
  (∀ f, h.m_callback_is_update = some f → ∀ k, st.polls_update ≤ k → f k = false) ∧
  (∀ f, h.m_callback_is_select = some f → ∀ k, st.polls_select ≤ k → f k = false)

/-- A four-unit display, every unit at brightness 3, nothing polled or shown yet. -/
def display4 : State := ⟨List.replicate 4 ⟨0, 3⟩, 0, 0, 0, 0, [], []⟩

/-- A 253-unit display, every unit at brightness 3. -/
def display253 : State := ⟨List.replicate 253 ⟨0, 3⟩, 0, 0, 0, 0, [], []⟩

/-- A host without any callback installed. -/
def hostNone : Host := ⟨none, none, none, fun _ => 0, fun _ => 0⟩

/-- A host whose inputs are: one update with increment held, then select, pressed at one poll
and released at the next. The first update poll (the clearing poll) answers false. -/
def hostIncSelect : Host :=
  ⟨some (fun _ => true), some (fun k => k == 0), some (fun k => k == 1), fun _ => 0, fun _ => 0⟩

/-- A host on which update and increment always answer true and select never does. -/
def hostHeld : Host :=
  ⟨some (fun _ => true), some (fun _ => false), some (fun _ => true), fun _ => 0, fun _ => 0⟩

/-- A host that presses select at once. -/
def hostSelect : Host :=
  ⟨some (fun _ => true), some (fun _ => true), some (fun _ => false), fun _ => 0, fun _ => 0⟩

/-- The menu `["AB12", "CD34"]`, STATIC mode, no title, starting at item 0. -/
def menu2 : PromptSelectStruct :=
  ⟨2, 0, Mode.STATIC, none, [[65, 66, 49, 50], [67, 68, 51, 52]]⟩

/-- The menu of `menu2` with the title `"MENU"`. -/
def menu2Title : PromptSelectStruct :=
  ⟨2, 0, Mode.STATIC, some [77, 69, 78, 85], [[65, 66, 49, 50], [67, 68, 51, 52]]⟩

/-- A menu of 200 items `"ITEM"`, starting at item 150. -/
def menu200 : PromptSelectStruct :=
  ⟨200, 150, Mode.STATIC, none, List.replicate 200 [73, 84, 69, 77]⟩

/-- Both waiting polls answer false at every call (also when no callback is installed). -/
def Quiet (h : Host) : Prop :=
  (∀ f, h.m_callback_is_update = some f → ∀ k, f k = false) ∧
  (∀ f, h.m_callback_is_select = some f → ∀ k, f k = false)

/-- The number of further picks the latch loop of `EffectSlotMachine` can make at most
before it meets a zero counter: a counter `a ≠ 0` needs `256 - a` picks to wrap to zero
and one more to be met at zero. -/
def latchMeasure : List Nat → Nat
  | [] => 0
  | a :: as => (if a = 0 then 0 else 257 - a) + latchMeasure as

/-- A functor that postpones the first timeout and accepts the second. -/
def postponeOnce : Nat → Event → Nat → Bool :=
  fun k _ _ => k == 0

/-- The update and select poll counters are the same in both states. -/
def SamePolls (st st' : State) : Prop :=
  st'.polls_update = st.polls_update ∧ st'.polls_select = st.polls_select

/-- A stretch of a value prompt run on the field `item`: display size kept, the log
extended by `events`, none of them a SELECTION, and only the value of `item` touched. -/
def ValueRun (item : Nat) (iv : List Nat) (st : State) (events : List (Event × Nat))
    (iv' : List Nat) (st' : State) : Prop :=
  st'.unit.length = st.unit.length ∧ st'.log = st.log ++ events ∧
    (∀ e ∈ events, e.1 ≠ Event.SELECTION) ∧ iv'.length = iv.length ∧
    ∀ j, j ≠ item → iv'[j]? = iv[j]?

/-- Whether the editing ended by select. -/
def PromptValue.Exit.isSelected : PromptValue.Exit → Bool
  | PromptValue.Exit.selected _ _ _ => true
  | PromptValue.Exit.timeout _ _ => false

/-- A host on which update always answers true, increment and select never do. -/
def hostDecHeld : Host :=
  ⟨some (fun _ => false), some (fun _ => false), some (fun _ => true), fun _ => 0, fun _ => 0⟩

/-- A single numeric field of one digit in the last unit, limits 0 and 9. -/
def field09 : PromptValueStruct :=
  ⟨false, 1, 1, 8, [3], [1], [0], [9], [32, 32, 32, 32], none⟩

/-- A single numeric field of three digits, limits 5 and 255. -/
def field5to255 : PromptValueStruct :=
  ⟨false, 1, 1, 8, [1], [3], [5], [255], [32, 32, 32, 32], none⟩

/-- Two numeric fields of two digits each, limits 0 and 23, and 0 and 59. -/
def fieldsClock : PromptValueStruct :=
  ⟨false, 2, 1, 8, [0, 2], [2, 2], [0, 0], [23, 59], [32, 32, 32, 32], none⟩

/-- The value array, text buffer and state with which `PromptValue` enters the field `k`,
when each of the fields before it has been ended by select. -/
def PromptValue.upTo (fuel : Nat) (h : Host) (prompt : PromptValueStruct) (timeout : Nat)
    (functor : Nat → Event → Nat → Bool) (brightness_copy : List Nat) :
    Nat → List Nat → List Nat → State → Option (List Nat × List Nat × State)
  | 0, item_value, s, st => some (item_value, s, st)
  | k + 1, item_value, s, st =>
    match PromptValue.upTo fuel h prompt timeout functor brightness_copy k item_value s st with
    | none => none
    | some (item_value1, s1, st1) =>
      match PromptValue.field fuel h prompt timeout functor brightness_copy k item_value1 s1 st1 with
      | some (PromptValue.Exit.selected item_value2 s2 st2) => some (item_value2, s2, st2)
      | _ => none

/-- The saved brightness levels, value array, text buffer and state with which a call of
`PromptValue` enters the field `k`. -/
def PromptValue.reach (fuel : Nat) (h : Host) (st : State) (prompt : PromptValueStruct)
    (item_value : List Nat) (timeout : Nat) (functor : Nat → Event → Nat → Bool) (k : Nat) :
    Option (List Nat × List Nat × List Nat × State) :=
  match PromptValue.enter fuel h st prompt with
  | none => none
  | some (brightness_copy, st1) =>
    match PromptValue.upTo fuel h prompt timeout functor brightness_copy k item_value
        ((List.range st1.unit.length).map h.stack) st1 with
    | none => none
    | some r => some (brightness_copy, r)

/-- A host on which select is pressed once, at its first poll, and nothing else happens. -/
def hostSelectOnce : Host :=
  ⟨some (fun _ => false), some (fun k => k == 0), some (fun _ => false), fun _ => 0, fun _ => 0⟩

/-- The point at which the clock prompt enters its second field on `hostSelectOnce`. -/
def reachedMinutes : List Nat × List Nat × List Nat × State :=
  (PromptValue.reach 300 hostSelectOnce display4 fieldsClock [12, 30] 4 default_parameter 1).getD
    ([], [], [], display4)

/-- A three-unit display showing "A", "B" with its indicator on, and "C". -/
def display3 : State := ⟨[⟨65, 3⟩, ⟨194, 5⟩, ⟨67, 8⟩], 0, 0, 0, 0, [], []⟩

/-- A call of one of the setters of the display, with its arguments. -/
inductive Call where
  | SetUnitValue (unit character : Nat)
  | SetUnitIndicator (unit : Nat) (state : Bool)
  | SetUnitBrightness (unit brightness : Nat)
  | SetDisplayValue (string : Option (List Nat))
  | SetDisplayValue_P (string : List Nat)
  | SetDisplayValue_value (value : Nat)
  | SetDisplayIndicator (state : Bool)
  | SetDisplayBrightness (brightness : Nat)

/-- The state after a setter call. -/
def Call.run (h : Host) (st : State) : Call → State
  | Call.SetUnitValue unit character => (CDisplay.SetUnitValue st unit character).2
  | Call.SetUnitIndicator unit state => (CDisplay.SetUnitIndicator st unit state).2
  | Call.SetUnitBrightness unit brightness => (CDisplay.SetUnitBrightness st unit brightness).2
  | Call.SetDisplayValue string => (CDisplay.SetDisplayValue st string).2
  | Call.SetDisplayValue_P string => (CDisplay.SetDisplayValue_P st string).2
  | Call.SetDisplayValue_value value => (CDisplay.SetDisplayValue_value h st value).2
  | Call.SetDisplayIndicator state => (CDisplay.SetDisplayIndicator st state).2
  | Call.SetDisplayBrightness brightness => (CDisplay.SetDisplayBrightness st brightness).2

/-- The state reached from a freshly constructed display of `unit_count` units by a
sequence of setter calls. -/
def reached (h : Host) (unit_count : Nat) (calls : List Call) : State :=
  calls.foldl (Call.run h) (Initialize unit_count)

/-- The unit invariant: every brightness is a valid level and every stored value is a
byte. -/
def UnitsValid (st : State) : Prop :=
  ∀ u ∈ st.unit, u.brightness ≤ 8 ∧ u.value < 256

/-- The characters that a display of `unit_count` units shows after `SetDisplayValue` of
the bytes `w`. -/
def shown (w : List Nat) (unit_count : Nat) : List Nat :=
  (List.range unit_count).map (fun j => w.getD j 0 &&& 0x7F)

/-- A four-unit display showing "WXYZ", every unit at brightness 3. -/
def displayWXYZ : State := ⟨[⟨87, 3⟩, ⟨88, 3⟩, ⟨89, 3⟩, ⟨90, 3⟩], 0, 0, 0, 0, [], []⟩

/-- Indicator bit and brightness of all units, in order. -/
def State.flags (st : State) : List (Nat × Nat) :=
  st.unit.map (fun u => (u.value &&& 0x80, u.brightness))

/-- A two-unit display showing "AB", both units at brightness 3. -/
def displayAB : State := ⟨[⟨65, 3⟩, ⟨66, 3⟩], 0, 0, 0, 0, [], []⟩

/-- A single alphabetic field of one unit at position 3, letters "A" to "Z". -/
def fieldLetter : PromptValueStruct :=
  ⟨true, 1, 1, 8, [3], [1], [65], [90], [32, 32, 32, 32], none⟩

/-- Indicator bits, brightness and the frames shown so far are the same in both states. -/
def Still (st st' : State) : Prop :=
  st'.flags = st.flags ∧ st'.frames = st.frames

/-- A four-unit display showing "12:3", nothing polled yet. -/
def display12c3 : State := ⟨[⟨49, 3⟩, ⟨50, 3⟩, ⟨58, 3⟩, ⟨51, 3⟩], 0, 0, 0, 0, [], []⟩

/-- The characters a recorded frame shows, unit by unit. -/
def frameChars (f : Nat × List UnitStruct) : List Nat :=
  f.2.map (fun u => u.value &&& 0x7F)

/-- A four-unit display showing "1:23", nothing polled yet. -/
def display1c23 : State := ⟨[⟨49, 3⟩, ⟨58, 3⟩, ⟨50, 3⟩, ⟨51, 3⟩], 0, 0, 0, 0, [], []⟩

/-- The state a pass through the loop body ends in. -/
def Step.state : Step → State
  | Step.next _ _ st => st
  | Step.timeout st => st

/-- The select input has been polled as often in both states. -/
def SameSelect (st st' : State) : Prop :=
  st'.polls_select = st.polls_select

/-- The state a pass through the inner loop body of `PromptValue` ends in. -/
def PromptValue.Step.state : PromptValue.Step → State
  | PromptValue.Step.next _ _ _ st => st
  | PromptValue.Step.timeout _ st => st

theorem Frame.frefl (st : State) : Frame st st := ⟨rfl, rfl⟩

theorem Frame.andThen {a b c : State} (h1 : Frame a b) (h2 : Frame b c) : Frame a c :=
  ⟨h2.1.trans h1.1, h2.2.trans h1.2⟩

theorem Frame.length {a b : State} (h : Frame a b) : b.unit.length = a.unit.length := by
  have := congrArg List.length h.1
  simpa [State.levels] using this

theorem forLoop_invariant {σ : Type} (P : σ → Prop) (body : Nat → σ → σ)
    (hbody : ∀ i s, P s → P (body i s)) : ∀ n i s, P s → P (forLoop body n i s) := by
  intro n
  induction n with
  | zero => intro i s hs; simpa [forLoop] using hs
  | succ n ih => intro i s hs; simpa [forLoop] using ih (i + 1) (body i s) (hbody i s hs)

theorem levels_set_value (l : List UnitStruct) (i v : Nat) :
    (l.set i { l.getD i ⟨0, 0⟩ with value := v }).map (fun u => u.brightness)
      = l.map (fun u => u.brightness) := by
  apply List.ext_getElem
  · simp
  · intro n h1 h2
    have hn : n < l.length := by simpa using h2
    simp only [List.getElem_map, List.getElem_set]
    split
    · subst_vars
      simp [List.getD_eq_getElem?_getD, List.getElem?_eq_getElem hn]
    · rfl

theorem SetUnitValue_frame (st : State) (u c : Nat) : Frame st (SetUnitValue st u c).2 := by
  unfold SetUnitValue
  split
  · exact ⟨levels_set_value _ _ _, rfl⟩
  · exact Frame.frefl st

theorem SetUnitIndicator_frame (st : State) (u : Nat) (b : Bool) :
    Frame st (SetUnitIndicator st u b).2 := by
  unfold SetUnitIndicator
  split
  · split
    · exact ⟨levels_set_value _ _ _, rfl⟩
    · exact ⟨levels_set_value _ _ _, rfl⟩
  · exact Frame.frefl st

theorem delay_frame (ms : Nat) (st : State) : Frame st (delay ms st) := ⟨rfl, rfl⟩

theorem SetDisplayValue_frame (st : State) (s : Option (List Nat)) :
    Frame st (SetDisplayValue st s).2 := by
  unfold SetDisplayValue
  cases s with
  | none => exact Frame.frefl st
  | some s =>
    exact forLoop_invariant (Frame st) _ (fun i a ha => ha.andThen (SetUnitValue_frame a i _)) _ _ _
      (Frame.frefl st)

theorem SetDisplayValue_P_frame (st : State) (s : List Nat) :
    Frame st (SetDisplayValue_P st s).2 :=
  SetDisplayValue_frame st _

theorem EffectScroll_frame (st : State) (s : List Nat) (d : Direction) (ms : Nat) :
    Frame st (EffectScroll st s d ms) := by
  unfold EffectScroll
  refine forLoop_invariant (Frame st) _ ?_ _ _ _ (Frame.frefl st)
  intro i a ha
  cases d
  · exact (ha.andThen (SetDisplayValue_frame a _)).andThen (delay_frame _ _)
  · exact (ha.andThen (SetDisplayValue_frame a _)).andThen (delay_frame _ _)

theorem EffectScroll_P_frame (st : State) (s : List Nat) (d : Direction) (ms : Nat) :
    Frame st (EffectScroll_P st s d ms) :=
  EffectScroll_frame st _ d ms

theorem EffectStrobe_frame (st : State) (n ms : Nat) : Frame st (EffectStrobe st n ms) := by
  unfold EffectStrobe
  refine Frame.andThen ?_ (SetDisplayValue_frame _ _)
  refine forLoop_invariant (Frame st) _ ?_ _ _ _ (Frame.frefl st)
  intro i a ha
  refine Frame.andThen ?_ (delay_frame _ _)
  split
  · exact ha.andThen (SetDisplayValue_frame a _)
  · exact forLoop_invariant (Frame st) _ (fun i b hb => hb.andThen (SetUnitValue_frame b i _)) _ _ _ ha

theorem random_fast_frame (h : Host) (st : State) (a b : Nat) : Frame st (random_fast h st a b).2 :=
  ⟨rfl, rfl⟩

theorem IsInputIncrement_frame (h : Host) (st : State) : Frame st (IsInputIncrement h st).2 := by
  unfold IsInputIncrement
  cases h.m_callback_is_increment <;> exact ⟨rfl, rfl⟩

theorem IsInputSelect_frame (h : Host) (st : State) : Frame st (IsInputSelect h st).2 := by
  unfold IsInputSelect
  cases h.m_callback_is_select <;> exact ⟨rfl, rfl⟩

theorem IsInputUpdate_frame (h : Host) (st : State) : Frame st (IsInputUpdate h st).2 := by
  unfold IsInputUpdate
  cases h.m_callback_is_update <;> exact ⟨rfl, rfl⟩

theorem latch_frame (h : Host) : ∀ (fuel : Nat) (array : List Nat) (st : State) (r : List Nat × State),
    EffectSlotMachine.latch h fuel array st = some r → Frame st r.2 := by
  intro fuel
  induction fuel with
  | zero => intro array st r hr; simp [EffectSlotMachine.latch] at hr
  | succ n ih =>
    intro array st r hr
    simp only [EffectSlotMachine.latch] at hr
    split at hr
    · exact (random_fast_frame h st _ _).andThen (ih _ _ _ hr)
    · cases hr; exact random_fast_frame h st 0 st.unit.length

theorem render_frame (h : Host) (s array : List Nat) (st : State) :
    Frame st (EffectSlotMachine.render h s array st) := by
  unfold EffectSlotMachine.render
  refine forLoop_invariant (Frame st) _ ?_ _ _ _ (Frame.frefl st)
  intro i a ha
  split
  · exact ha.andThen (SetUnitValue_frame a i _)
  · exact (ha.andThen (random_fast_frame h a _ _)).andThen (SetUnitValue_frame _ i _)

theorem rounds_frame (h : Host) (ms : Nat) (s : List Nat) :
    ∀ (fuel count : Nat) (array : List Nat) (st st' : State),
      EffectSlotMachine.rounds h ms s fuel count array st = some st' → Frame st st' := by
  intro fuel
  induction fuel with
  | zero => intro count array st st' hr; simp [EffectSlotMachine.rounds] at hr
  | succ n ih =>
    intro count array st st' hr
    simp only [EffectSlotMachine.rounds] at hr
    split at hr
    · split at hr
      · cases hr
      · rename_i array1 st1 heq
        have h1 : Frame st st1 := by
          split at heq
          · exact latch_frame h _ _ _ _ heq
          · cases heq; exact Frame.frefl st
        refine Frame.andThen ?_ (ih _ _ _ _ hr)
        exact forLoop_invariant (Frame st) _
          (fun i a ha => (ha.andThen (render_frame h s array1 a)).andThen (delay_frame _ _)) _ _ _ h1
    · cases hr; exact Frame.frefl st

theorem EffectSlotMachine_frame (fuel : Nat) (h : Host) (st st' : State) (ms : Nat)
    (hr : EffectSlotMachine fuel h st ms = some st') : Frame st st' :=
  rounds_frame h ms _ fuel 0 _ st st' hr

theorem showTitle_frame (fuel : Nat) (h : Host) (title : Option (List Nat)) (st st' : State)
    (hr : showTitle fuel h title st = some st') : Frame st st' := by
  unfold showTitle at hr
  cases title with
  | none => cases hr; exact Frame.frefl st
  | some t =>
    simp only [Option.map_eq_some'] at hr
    obtain ⟨a, ha, rfl⟩ := hr
    exact ((SetDisplayValue_P_frame st t).andThen (EffectSlotMachine_frame _ _ _ _ _ ha)).andThen
      (delay_frame _ _)

theorem redraw_frame (h : Host) (prompt : PromptSelectStruct) (sel : Nat) (st : State) :
    Frame st (PromptSelect.redraw h prompt sel st) := by
  unfold PromptSelect.redraw
  split
  · refine Frame.andThen ?_ (EffectScroll_P_frame _ _ _ _)
    exact forLoop_invariant (Frame st) _ (fun i a ha => ha.andThen (EffectScroll_frame a _ _ _)) _ _ _
      (IsInputIncrement_frame h st)
  · exact SetDisplayValue_P_frame st _

theorem forLoop_invariant_idx {σ : Type} (P : Nat → σ → Prop) (body : Nat → σ → σ) (m : Nat)
    (hbody : ∀ i s, i < m → P i s → P (i + 1) (body i s)) :
    ∀ n i s, i + n ≤ m → P i s → P (i + n) (forLoop body n i s) := by
  intro n
  induction n with
  | zero => intro i s _ hs; simpa [forLoop] using hs
  | succ n ih =>
    intro i s hle hs
    have := ih (i + 1) (body i s) (by omega) (hbody i s (by omega) hs)
    simpa [forLoop, Nat.add_assoc, Nat.add_comm 1 n] using this

theorem Shape.srefl (st : State) : Shape st st := ⟨rfl, rfl⟩

theorem Shape.next {a b c : State} (h1 : Shape a b) (h2 : Shape b c) : Shape a c :=
  ⟨h2.1.trans h1.1, h2.2.trans h1.2⟩

theorem Frame.shape {a b : State} (h : Frame a b) : Shape a b := ⟨h.length, h.2⟩

theorem levels_set_brightness (l : List UnitStruct) (i b : Nat) :
    (l.set i { l.getD i ⟨0, 0⟩ with brightness := b }).map (fun u => u.brightness)
      = (l.map (fun u => u.brightness)).set i b := by
  simp [List.map_set]

theorem SetUnitBrightness_levels (st : State) (u b : Nat) :
    (SetUnitBrightness st u b).2.levels
      = if u < st.unit.length ∧ b ≤ 8 then st.levels.set u b else st.levels := by
  unfold SetUnitBrightness State.levels Brightness.MAX
  by_cases h1 : u < st.unit.length <;> by_cases h2 : b ≤ 8 <;> simp [h1, h2, List.map_set]

theorem SetUnitBrightness_shape (st : State) (u b : Nat) : Shape st (SetUnitBrightness st u b).2 := by
  unfold SetUnitBrightness
  split
  · split
    · exact ⟨by simp, rfl⟩
    · exact Shape.srefl st
  · exact Shape.srefl st

theorem SetDisplayBrightness_shape (st : State) (b : Nat) : Shape st (SetDisplayBrightness st b).2 := by
  unfold SetDisplayBrightness
  split
  · refine forLoop_invariant (Shape st) _ ?_ _ _ _ (Shape.srefl st)
    intro i a ha
    exact ha.next ⟨by simp, rfl⟩
  · exact Shape.srefl st

theorem restoreBrightness_shape (copy : List Nat) (st : State) :
    Shape st (restoreBrightness copy st) :=
  forLoop_invariant (Shape st) _ (fun i a ha => ha.next (SetUnitBrightness_shape a i _)) _ _ _
    (Shape.srefl st)

theorem restoreBrightness_levels (copy : List Nat) (st : State)
    (hlen : copy.length = st.unit.length) (hle : ∀ c ∈ copy, c ≤ 8) :
    (restoreBrightness copy st).levels = copy := by
  have key := forLoop_invariant_idx
    (fun i (a : State) => a.unit.length = st.unit.length ∧
      ∀ j, a.levels[j]? = if j < i then copy[j]? else st.levels[j]?)
    (fun index acc => (SetUnitBrightness acc index (copy.getD index 0)).2) st.unit.length
    (by
      intro i a hi ⟨hal, haj⟩
      refine ⟨((SetUnitBrightness_shape a i _).1).trans hal, ?_⟩
      intro j
      have hc : copy.getD i 0 ≤ 8 := by
        have hi' : i < copy.length := by omega
        simp only [List.getD_eq_getElem?_getD, List.getElem?_eq_getElem hi', Option.getD_some]
        exact hle _ (List.getElem_mem _)
      rw [SetUnitBrightness_levels, if_pos ⟨by omega, hc⟩, List.getElem?_set]
      by_cases hij : i = j
      · subst hij
        have hi' : i < copy.length := by omega
        have : i < a.levels.length := by simp [State.levels]; omega
        simp [this, List.getD_eq_getElem?_getD, List.getElem?_eq_getElem hi']
      · rw [if_neg hij, haj j]
        by_cases hji : j < i
        · simp [hji, Nat.lt_succ_of_lt hji]
        · have : ¬ j < i + 1 := by omega
          simp [hji, this])
    st.unit.length 0 st (by omega) ⟨rfl, by simp⟩
  unfold restoreBrightness
  obtain ⟨hl, hj⟩ := key
  apply List.ext_getElem?
  intro j
  rw [hj j]
  by_cases hjn : j < 0 + st.unit.length
  · rw [if_pos hjn]
  · have h1 : copy.length ≤ j := by omega
    have h2 : st.levels.length ≤ j := by simp [State.levels]; omega
    rw [if_neg hjn, List.getElem?_eq_none h1, List.getElem?_eq_none h2]

theorem GetUnitBrightness_eq (st : State) (i : Nat) (hi : i < st.unit.length) :
    some (GetUnitBrightness st i) = st.levels[i]? := by
  unfold GetUnitBrightness State.levels
  simp [hi, List.getElem?_eq_getElem hi]

theorem blankAndCopy_spec (d : Direction) (st : State) :
    (blankAndCopy d st).1 = st.levels ∧ Frame st (blankAndCopy d st).2 := by
  have key := forLoop_invariant_idx
    (fun i (a : List Nat × State) => a.1 = st.levels.take i ∧ Frame st a.2)
    (fun index (acc : List Nat × State) =>
      let s := EffectScroll acc.2 [32] d 25
      (acc.1 ++ [GetUnitBrightness s index], s)) st.unit.length
    (by
      intro i a hi ⟨h1, h2⟩
      have hf : Frame st (EffectScroll a.2 [32] d 25) := h2.andThen (EffectScroll_frame _ _ _ _)
      refine ⟨?_, hf⟩
      have hi' : i < (EffectScroll a.2 [32] d 25).unit.length := by rw [hf.length]; exact hi
      have := GetUnitBrightness_eq _ i hi'
      rw [hf.1] at this
      simp only [h1, List.take_succ, ← this, Option.toList_some])
    st.unit.length 0 ([], st) (by omega) ⟨by simp, Frame.frefl st⟩
  unfold blankAndCopy
  refine ⟨?_, key.2⟩
  rw [key.1]
  simp [State.levels]

theorem replaySelection_append (ic : Nat) : ∀ (a b : List (Event × Nat)) (s : Nat),
    replaySelection ic s (a ++ b) = replaySelection ic (replaySelection ic s a) b := by
  intro a
  induction a with
  | nil => intro b s; rfl
  | cons e a ih =>
    intro b s
    obtain ⟨ev, v⟩ := e
    cases ev <;> simp [replaySelection, ih]

theorem increment_eq (ic s : Nat) (h2 : ic ≤ 255) (hs : s < ic) :
    PromptSelect.increment ic s = (s + 1) % ic := by
  unfold PromptSelect.increment
  have h256 : (s + 1) % 256 = s + 1 := Nat.mod_eq_of_lt (by omega)
  simp only [h256]
  by_cases hlast : s + 1 = ic
  · rw [hlast, Nat.mod_self, if_pos (by omega)]
  · rw [Nat.mod_eq_of_lt (by omega), if_neg (by omega)]

theorem decrement_eq (ic s : Nat) (h2 : ic ≤ 255) (hs : s < ic) :
    ((PromptSelect.decrement ic s : Nat) : Int) = ((s : Int) - 1 + (ic : Int)) % (ic : Int) := by
  unfold PromptSelect.decrement
  by_cases h0 : s > 0
  · rw [if_pos h0, Int.add_emod_self, Int.emod_eq_of_lt (by omega) (by omega)]
    omega
  · have hs0 : s = 0 := by omega
    subst hs0
    rw [if_neg h0, Int.emod_eq_of_lt (by omega) (by omega)]
    omega

theorem increment_lt (ic s : Nat) (h2 : ic ≤ 255) (hs : s < ic) :
    PromptSelect.increment ic s < ic := by
  rw [increment_eq ic s h2 hs]
  exact Nat.mod_lt _ (by omega)

theorem decrement_lt (ic s : Nat) (hs : s < ic) :
    PromptSelect.decrement ic s < ic := by
  unfold PromptSelect.decrement
  split <;> omega

theorem notify_log (functor : Nat → Event → Nat → Bool) (e : Event) (v : Nat) (st : State) :
    (notify functor e v st).2.log = st.log ++ [(e, v)] := rfl

theorem notify_levels (functor : Nat → Event → Nat → Bool) (e : Event) (v : Nat) (st : State) :
    (notify functor e v st).2.levels = st.levels := rfl

theorem SelectRun.frame {ic sel sel' : Nat} {st st' st'' : State} {events : List (Event × Nat)}
    (h1 : SelectRun ic sel st events sel' st') (h2 : Frame st' st'') :
    SelectRun ic sel st events sel' st'' :=
  ⟨h2.1.trans h1.1, h2.2.trans h1.2.1, h1.2.2⟩

theorem body_sound (h : Host) (prompt : PromptSelectStruct) (tc : Nat)
    (functor : Nat → Event → Nat → Bool) (sel count : Nat) (st : State)
    (hic2 : prompt.item_count ≤ 255) (hs : sel < prompt.item_count) :
    match PromptSelect.body h prompt tc functor sel count st with
    | Step.next sel' _ st' => ∃ events, SelectRun prompt.item_count sel st events sel' st'
    | Step.timeout st' =>
      st'.levels = st.levels ∧ st'.log = st.log ++ [(Event.TIMEOUT, sel)] ∧
        functor st.log.length Event.TIMEOUT sel = false := by
  have hu := IsInputUpdate_frame h st
  unfold PromptSelect.body
  by_cases h1 : (IsInputUpdate h st).1 = true
  · simp only [h1, if_true]
    have hi := hu.andThen (IsInputIncrement_frame h (IsInputUpdate h st).2)
    by_cases h2 : (IsInputIncrement h (IsInputUpdate h st).2).1 = true
    · simp only [h2, if_true]
      refine ⟨[(Event.INCREMENT, PromptSelect.increment prompt.item_count sel)], ?_⟩
      refine SelectRun.frame ?_ (redraw_frame h prompt _ _)
      refine ⟨hi.1, ?_, by simp [replaySelection], by simp, increment_lt _ _ hic2 hs⟩
      rw [notify_log, hi.2]
    · simp only [h2]
      refine ⟨[(Event.DECREMENT, PromptSelect.decrement prompt.item_count sel)], ?_⟩
      refine SelectRun.frame ?_ (redraw_frame h prompt _ _)
      refine ⟨hi.1, ?_, by simp [replaySelection], by simp, decrement_lt _ _ hs⟩
      rw [notify_log, hi.2]
  · simp only [h1]
    by_cases h3 : (count + 1) % 2 ^ 32 > tc
    · simp only [h3, if_true]
      by_cases h4 : (notify functor Event.TIMEOUT sel (IsInputUpdate h st).2).1 = true
      · simp only [h4, if_true]
        refine ⟨[(Event.TIMEOUT, sel)], hu.1, ?_, by simp [replaySelection], by simp, hs⟩
        rw [notify_log, hu.2]
      · simp only [h4]
        refine ⟨hu.1, ?_, ?_⟩
        · rw [notify_log, hu.2]
        · simp only [notify, hu.2] at h4
          simpa using h4
    · simp only [h3]
      exact ⟨[], hu.1, by simp [hu.2], rfl, by simp, hs⟩

theorem loop_sound (h : Host) (prompt : PromptSelectStruct) (tc : Nat)
    (functor : Nat → Event → Nat → Bool) (hic2 : prompt.item_count ≤ 255) :
    ∀ (fuel sel count : Nat) (st : State) (r : Option Nat) (st' : State),
      sel < prompt.item_count →
      PromptSelect.loop h prompt tc functor fuel sel count st = some (r, st') →
      match r with
      | some sel' => ∃ events, SelectRun prompt.item_count sel st events sel' st'
      | none => ∃ events sel', st'.levels = st.levels ∧
          st'.log = st.log ++ events ++ [(Event.TIMEOUT, sel')] ∧
          (∀ e ∈ events, e.1 ≠ Event.SELECTION) ∧
          functor (st.log ++ events).length Event.TIMEOUT sel' = false := by
  intro fuel
  induction fuel with
  | zero => intro sel count st r st' _ hr; simp [PromptSelect.loop] at hr
  | succ n ih =>
    intro sel count st r st' hs hr
    have hb := body_sound h prompt tc functor sel count st hic2 hs
    simp only [PromptSelect.loop] at hr
    split at hr
    · rename_i st1 heq
      rw [heq] at hb
      cases hr
      exact ⟨[], sel, hb.1, by simpa using hb.2.1, by simp, by simpa using hb.2.2⟩
    · rename_i sel1 count1 st1 heq
      rw [heq] at hb
      obtain ⟨ev1, hrun1⟩ := hb
      have hrun2 := hrun1.frame (IsInputSelect_frame h st1)
      split at hr
      · have := ih sel1 count1 _ r st' hrun1.2.2.2.2 hr
        cases r with
        | some sel' =>
          obtain ⟨ev2, hrun3⟩ := this
          refine ⟨ev1 ++ ev2, hrun3.1.trans hrun2.1, ?_, ?_, ?_, hrun3.2.2.2.2⟩
          · rw [hrun3.2.1, hrun2.2.1, List.append_assoc]
          · rw [replaySelection_append, ← hrun2.2.2.1]; exact hrun3.2.2.1
          · intro e he
            rcases List.mem_append.1 he with he | he
            · exact hrun2.2.2.2.1 e he
            · exact hrun3.2.2.2.1 e he
        | none =>
          obtain ⟨ev2, sel', hl, hlog, hne, hf⟩ := this
          refine ⟨ev1 ++ ev2, sel', hl.trans hrun2.1, ?_, ?_, ?_⟩
          · rw [hlog, hrun2.2.1]; simp [List.append_assoc]
          · intro e he
            rcases List.mem_append.1 he with he | he
            · exact hrun2.2.2.2.1 e he
            · exact hne e he
          · rw [hrun2.2.1] at hf
            simpa [List.append_assoc] using hf
      · cases hr
        exact ⟨ev1, hrun2⟩

theorem QuietFrom.update {h : Host} {st : State} (hq : QuietFrom h st) :
    (IsInputUpdate h st).1 = false ∧ QuietFrom h (IsInputUpdate h st).2 := by
  unfold IsInputUpdate
  cases hf : h.m_callback_is_update with
  | none => exact ⟨rfl, hq⟩
  | some f =>
    refine ⟨hq.1 f hf _ (Nat.le_refl _), ?_, hq.2⟩
    intro g hg k hk
    exact hq.1 g hg k (by simp at hk; omega)

theorem QuietFrom.select {h : Host} {st : State} (hq : QuietFrom h st) :
    (IsInputSelect h st).1 = false ∧ QuietFrom h (IsInputSelect h st).2 := by
  unfold IsInputSelect
  cases hf : h.m_callback_is_select with
  | none => exact ⟨rfl, hq⟩
  | some f =>
    refine ⟨hq.2 f hf _ (Nat.le_refl _), hq.1, ?_⟩
    intro g hg k hk
    exact hq.2 g hg k (by simp at hk; omega)

theorem loop_idle (h : Host) (prompt : PromptSelectStruct) (tc : Nat)
    (functor : Nat → Event → Nat → Bool) (sel : Nat) (htc : tc < 2 ^ 32) :
    ∀ (n fuel c : Nat) (st : State), QuietFrom h st → c + n ≤ tc →
      ∃ st', PromptSelect.loop h prompt tc functor (fuel + n) sel c st
          = PromptSelect.loop h prompt tc functor fuel sel (c + n) st' ∧
        Frame st st' ∧ QuietFrom h st' := by
  intro n
  induction n with
  | zero => intro fuel c st hq _; exact ⟨st, rfl, Frame.frefl st, hq⟩
  | succ n ih =>
    intro fuel c st hq hc
    obtain ⟨hu, hq1⟩ := hq.update
    obtain ⟨hs, hq2⟩ := hq1.select
    have hmod : (c + 1) % 2 ^ 32 = c + 1 := Nat.mod_eq_of_lt (by omega)
    have hbody : PromptSelect.body h prompt tc functor sel c st
        = Step.next sel (c + 1) (IsInputUpdate h st).2 := by
      have hgt : ¬ (c + 1 > tc) := by omega
      unfold PromptSelect.body
      simp only [hu, hmod, hgt, Bool.false_eq_true, if_false]
    obtain ⟨st', hl, hf, hq'⟩ := ih fuel (c + 1) _ hq2 (by omega)
    refine ⟨st', ?_, ((IsInputUpdate_frame h st).andThen (IsInputSelect_frame h _)).andThen hf, hq'⟩
    rw [← Nat.add_assoc, PromptSelect.loop, hbody]
    simp only [hs, if_true]
    rw [hl]
    congr 1
    omega

theorem loop_timeout (h : Host) (prompt : PromptSelectStruct) (tc : Nat)
    (functor : Nat → Event → Nat → Bool) (sel : Nat) (htc : tc + 1 < 2 ^ 32)
    (fuel : Nat) (st : State) (hq : QuietFrom h st)
    (hf : functor st.log.length Event.TIMEOUT sel = false) :
    ∃ st', PromptSelect.loop h prompt tc functor (fuel + 1) sel tc st = some (none, st') ∧
      st'.levels = st.levels ∧ st'.log = st.log ++ [(Event.TIMEOUT, sel)] := by
  obtain ⟨hu, _⟩ := hq.update
  have hfr := IsInputUpdate_frame h st
  have hmod : (tc + 1) % 2 ^ 32 = tc + 1 := Nat.mod_eq_of_lt htc
  have hbody : PromptSelect.body h prompt tc functor sel tc st
      = Step.timeout (notify functor Event.TIMEOUT sel (IsInputUpdate h st).2).2 := by
    have hgt : tc + 1 > tc := by omega
    have : (notify functor Event.TIMEOUT sel (IsInputUpdate h st).2).1 = false := by
      simp only [notify, hfr.2]; exact hf
    unfold PromptSelect.body
    simp only [hu, hmod, hgt, this, Bool.false_eq_true, if_false, if_true]
  refine ⟨(notify functor Event.TIMEOUT sel (IsInputUpdate h st).2).2, ?_, ?_, ?_⟩
  · rw [PromptSelect.loop, hbody]
  · rw [notify_levels]; exact hfr.1
  · rw [notify_log, hfr.2]

theorem initialDirection_frame (h : Host) (prompt : PromptSelectStruct) (st : State) :
    Frame st (PromptSelect.initialDirection h prompt st).2 := by
  unfold PromptSelect.initialDirection
  split
  · exact IsInputIncrement_frame h st
  · exact Frame.frefl st

theorem enter_spec (fuel : Nat) (h : Host) (st : State) (prompt : PromptSelectStruct)
    (copy : List Nat) (st1 : State) (he : PromptSelect.enter fuel h st prompt = some (copy, st1)) :
    copy = st.levels ∧ Frame st st1 := by
  unfold PromptSelect.enter at he
  cases ht : showTitle fuel h prompt.title st with
  | none => rw [ht] at he; exact absurd he (by simp)
  | some st0 =>
    rw [ht] at he
    have h0 := showTitle_frame fuel h _ st st0 ht
    have hd := initialDirection_frame h prompt st0
    have hb := blankAndCopy_spec (PromptSelect.initialDirection h prompt st0).1
      (PromptSelect.initialDirection h prompt st0).2
    simp only [Option.some.injEq, Prod.mk.injEq] at he
    obtain ⟨hc, hs⟩ := he
    refine ⟨?_, ?_⟩
    · rw [← hc, hb.1, hd.1, h0.1]
    · rw [← hs]
      exact (((h0.andThen hd).andThen hb.2).andThen (EffectScroll_P_frame _ _ _ _)).andThen
        (IsInputUpdate_frame _ _)

theorem confirmAndRestore_shape (copy : List Nat) (st : State) :
    Shape st (confirmAndRestore copy st) := by
  unfold confirmAndRestore
  exact (((SetDisplayBrightness_shape st Brightness.MAX).next
    ((EffectStrobe_frame _ 10 36).shape)).next (delay_frame 250 _).shape).next
    (restoreBrightness_shape copy _)

theorem confirmAndRestore_levels (copy : List Nat) (st : State)
    (hlen : copy.length = st.unit.length) (hle : ∀ c ∈ copy, c ≤ 8) :
    (confirmAndRestore copy st).levels = copy := by
  have h1 : Shape st (delay 250 (EffectStrobe (SetDisplayBrightness st Brightness.MAX).2 10 36)) :=
    ((SetDisplayBrightness_shape st Brightness.MAX).next
      ((EffectStrobe_frame _ 10 36).shape)).next (delay_frame 250 _).shape
  unfold confirmAndRestore
  exact restoreBrightness_levels copy
    (delay 250 (EffectStrobe (SetDisplayBrightness st Brightness.MAX).2 10 36))
    (hlen.trans h1.1.symm) hle

theorem leave_snd (functor : Nat → Event → Nat → Bool) (copy : List Nat) (sel : Nat) (st : State) :
    (PromptSelect.leave functor copy sel st).2
      = confirmAndRestore copy (notify functor Event.SELECTION sel st).2 := by
  simp only [PromptSelect.leave]

theorem leave_log (functor : Nat → Event → Nat → Bool) (copy : List Nat) (sel : Nat) (st : State) :
    (PromptSelect.leave functor copy sel st).2.log = st.log ++ [(Event.SELECTION, sel)] := by
  rw [leave_snd, (confirmAndRestore_shape copy _).2, notify_log]

theorem leave_levels (functor : Nat → Event → Nat → Bool) (copy : List Nat) (sel : Nat) (st : State)
    (hlen : copy.length = st.unit.length) (hle : ∀ c ∈ copy, c ≤ 8) :
    (PromptSelect.leave functor copy sel st).2.levels = copy := by
  rw [leave_snd]
  exact confirmAndRestore_levels copy (notify functor Event.SELECTION sel st).2 hlen hle

theorem toInt8_small (n : Nat) (hn : n ≤ 127) : toInt8 n = (n : Int) := by
  unfold toInt8
  have : n % 256 = n := Nat.mod_eq_of_lt (by omega)
  rw [this, if_pos (by omega)]

theorem toInt8_ne_neg_one (n : Nat) (hn : n < 255) : toInt8 n ≠ -1 := by
  unfold toInt8
  have : n % 256 = n := Nat.mod_eq_of_lt (by omega)
  rw [this]
  split <;> omega

/-- C1: in `PromptSelect`, for an item count of at most 255 and a selection `s` below it,
an update resolved as increment sets the selection to `(s + 1) mod item_count` and one
resolved as decrement sets it to `(s - 1 + item_count) mod item_count`, each notified with
the new selection; so the selection stays below `item_count` after any sequence of
increments and decrements (with 3 items, from 0: one decrement gives 2, one more gives 1). -/
theorem PromptSelect_selection_stepping (h : Host) (prompt : PromptSelectStruct)
    (timeout_count : Nat) (functor : Nat → Event → Nat → Bool) (s count : Nat) (st : State)
    (hic : prompt.item_count ≤ 255) (hs : s < prompt.item_count)
    (hupd : (IsInputUpdate h st).1 = true) :
    PromptSelect.increment prompt.item_count s = (s + 1) % prompt.item_count ∧
    ((PromptSelect.decrement prompt.item_count s : Nat) : Int)
      = ((s : Int) - 1 + (prompt.item_count : Int)) % (prompt.item_count : Int) ∧
    (∃ st', PromptSelect.body h prompt timeout_count functor s count st
        = (if (IsInputIncrement h (IsInputUpdate h st).2).1 then
            Step.next (PromptSelect.increment prompt.item_count s) 0 st'
          else Step.next (PromptSelect.decrement prompt.item_count s) 0 st') ∧
      st'.log = st.log ++
        [if (IsInputIncrement h (IsInputUpdate h st).2).1 then
            (Event.INCREMENT, PromptSelect.increment prompt.item_count s)
          else (Event.DECREMENT, PromptSelect.decrement prompt.item_count s)]) ∧
    (∀ moves : List Bool,
      moves.foldl (fun sel up =>
          if up then PromptSelect.increment prompt.item_count sel
          else PromptSelect.decrement prompt.item_count sel) s < prompt.item_count) ∧
    PromptSelect.decrement 3 0 = 2 ∧ PromptSelect.decrement 3 2 = 1 := by
  refine ⟨increment_eq _ _ hic hs, decrement_eq _ _ hic hs, ?_, ?_, by decide, by decide⟩
  · have hi := (IsInputUpdate_frame h st).andThen (IsInputIncrement_frame h (IsInputUpdate h st).2)
    by_cases h2 : (IsInputIncrement h (IsInputUpdate h st).2).1 = true
    · refine ⟨PromptSelect.redraw h prompt (PromptSelect.increment prompt.item_count s)
        (notify functor Event.INCREMENT (PromptSelect.increment prompt.item_count s)
          (IsInputIncrement h (IsInputUpdate h st).2).2).2, ?_, ?_⟩
      · unfold PromptSelect.body
        simp only [hupd, h2, if_true]
      · rw [(redraw_frame h prompt _ _).2, notify_log, hi.2]
        simp only [h2, if_true]
    · refine ⟨PromptSelect.redraw h prompt (PromptSelect.decrement prompt.item_count s)
        (notify functor Event.DECREMENT (PromptSelect.decrement prompt.item_count s)
          (IsInputIncrement h (IsInputUpdate h st).2).2).2, ?_, ?_⟩
      · unfold PromptSelect.body
        simp only [hupd, h2, if_true, Bool.false_eq_true, if_false]
      · rw [(redraw_frame h prompt _ _).2, notify_log, hi.2]
        simp only [h2, Bool.false_eq_true, if_false]
  · intro moves
    induction moves generalizing s with
    | nil => simpa using hs
    | cons b moves ih =>
      simp only [List.foldl_cons]
      apply ih
      cases b
      · simpa using decrement_lt _ _ hs
      · simpa using increment_lt _ _ hic hs

/-- Witness for C1: the two-item menu at selection 0, with the update and increment inputs
answering true. -/
theorem PromptSelect_selection_stepping_witness :
    PromptSelect.increment 2 0 = (0 + 1) % 2 ∧
    ((PromptSelect.decrement 2 0 : Nat) : Int) = (((0 : Nat) : Int) - 1 + ((2 : Nat) : Int)) % ((2 : Nat) : Int) :=
  have w := PromptSelect_selection_stepping hostHeld menu2 0 default_parameter 0 0 display4
    (by decide) (by decide) (by decide)
  ⟨w.1, w.2.1⟩

theorem rounds_diverge (h : Host) (ms : Nat) (s : List Nat) :
    ∀ (fuel count : Nat) (array : List Nat) (st : State),
      253 ≤ st.unit.length → count < 256 →
      EffectSlotMachine.rounds h ms s fuel count array st = none := by
  intro fuel
  induction fuel with
  | zero => intro count array st _ _; rfl
  | succ n ih =>
    intro count array st hlen hc
    rw [EffectSlotMachine.rounds, if_pos (by omega)]
    cases hl : (if 2 < count then EffectSlotMachine.latch h n array st else some (array, st)) with
    | none => rfl
    | some r =>
      obtain ⟨array1, st1⟩ := r
      have h1 : Frame st st1 := by
        split at hl
        · exact latch_frame h _ _ _ _ hl
        · cases hl; exact Frame.frefl st
      have h2 : Frame st (forLoop (fun _ acc =>
          delay ms (EffectSlotMachine.render h s array1 acc)) 5 0 st1) :=
        forLoop_invariant (Frame st) _
          (fun i a ha => (ha.andThen (render_frame h s array1 a)).andThen (delay_frame _ _)) _ _ _ h1
      exact ih _ _ _ (by rw [h2.length]; exact hlen) (Nat.mod_lt _ (by omega))

theorem PromptSelect_none_of_title (fuel : Nat) (h : Host) (st : State)
    (prompt : PromptSelectStruct) (timeout : Nat) (functor : Nat → Event → Nat → Bool)
    (t : List Nat) (ht : prompt.title = some t) (hlen : 253 ≤ st.unit.length) :
    PromptSelect fuel h st prompt timeout functor = none := by
  have h1 : Frame st (SetDisplayValue_P st t).2 := SetDisplayValue_P_frame st t
  have h2 : showTitle fuel h prompt.title st = none := by
    rw [ht]
    unfold showTitle EffectSlotMachine
    simp only [Option.map_eq_none']
    exact rounds_diverge h 10 _ fuel 0 _ _ (by rw [h1.length]; exact hlen) (by omega)
  unfold PromptSelect PromptSelect.run PromptSelect.enter
  rw [h2]

/-- C3, failing input: on a display of 253 units a prompt with a title never returns,
whatever the fuel: the round counter of `EffectSlotMachine` is a `uint8_t` compared with
`unit_count + 3 = 256`. No callback is installed and the notification answers false, so
the claim promises the result -1. -/
theorem PromptSelect_title_253_never_returns :
    ¬ ∃ fuel r, PromptSelect fuel hostNone display253 menu2Title 1 default_parameter = some r := by
  rintro ⟨fuel, r, hr⟩
  rw [PromptSelect_none_of_title fuel hostNone display253 menu2Title 1 default_parameter
    [77, 69, 78, 85] rfl (Nat.le_of_eq (List.length_replicate 253 _).symm)] at hr
  exact absurd hr (by simp)

theorem Quiet.from {h : Host} (hq : Quiet h) (st : State) : QuietFrom h st :=
  ⟨fun f hf k _ => hq.1 f hf k, fun f hf k _ => hq.2 f hf k⟩

/-- The timeout of `PromptSelect` without input, once the entry has completed: the loop
returns -1 in its iteration number `t * 3000 + 1` and not before, and the only
notification is `TIMEOUT` carrying the initial selection. -/
theorem PromptSelect_idle_timeout (fuel : Nat) (h : Host) (st : State)
    (prompt : PromptSelectStruct) (t : Nat) (functor : Nat → Event → Nat → Bool)
    (copy : List Nat) (st1 : State)
    (ht : t * 3000 < 2 ^ 32) (hq : Quiet h)
    (hf : ∀ k v, functor k Event.TIMEOUT v = false)
    (he : PromptSelect.enter fuel h st prompt = some (copy, st1))
    (hfuel : t * 3000 < fuel) :
    (∃ st', PromptSelect fuel h st prompt t functor = some (-1, st') ∧
      st'.log = st.log ++ [(Event.TIMEOUT, prompt.initial_selection)] ∧
      st'.levels = st.levels) ∧
    (∃ st', PromptSelect.loop h prompt (t * 3000) functor (t * 3000 + 1)
      prompt.initial_selection 0 st1 = some (none, st')) ∧
    PromptSelect.loop h prompt (t * 3000) functor (t * 3000)
      prompt.initial_selection 0 st1 = none := by
  have htc : t * 3000 % 2 ^ 32 = t * 3000 := Nat.mod_eq_of_lt ht
  have hes := enter_spec fuel h st prompt copy st1 he
  have key : ∀ k, ∃ st', PromptSelect.loop h prompt (t * 3000) functor (k + 1 + t * 3000)
      prompt.initial_selection 0 st1 = some (none, st') ∧
      st'.levels = st.levels ∧
      st'.log = st.log ++ [(Event.TIMEOUT, prompt.initial_selection)] := by
    intro k
    obtain ⟨st2, hl, hfr, hq2⟩ := loop_idle h prompt (t * 3000) functor prompt.initial_selection ht
      (t * 3000) (k + 1) 0 st1 (hq.from st1) (by omega)
    obtain ⟨st3, hl3, hlev, hlog⟩ := loop_timeout h prompt (t * 3000) functor
      prompt.initial_selection (by omega) k st2 hq2 (hf _ _)
    refine ⟨st3, ?_, ?_, ?_⟩
    · rw [hl, Nat.zero_add, hl3]
    · rw [hlev, hfr.1, hes.2.1]
    · rw [hlog, hfr.2, hes.2.2]
  refine ⟨?_, ?_, ?_⟩
  · obtain ⟨st', hl, hlev, hlog⟩ := key (fuel - (t * 3000 + 1))
    have hfe : fuel - (t * 3000 + 1) + 1 + t * 3000 = fuel := by omega
    rw [hfe] at hl
    refine ⟨st', ?_, hlog, hlev⟩
    unfold PromptSelect PromptSelect.run
    simp only [he, htc, hl]
  · obtain ⟨st', hl, _, _⟩ := key 0
    refine ⟨st', ?_⟩
    have : 0 + 1 + t * 3000 = t * 3000 + 1 := by omega
    rw [this] at hl
    exact hl
  · obtain ⟨st2, hl, _, _⟩ := loop_idle h prompt (t * 3000) functor prompt.initial_selection ht
      (t * 3000) 0 0 st1 (hq.from st1) (by omega)
    rw [Nat.zero_add] at hl
    rw [hl]
    rfl

theorem latchMeasure_set (array : List Nat) :
    ∀ (r : Nat), array.getD r 0 ≠ 0 → array.getD r 0 < 256 →
      latchMeasure (array.set r ((array.getD r 0 + 1) % 256)) < latchMeasure array := by
  induction array with
  | nil => intro r h0 _; simp at h0
  | cons a as ih =>
    intro r h0 h1
    cases r with
    | zero =>
      simp only [List.getD_cons_zero] at h0 h1
      simp only [List.set_cons_zero, latchMeasure, List.getD_cons_zero, h0, if_false]
      by_cases h255 : a = 255
      · subst h255; simp
      · have : (a + 1) % 256 = a + 1 := Nat.mod_eq_of_lt (by omega)
        rw [this, if_neg (by omega)]
        omega
    | succ r =>
      simp only [List.getD_cons_succ] at h0 h1
      simp only [List.set_cons_succ, latchMeasure, List.getD_cons_succ]
      have := ih r h0 h1
      omega

theorem latchMeasure_le (array : List Nat) (hb : ∀ a ∈ array, a < 256) :
    latchMeasure array ≤ 256 * array.length := by
  induction array with
  | nil => simp [latchMeasure]
  | cons a as ih =>
    have := ih (fun x hx => hb x (List.mem_cons_of_mem _ hx))
    simp only [latchMeasure, List.length_cons]
    split <;> omega

theorem set_bound (array : List Nat) (r v : Nat) (hb : ∀ a ∈ array, a < 256) (hv : v < 256) :
    ∀ a ∈ array.set r v, a < 256 := by
  intro a ha
  rcases List.mem_or_eq_of_mem_set ha with h | h
  · exact hb a h
  · rw [h]; exact hv

theorem latch_terminates (h : Host) :
    ∀ (fuel : Nat) (array : List Nat) (st : State), (∀ a ∈ array, a < 256) →
      latchMeasure array < fuel →
      ∃ r, EffectSlotMachine.latch h fuel array st = some r ∧ (∀ a ∈ r.1, a < 256) ∧
        r.1.length = array.length := by
  intro fuel
  induction fuel with
  | zero => intro array st _ hm; omega
  | succ n ih =>
    intro array st hb hm
    rw [EffectSlotMachine.latch]
    by_cases h0 : array.getD (random_fast h st 0 st.unit.length).1 0 ≠ 0
    · rw [if_pos h0]
      have hlt : array.getD (random_fast h st 0 st.unit.length).1 0 < 256 := by
        have hr : (random_fast h st 0 st.unit.length).1 < array.length := by
          by_contra hge
          apply h0
          simp only [List.getD_eq_getElem?_getD]
          rw [List.getElem?_eq_none (by omega)]
          rfl
        simp only [List.getD_eq_getElem?_getD, List.getElem?_eq_getElem hr, Option.getD_some]
        exact hb _ (List.getElem_mem _)
      have hdec := latchMeasure_set array _ h0 hlt
      obtain ⟨r, hr, hrb, hrl⟩ := ih
        (array.set (random_fast h st 0 st.unit.length).1
          ((array.getD (random_fast h st 0 st.unit.length).1 0 + 1) % 256))
        (random_fast h st 0 st.unit.length).2
        (set_bound array _ _ hb (Nat.mod_lt _ (by omega))) (by omega)
      exact ⟨r, hr, hrb, by rw [hrl, List.length_set]⟩
    · rw [if_neg h0]
      exact ⟨_, rfl, set_bound array _ _ hb (Nat.mod_lt _ (by omega)), by simp⟩

theorem rounds_terminates (h : Host) (ms : Nat) (s : List Nat) :
    ∀ (fuel count : Nat) (array : List Nat) (st : State), st.unit.length ≤ 252 →
      count ≤ st.unit.length + 3 → (∀ a ∈ array, a < 256) →
      (st.unit.length + 3 - count) + 256 * array.length + 2 ≤ fuel →
      ∃ st', EffectSlotMachine.rounds h ms s fuel count array st = some st' := by
  intro fuel
  induction fuel with
  | zero => intro count array st _ _ _ hf; omega
  | succ n ih =>
    intro count array st hlen hc hb hf
    rw [EffectSlotMachine.rounds]
    by_cases hlt : count < st.unit.length + 3
    · simp only [hlt, if_true]
      have hl : ∃ r, (if 2 < count then EffectSlotMachine.latch h n array st
          else some (array, st)) = some r ∧ (∀ a ∈ r.1, a < 256) ∧ r.1.length = array.length ∧
          Frame st r.2 := by
        split
        · have hm := latchMeasure_le array hb
          obtain ⟨r, hr, hrb, hrl⟩ := latch_terminates h n array st hb (by omega)
          exact ⟨r, hr, hrb, hrl, latch_frame h _ _ _ _ hr⟩
        · exact ⟨(array, st), rfl, hb, rfl, Frame.frefl st⟩
      obtain ⟨r, hr, hrb, hrl, hfr⟩ := hl
      obtain ⟨array1, st1⟩ := r
      simp only [hr]
      have h2 : Frame st (forLoop (fun _ acc =>
          delay ms (EffectSlotMachine.render h s array1 acc)) 5 0 st1) :=
        forLoop_invariant (Frame st) _
          (fun i a ha => (ha.andThen (render_frame h s array1 a)).andThen (delay_frame _ _)) _ _ _
          hfr
      have hmod : (count + 1) % 256 = count + 1 := Nat.mod_eq_of_lt (by omega)
      rw [hmod]
      refine ih (count + 1) array1 _ (by rw [h2.length]; exact hlen) (by rw [h2.length]; omega)
        hrb ?_
      rw [h2.length]
      simp only at hrl
      rw [hrl]
      omega
    · simp only [hlt, if_false]
      exact ⟨st, rfl⟩

theorem showTitle_terminates (fuel : Nat) (h : Host) (title : Option (List Nat)) (st : State)
    (hok : title = none ∨ (st.unit.length ≤ 252 ∧ 257 * st.unit.length + 5 ≤ fuel)) :
    ∃ st', showTitle fuel h title st = some st' := by
  unfold showTitle
  cases title with
  | none => exact ⟨st, rfl⟩
  | some t =>
    rcases hok with hno | ⟨hlen, hf⟩
    · exact absurd hno (by simp)
    · have h1 : Frame st (SetDisplayValue_P st t).2 := SetDisplayValue_P_frame st t
      obtain ⟨st', hst⟩ := rounds_terminates h 10 (GetDisplayValue (SetDisplayValue_P st t).2) fuel 0
        (List.replicate (SetDisplayValue_P st t).2.unit.length 0) (SetDisplayValue_P st t).2
        (by rw [h1.length]; exact hlen) (by omega)
        (by intro a ha; rw [List.eq_of_mem_replicate ha]; omega)
        (by rw [List.length_replicate, h1.length]; omega)
      refine ⟨delay 1000 st', ?_⟩
      simp only [EffectSlotMachine, hst, Option.map_some']

theorem select_enter_terminates (fuel : Nat) (h : Host) (st : State) (prompt : PromptSelectStruct)
    (hok : prompt.title = none ∨ (st.unit.length ≤ 252 ∧ 257 * st.unit.length + 5 ≤ fuel)) :
    ∃ copy st1, PromptSelect.enter fuel h st prompt = some (copy, st1) := by
  obtain ⟨st0, h0⟩ := showTitle_terminates fuel h prompt.title st hok
  unfold PromptSelect.enter
  simp only [h0]
  exact ⟨_, _, rfl⟩

/-- The timeout of `PromptSelect` without input on every configuration whose title
sequence ends (no title, or a display of at most 252 units): the result is -1 and the
only notification is `TIMEOUT` carrying the initial selection. -/
theorem PromptSelect_idle_timeout_total (fuel : Nat) (h : Host) (st : State)
    (prompt : PromptSelectStruct) (t : Nat) (functor : Nat → Event → Nat → Bool)
    (ht : t * 3000 < 2 ^ 32) (hq : Quiet h)
    (hf : ∀ k v, functor k Event.TIMEOUT v = false)
    (hok : prompt.title = none ∨ (st.unit.length ≤ 252 ∧ 257 * st.unit.length + 5 ≤ fuel))
    (hfuel : t * 3000 < fuel) :
    ∃ st', PromptSelect fuel h st prompt t functor = some (-1, st') ∧
      st'.log = st.log ++ [(Event.TIMEOUT, prompt.initial_selection)] ∧
      st'.levels = st.levels := by
  obtain ⟨copy, st1, he⟩ := select_enter_terminates fuel h st prompt hok
  exact (PromptSelect_idle_timeout fuel h st prompt t functor copy st1 ht hq hf he hfuel).1

theorem run_spec (fuel : Nat) (h : Host) (st : State) (prompt : PromptSelectStruct)
    (timeout : Nat) (functor : Nat → Event → Nat → Bool) (r : Option Nat) (copy : List Nat)
    (st2 : State) (hic : prompt.item_count ≤ 255)
    (hinit : prompt.initial_selection < prompt.item_count)
    (hr : PromptSelect.run fuel h st prompt timeout functor = some (r, copy, st2)) :
    copy = st.levels ∧
    match r with
    | some sel => ∃ events, SelectRun prompt.item_count prompt.initial_selection st events sel st2
    | none => ∃ events sel, st2.levels = st.levels ∧
        st2.log = st.log ++ events ++ [(Event.TIMEOUT, sel)] ∧
        (∀ e ∈ events, e.1 ≠ Event.SELECTION) ∧
        functor (st.log ++ events).length Event.TIMEOUT sel = false := by
  unfold PromptSelect.run at hr
  cases he : PromptSelect.enter fuel h st prompt with
  | none => rw [he] at hr; exact absurd hr (by simp)
  | some e =>
    obtain ⟨copy1, st1⟩ := e
    rw [he] at hr
    cases hl : PromptSelect.loop h prompt (timeout * 3000 % 2 ^ 32) functor fuel
        prompt.initial_selection 0 st1 with
    | none => simp only [hl] at hr; exact absurd hr (by simp)
    | some l =>
      obtain ⟨r2, st3⟩ := l
      simp only [hl, Option.some.injEq, Prod.mk.injEq] at hr
      obtain ⟨hr2, hc, hst⟩ := hr
      subst hr2 hst hc
      have hes := enter_spec fuel h st prompt copy1 st1 he
      have hsound := loop_sound h prompt _ functor hic fuel _ 0 st1 _ _ hinit hl
      refine ⟨hes.1, ?_⟩
      cases r2 with
      | some sel =>
        obtain ⟨events, hrun⟩ := hsound
        exact ⟨events, hrun.1.trans hes.2.1, by rw [hrun.2.1, hes.2.2], hrun.2.2⟩
      | none =>
        obtain ⟨events, sel, hlev, hlog, hne, hf⟩ := hsound
        refine ⟨events, sel, hlev.trans hes.2.1, by rw [hlog, hes.2.2], hne, ?_⟩
        rw [hes.2.2] at hf
        exact hf

/-- C4 (amended): for a valid configuration and a timeout with `timeout * 3000 < 2^32`:
`PromptSelect` returns -1 exactly when its last notification was a TIMEOUT answered with
false; a TIMEOUT answered with true does not end the prompt and restarts the idle counter
from 0; from a zero counter, without further input, nothing is notified during
`timeout * 3000` idle iterations and the next one raises TIMEOUT; a run ended by select
does not return -1. -/
theorem PromptSelect_timeout_postponement (h : Host) (prompt : PromptSelectStruct) (t : Nat)
    (functor : Nat → Event → Nat → Bool)
    (hic : prompt.item_count ≤ 255) (hinit : prompt.initial_selection < prompt.item_count)
    (ht : t * 3000 < 2 ^ 32) :
    (∀ fuel st r st', PromptSelect fuel h st prompt t functor = some (r, st') →
      (r = -1 ↔ ∃ v, st'.log.getLast? = some (Event.TIMEOUT, v) ∧
        functor (st'.log.length - 1) Event.TIMEOUT v = false)) ∧
    (∀ sel count st, (IsInputUpdate h st).1 = false → (count + 1) % 2 ^ 32 > t * 3000 →
      functor st.log.length Event.TIMEOUT sel = true →
      ∃ st1, PromptSelect.body h prompt (t * 3000) functor sel count st = Step.next sel 0 st1 ∧
        st1.log = st.log ++ [(Event.TIMEOUT, sel)]) ∧
    (∀ fuel sel st, QuietFrom h st →
      (∀ n, n ≤ t * 3000 →
        ∃ st', PromptSelect.loop h prompt (t * 3000) functor (fuel + n) sel 0 st
            = PromptSelect.loop h prompt (t * 3000) functor fuel sel n st' ∧
          st'.log = st.log) ∧
      ∃ st' st'', PromptSelect.loop h prompt (t * 3000) functor (fuel + t * 3000) sel 0 st
          = PromptSelect.loop h prompt (t * 3000) functor fuel sel (t * 3000) st' ∧
        st'.log = st.log ∧
        (PromptSelect.body h prompt (t * 3000) functor sel (t * 3000) st' = Step.timeout st'' ∨
          PromptSelect.body h prompt (t * 3000) functor sel (t * 3000) st'
            = Step.next sel 0 st'') ∧
        st''.log = st.log ++ [(Event.TIMEOUT, sel)]) ∧
    (∀ fuel st sel,
      (PromptSelect.run fuel h st prompt t functor).map (fun r => r.1) = some (some sel) →
      ∃ st', PromptSelect fuel h st prompt t functor = some (toInt8 sel, st') ∧
        toInt8 sel ≠ -1) := by
  refine ⟨?_, ?_, ?_, ?_⟩
  · intro fuel st r st' hp
    unfold PromptSelect at hp
    cases hr : PromptSelect.run fuel h st prompt t functor with
    | none => rw [hr] at hp; exact absurd hp (by simp)
    | some x =>
      obtain ⟨r1, copy, st2⟩ := x
      have hs := (run_spec fuel h st prompt t functor r1 copy st2 hic hinit hr).2
      rw [hr] at hp
      cases r1 with
      | none =>
        simp only [Option.some.injEq, Prod.mk.injEq] at hp
        obtain ⟨hr1, hst⟩ := hp
        subst hr1 hst
        obtain ⟨events, sel, _, hlog, _, hf⟩ := hs
        refine ⟨fun _ => ⟨sel, ?_, ?_⟩, fun _ => rfl⟩
        · rw [hlog, List.getLast?_concat]
        · rw [hlog]
          simpa using hf
      | some sel =>
        simp only [Option.some.injEq] at hp
        obtain ⟨events, hrun⟩ := hs
        have hr1 : r = toInt8 sel := by
          have := congrArg Prod.fst hp
          simp only [PromptSelect.leave] at this
          exact this.symm
        have hst : st'.log = st2.log ++ [(Event.SELECTION, sel)] := by
          have h2 : (PromptSelect.leave functor copy sel st2).2 = st' := congrArg Prod.snd hp
          rw [← h2]
          exact leave_log functor copy sel st2
        have hne : toInt8 sel ≠ -1 := toInt8_ne_neg_one sel (by have := hrun.2.2.2.2; omega)
        constructor
        · intro hneg
          exact absurd (hr1 ▸ hneg) hne
        · rintro ⟨v, hlast, _⟩
          rw [hst, List.getLast?_concat] at hlast
          simp at hlast
  · intro sel count st hu hgt hf
    have hfr := IsInputUpdate_frame h st
    have hn : (notify functor Event.TIMEOUT sel (IsInputUpdate h st).2).1 = true := by
      simp only [notify, hfr.2]; exact hf
    refine ⟨(notify functor Event.TIMEOUT sel (IsInputUpdate h st).2).2, ?_, ?_⟩
    · unfold PromptSelect.body
      simp only [hu, hgt, hn, Bool.false_eq_true, if_false, if_true]
    · rw [notify_log, hfr.2]
  · intro fuel sel st hq
    constructor
    · intro n hn
      obtain ⟨st', hl, hfr, _⟩ := loop_idle h prompt (t * 3000) functor sel ht n fuel 0 st hq
        (by omega)
      exact ⟨st', by rw [hl, Nat.zero_add], hfr.2⟩
    · obtain ⟨st', hl, hfr, hq'⟩ := loop_idle h prompt (t * 3000) functor sel ht (t * 3000) fuel 0
        st hq (by omega)
      obtain ⟨hu, _⟩ := hq'.update
      have hfu := IsInputUpdate_frame h st'
      have hmod : (t * 3000 + 1) % 2 ^ 32 = t * 3000 + 1 := Nat.mod_eq_of_lt (by omega)
      have hgt : t * 3000 + 1 > t * 3000 := by omega
      refine ⟨st', (notify functor Event.TIMEOUT sel (IsInputUpdate h st').2).2,
        by rw [hl, Nat.zero_add], hfr.2, ?_, by rw [notify_log, hfu.2, hfr.2]⟩
      by_cases hn : (notify functor Event.TIMEOUT sel (IsInputUpdate h st').2).1 = true
      · right
        unfold PromptSelect.body
        simp only [hu, hmod, hgt, hn, Bool.false_eq_true, if_false, if_true]
      · left
        unfold PromptSelect.body
        simp only [hu, hmod, hgt, hn, Bool.false_eq_true, if_false, if_true]
  · intro fuel st sel hrun
    cases hr : PromptSelect.run fuel h st prompt t functor with
    | none => rw [hr] at hrun; exact absurd hrun (by simp)
    | some x =>
      obtain ⟨r1, copy, st2⟩ := x
      rw [hr] at hrun
      simp only [Option.map_some', Option.some.injEq] at hrun
      subst hrun
      obtain ⟨events, hrun⟩ := (run_spec fuel h st prompt t functor _ copy st2 hic hinit hr).2
      refine ⟨(PromptSelect.leave functor copy sel st2).2, ?_,
        toInt8_ne_neg_one sel (by have := hrun.2.2.2.2; omega)⟩
      unfold PromptSelect
      rw [hr]
      simp only [PromptSelect.leave]

theorem quietFrom_hostNone (st : State) : QuietFrom hostNone st :=
  ⟨fun _ hf => absurd hf (by simp [hostNone]), fun _ hf => absurd hf (by simp [hostNone])⟩

/-- Witness for C4: the two-item menu, timeout 1, no callback installed. -/
theorem PromptSelect_timeout_postponement_witness :
    ∃ st' st'', PromptSelect.loop hostNone menu2 (1 * 3000) postponeOnce (5 + 1 * 3000) 0 0 display4
        = PromptSelect.loop hostNone menu2 (1 * 3000) postponeOnce 5 0 (1 * 3000) st' ∧
      st'.log = display4.log ∧
      (PromptSelect.body hostNone menu2 (1 * 3000) postponeOnce 0 (1 * 3000) st'
          = Step.timeout st'' ∨
        PromptSelect.body hostNone menu2 (1 * 3000) postponeOnce 0 (1 * 3000) st'
          = Step.next 0 0 st'') ∧
      st''.log = display4.log ++ [(Event.TIMEOUT, 0)] :=
  ((PromptSelect_timeout_postponement hostNone menu2 1 postponeOnce (by decide) (by decide)
    (by decide)).2.2.1 5 0 display4 (quietFrom_hostNone display4)).2

set_option maxRecDepth 1000000 in
/-- Counterexample to C4 as stated: with timeout 1431656 the product `timeout * 3000`
overflows 32 bits and leaves a budget of 704; after a postponed TIMEOUT the next one is
raised 705 idle iterations later, not `timeout * 3000 + 1` later. -/
theorem PromptSelect_timeout_postponement_counterexample :
    (PromptSelect 1410 hostNone display4 menu2 1431656 postponeOnce).map
      (fun r => (r.1, r.2.log)) = some (-1, [(Event.TIMEOUT, 0), (Event.TIMEOUT, 0)]) ∧
    1410 < 1431656 * 3000 + 1 := by
  decide

theorem SamePolls.quiet {h : Host} {st st' : State} (hp : SamePolls st st') (hq : QuietFrom h st) :
    QuietFrom h st' :=
  ⟨fun f hf k hk => hq.1 f hf k (by rw [← hp.1]; exact hk),
   fun f hf k hk => hq.2 f hf k (by rw [← hp.2]; exact hk)⟩

theorem SetUnitBrightness_polls (st : State) (u b : Nat) :
    SamePolls st (SetUnitBrightness st u b).2 := by
  unfold SetUnitBrightness
  split
  · split
    · exact ⟨rfl, rfl⟩
    · exact ⟨rfl, rfl⟩
  · exact ⟨rfl, rfl⟩

theorem setFieldBrightness_shape (prompt : PromptValueStruct) (item b : Nat) (st : State) :
    Shape st (PromptValue.setFieldBrightness prompt item b st) :=
  forLoop_invariant (Shape st) _ (fun _ a ha => ha.next (SetUnitBrightness_shape a _ _)) _ _ _
    (Shape.srefl st)

theorem setFieldBrightness_polls (prompt : PromptValueStruct) (item b : Nat) (st : State) :
    SamePolls st (PromptValue.setFieldBrightness prompt item b st) :=
  forLoop_invariant (SamePolls st) _
    (fun _ a ha => ⟨(SetUnitBrightness_polls a _ _).1.trans ha.1,
      (SetUnitBrightness_polls a _ _).2.trans ha.2⟩) _ _ _ ⟨rfl, rfl⟩

theorem blink_shape (prompt : PromptValueStruct) (timeout item count : Nat) (st : State) :
    Shape st (PromptValue.blink prompt timeout item count st) := by
  unfold PromptValue.blink
  split
  · exact setFieldBrightness_shape _ _ _ _
  · exact Shape.srefl st

theorem blink_polls (prompt : PromptValueStruct) (timeout item count : Nat) (st : State) :
    SamePolls st (PromptValue.blink prompt timeout item count st) := by
  unfold PromptValue.blink
  split
  · exact setFieldBrightness_polls _ _ _ _
  · exact ⟨rfl, rfl⟩

theorem draw_shape (prompt : PromptValueStruct) (item : Nat) (iv s : List Nat) (st : State) :
    Shape st (PromptValue.draw prompt item iv s st).2 := by
  unfold PromptValue.draw
  refine forLoop_invariant (Shape st) _ ?_ _ _ _ (Shape.srefl st)
  intro i a ha
  exact (ha.next (SetUnitValue_frame a _ _).shape).next (SetUnitBrightness_shape _ _ _)

theorem IsInputUpdate_shape (h : Host) (st : State) : Shape st (IsInputUpdate h st).2 :=
  (IsInputUpdate_frame h st).shape

theorem IsInputSelect_shape (h : Host) (st : State) : Shape st (IsInputSelect h st).2 :=
  (IsInputSelect_frame h st).shape

theorem IsInputIncrement_shape (h : Host) (st : State) : Shape st (IsInputIncrement h st).2 :=
  (IsInputIncrement_frame h st).shape

theorem ValueRun.thenShape {item : Nat} {iv iv' : List Nat} {st st' st'' : State}
    {events : List (Event × Nat)} (h1 : ValueRun item iv st events iv' st')
    (h2 : Shape st' st'') : ValueRun item iv st events iv' st'' :=
  ⟨h2.1.trans h1.1, h2.2.trans h1.2.1, h1.2.2⟩

theorem ValueRun.append {item : Nat} {iv iv' iv'' : List Nat} {st st' st'' : State}
    {e1 e2 : List (Event × Nat)} (h1 : ValueRun item iv st e1 iv' st')
    (h2 : ValueRun item iv' st' e2 iv'' st'') : ValueRun item iv st (e1 ++ e2) iv'' st'' := by
  refine ⟨h2.1.trans h1.1, ?_, ?_, h2.2.2.2.1.trans h1.2.2.2.1, ?_⟩
  · rw [h2.2.1, h1.2.1, List.append_assoc]
  · intro e he
    rcases List.mem_append.1 he with he | he
    · exact h1.2.2.1 e he
    · exact h2.2.2.1 e he
  · intro j hj
    rw [h2.2.2.2.2 j hj, h1.2.2.2.2 j hj]

theorem value_body_sound (h : Host) (prompt : PromptValueStruct) (timeout : Nat)
    (functor : Nat → Event → Nat → Bool) (copy : List Nat) (item : Nat) (iv s : List Nat)
    (count : Nat) (st : State) :
    match PromptValue.body h prompt timeout functor copy item iv s count st with
    | PromptValue.Step.next iv' _ _ st' => ∃ events, ValueRun item iv st events iv' st'
    | PromptValue.Step.timeout iv' st' =>
      (∃ events, ValueRun item iv st events iv' st') ∧
      (copy.length = st.unit.length → (∀ c ∈ copy, c ≤ 8) → st'.levels = copy) := by
  have hu := IsInputUpdate_shape h st
  unfold PromptValue.body
  by_cases h1 : (IsInputUpdate h st).1 = true
  · simp only [h1, if_true]
    have hi := hu.next (IsInputIncrement_shape h (IsInputUpdate h st).2)
    by_cases h2 : (IsInputIncrement h (IsInputUpdate h st).2).1 = true
    · simp only [h2, if_true]
      refine ⟨[(Event.INCREMENT, (iv.set item (PromptValue.increment (prompt.item_lower_limit.getD item 0)
        (prompt.item_upper_limit.getD item 0) (iv.getD item 0))).getD item 0)],
        ValueRun.thenShape ?_ (draw_shape prompt item _ s _)⟩
      refine ⟨hi.1, ?_, by simp, by simp, ?_⟩
      · rw [notify_log, hi.2]
      · intro j hj
        rw [List.getElem?_set_ne (Ne.symm hj)]
    · simp only [h2, Bool.false_eq_true, if_false]
      refine ⟨[(Event.DECREMENT, (iv.set item (PromptValue.decrement (prompt.item_lower_limit.getD item 0)
        (prompt.item_upper_limit.getD item 0) (iv.getD item 0))).getD item 0)],
        ValueRun.thenShape ?_ (draw_shape prompt item _ s _)⟩
      refine ⟨hi.1, ?_, by simp, by simp, ?_⟩
      · rw [notify_log, hi.2]
      · intro j hj
        rw [List.getElem?_set_ne (Ne.symm hj)]
  · simp only [h1, Bool.false_eq_true, if_false]
    have hb : Shape st (PromptValue.blink prompt timeout item ((count + 1) % 2 ^ 32)
        (IsInputUpdate h st).2) := hu.next (blink_shape _ _ _ _ _)
    by_cases h3 : (count + 1) % 2 ^ 32 > timeout * 62 % 2 ^ 32
    · simp only [h3, if_true]
      by_cases h4 : (notify functor Event.TIMEOUT (iv.getD item 0)
          (PromptValue.blink prompt timeout item ((count + 1) % 2 ^ 32)
            (IsInputUpdate h st).2)).1 = true
      · simp only [h4, if_true]
        refine ⟨[(Event.TIMEOUT, iv.getD item 0)], hb.1, ?_, by simp, rfl, fun _ _ => rfl⟩
        rw [notify_log, hb.2]
      · simp only [h4, Bool.false_eq_true, if_false]
        refine ⟨⟨[(Event.TIMEOUT, iv.getD item 0)], ?_, ?_, by simp, rfl, fun _ _ => rfl⟩, ?_⟩
        · rw [(restoreBrightness_shape _ _).1]; exact hb.1
        · rw [(restoreBrightness_shape _ _).2, notify_log, hb.2]
        · intro hlen hle
          refine restoreBrightness_levels copy _ ?_ hle
          rw [hlen]
          exact hb.1.symm
    · simp only [h3, if_false]
      exact ⟨[], hb.1, by rw [hb.2, List.append_nil], by simp, rfl, fun _ _ => rfl⟩

theorem value_loop_sound (h : Host) (prompt : PromptValueStruct) (timeout : Nat)
    (functor : Nat → Event → Nat → Bool) (copy : List Nat) (item : Nat) :
    ∀ (fuel : Nat) (iv s : List Nat) (count : Nat) (st : State) (e : PromptValue.Exit),
      PromptValue.loop h prompt timeout functor copy item fuel iv s count st = some e →
      match e with
      | PromptValue.Exit.selected iv' _ st' => ∃ events, ValueRun item iv st events iv' st'
      | PromptValue.Exit.timeout iv' st' =>
        (∃ events, ValueRun item iv st events iv' st') ∧
        (copy.length = st.unit.length → (∀ c ∈ copy, c ≤ 8) → st'.levels = copy) := by
  intro fuel
  induction fuel with
  | zero => intro iv s count st e hr; simp [PromptValue.loop] at hr
  | succ n ih =>
    intro iv s count st e hr
    have hb := value_body_sound h prompt timeout functor copy item iv s count st
    simp only [PromptValue.loop] at hr
    split at hr
    · rename_i iv1 st1 heq
      rw [heq] at hb
      cases hr
      exact hb
    · rename_i iv1 s1 count1 st1 heq
      rw [heq] at hb
      obtain ⟨ev1, hrun1⟩ := hb
      have hrun2 := hrun1.thenShape (IsInputSelect_shape h st1)
      split at hr
      · have := ih iv1 s1 count1 _ e hr
        cases e with
        | selected iv' s' st' =>
          obtain ⟨ev2, hrun3⟩ := this
          exact ⟨ev1 ++ ev2, hrun2.append hrun3⟩
        | timeout iv' st' =>
          obtain ⟨⟨ev2, hrun3⟩, hlev⟩ := this
          refine ⟨⟨ev1 ++ ev2, hrun2.append hrun3⟩, ?_⟩
          intro hlen hle
          exact hlev (hlen.trans hrun2.1.symm) hle
      · cases hr
        exact ⟨ev1, hrun2⟩

theorem release_shape (h : Host) : ∀ (fuel : Nat) (st st' : State),
    PromptValue.release h fuel st = some st' → Shape st st' := by
  intro fuel
  induction fuel with
  | zero => intro st st' hr; simp [PromptValue.release] at hr
  | succ n ih =>
    intro st st' hr
    simp only [PromptValue.release] at hr
    split at hr
    · exact (IsInputSelect_shape h st).next (ih _ _ hr)
    · cases hr; exact IsInputSelect_shape h st

theorem field_sound (fuel : Nat) (h : Host) (prompt : PromptValueStruct) (timeout : Nat)
    (functor : Nat → Event → Nat → Bool) (copy : List Nat) (item : Nat) (iv s : List Nat)
    (st : State) (e : PromptValue.Exit)
    (hr : PromptValue.field fuel h prompt timeout functor copy item iv s st = some e) :
    match e with
    | PromptValue.Exit.selected iv' _ st' =>
      ∃ events, st'.unit.length = st.unit.length ∧
        st'.log = st.log ++ events ++ [(Event.SELECTION, iv'.getD item 0)] ∧
        (∀ e ∈ events, e.1 ≠ Event.SELECTION) ∧ iv'.length = iv.length ∧
        ∀ j, j ≠ item → iv'[j]? = iv[j]?
    | PromptValue.Exit.timeout iv' st' =>
      (∃ events, ValueRun item iv st events iv' st') ∧
      (copy.length = st.unit.length → (∀ c ∈ copy, c ≤ 8) → st'.levels = copy) := by
  unfold PromptValue.field at hr
  have h0 : Shape st (IsInputUpdate h (PromptValue.draw prompt item iv s st).2).2 :=
    (draw_shape prompt item iv s st).next (IsInputUpdate_shape h _)
  cases hl : PromptValue.loop h prompt timeout functor copy item fuel iv
      (PromptValue.draw prompt item iv s st).1 0
      (IsInputUpdate h (PromptValue.draw prompt item iv s st).2).2 with
  | none => simp only [hl] at hr; exact absurd hr (by simp)
  | some x =>
    have hs := value_loop_sound h prompt timeout functor copy item fuel _ _ _ _ x hl
    simp only [hl] at hr
    cases x with
    | timeout iv1 st1 =>
      simp only [Option.some.injEq] at hr
      subst hr
      obtain ⟨⟨events, hrun⟩, hlev⟩ := hs
      refine ⟨⟨events, hrun.1.trans h0.1, by rw [hrun.2.1, h0.2], hrun.2.2⟩, ?_⟩
      intro hlen hle
      exact hlev (hlen.trans h0.1.symm) hle
    | selected iv1 s1 st1 =>
      obtain ⟨events, hrun⟩ := hs
      cases hrel : PromptValue.release h fuel st1 with
      | none => simp only [hrel] at hr; exact absurd hr (by simp)
      | some st2 =>
        simp only [hrel, Option.some.injEq] at hr
        subst hr
        have h2 := release_shape h fuel st1 st2 hrel
        have h3 : Shape (notify functor Event.SELECTION (iv1.getD item 0) st2).2
            (PromptValue.setFieldBrightness prompt item prompt.brightness_min
              (notify functor Event.SELECTION (iv1.getD item 0) st2).2) :=
          setFieldBrightness_shape _ _ _ _
        have hlen : st2.unit.length = st.unit.length := (h2.1.trans hrun.1).trans h0.1
        have hlog : st2.log = st.log ++ events := by rw [h2.2, hrun.2.1, h0.2]
        refine ⟨events, ?_, ?_, hrun.2.2⟩
        · rw [h3.1]; exact hlen
        · rw [h3.2, notify_log, hlog]

theorem value_enter_spec (fuel : Nat) (h : Host) (st : State) (prompt : PromptValueStruct)
    (copy : List Nat) (st1 : State) (he : PromptValue.enter fuel h st prompt = some (copy, st1)) :
    copy = st.levels ∧ Shape st st1 := by
  unfold PromptValue.enter at he
  cases ht : showTitle fuel h prompt.title st with
  | none => rw [ht] at he; exact absurd he (by simp)
  | some st0 =>
    rw [ht] at he
    have h0 := showTitle_frame fuel h _ st st0 ht
    have hb := blankAndCopy_spec Direction.LEFT st0
    simp only [Option.some.injEq, Prod.mk.injEq] at he
    obtain ⟨hc, hs⟩ := he
    refine ⟨?_, ?_⟩
    · rw [← hc, hb.1, h0.1]
    · rw [← hs]
      exact ((h0.andThen hb.2).andThen (EffectScroll_frame _ _ _ _)).shape.next
        (SetDisplayBrightness_shape _ _)

theorem select_body_levels (h : Host) (prompt : PromptSelectStruct) (tc : Nat)
    (functor : Nat → Event → Nat → Bool) (sel count : Nat) (st : State) :
    match PromptSelect.body h prompt tc functor sel count st with
    | Step.next _ _ st' => st'.levels = st.levels
    | Step.timeout st' => st'.levels = st.levels := by
  have hu := IsInputUpdate_frame h st
  have hi := hu.andThen (IsInputIncrement_frame h (IsInputUpdate h st).2)
  unfold PromptSelect.body
  by_cases h1 : (IsInputUpdate h st).1 = true
  · simp only [h1, if_true]
    by_cases h2 : (IsInputIncrement h (IsInputUpdate h st).2).1 = true
    · simp only [h2, if_true]
      rw [(redraw_frame h prompt _ _).1, notify_levels]
      exact hi.1
    · simp only [h2, Bool.false_eq_true, if_false]
      rw [(redraw_frame h prompt _ _).1, notify_levels]
      exact hi.1
  · simp only [h1, Bool.false_eq_true, if_false]
    by_cases h3 : (count + 1) % 2 ^ 32 > tc
    · simp only [h3, if_true]
      by_cases h4 : (notify functor Event.TIMEOUT sel (IsInputUpdate h st).2).1 = true
      · simp only [h4, if_true]
        exact hu.1
      · simp only [h4, Bool.false_eq_true, if_false]
        exact hu.1
    · simp only [h3, if_false]
      exact hu.1

theorem select_loop_levels (h : Host) (prompt : PromptSelectStruct) (tc : Nat)
    (functor : Nat → Event → Nat → Bool) :
    ∀ (fuel sel count : Nat) (st : State) (r : Option Nat) (st' : State),
      PromptSelect.loop h prompt tc functor fuel sel count st = some (r, st') →
      st'.levels = st.levels := by
  intro fuel
  induction fuel with
  | zero => intro sel count st r st' hr; simp [PromptSelect.loop] at hr
  | succ n ih =>
    intro sel count st r st' hr
    have hb := select_body_levels h prompt tc functor sel count st
    simp only [PromptSelect.loop] at hr
    split at hr
    · rename_i st1 heq
      rw [heq] at hb
      cases hr
      exact hb
    · rename_i sel1 count1 st1 heq
      rw [heq] at hb
      split at hr
      · exact ((ih _ _ _ _ _ hr).trans (IsInputSelect_frame h st1).1).trans hb
      · cases hr
        exact (IsInputSelect_frame h st1).1.trans hb

theorem levels_length (st : State) : st.levels.length = st.unit.length := by
  simp [State.levels]

theorem PromptSelect_levels (fuel : Nat) (h : Host) (st : State) (prompt : PromptSelectStruct)
    (timeout : Nat) (functor : Nat → Event → Nat → Bool) (r : Int) (st' : State)
    (hle : ∀ b ∈ st.levels, b ≤ 8)
    (hp : PromptSelect fuel h st prompt timeout functor = some (r, st')) :
    st'.levels = st.levels := by
  unfold PromptSelect PromptSelect.run at hp
  cases he : PromptSelect.enter fuel h st prompt with
  | none => simp only [he] at hp; exact absurd hp (by simp)
  | some e =>
    obtain ⟨copy, st1⟩ := e
    have hes := enter_spec fuel h st prompt copy st1 he
    simp only [he] at hp
    cases hl : PromptSelect.loop h prompt (timeout * 3000 % 2 ^ 32) functor fuel
        prompt.initial_selection 0 st1 with
    | none => simp only [hl] at hp; exact absurd hp (by simp)
    | some l =>
      obtain ⟨r2, st2⟩ := l
      have hlev := (select_loop_levels h prompt _ functor fuel _ _ st1 r2 st2 hl).trans hes.2.1
      simp only [hl] at hp
      cases r2 with
      | none =>
        simp only [Option.some.injEq, Prod.mk.injEq] at hp
        rw [← hp.2]
        exact hlev
      | some sel =>
        simp only [Option.some.injEq] at hp
        have h2 : (PromptSelect.leave functor copy sel st2).2 = st' := congrArg Prod.snd hp
        rw [← h2, ← hes.1]
        refine leave_levels functor copy sel st2 ?_ (by rw [hes.1]; exact hle)
        rw [← levels_length st2, hlev, hes.1]

theorem fields_levels (fuel : Nat) (h : Host) (prompt : PromptValueStruct) (timeout : Nat)
    (functor : Nat → Event → Nat → Bool) (copy : List Nat) :
    ∀ (n item : Nat) (iv s : List Nat) (st : State) (e : PromptValue.Exit),
      PromptValue.fields fuel h prompt timeout functor copy n item iv s st = some e →
      match e with
      | PromptValue.Exit.selected _ _ st' => st'.unit.length = st.unit.length
      | PromptValue.Exit.timeout _ st' =>
        copy.length = st.unit.length → (∀ c ∈ copy, c ≤ 8) → st'.levels = copy := by
  intro n
  induction n with
  | zero => intro item iv s st e hr; simp [PromptValue.fields] at hr
  | succ n ih =>
    intro item iv s st e hr
    simp only [PromptValue.fields] at hr
    cases hf : PromptValue.field fuel h prompt timeout functor copy item iv s st with
    | none => simp only [hf] at hr; exact absurd hr (by simp)
    | some x =>
      have hs := field_sound fuel h prompt timeout functor copy item iv s st x hf
      simp only [hf] at hr
      cases x with
      | timeout iv1 st1 =>
        simp only [Option.some.injEq] at hr
        subst hr
        exact hs.2
      | selected iv1 s1 st1 =>
        obtain ⟨events, hlen, _⟩ := hs
        by_cases hnext : (item + 1) % 256 < prompt.item_count
        · simp only [hnext, if_true] at hr
          have := ih _ iv1 s1 st1 e hr
          cases e with
          | timeout iv' st' =>
            intro hcl hle
            exact this (hcl.trans hlen.symm) hle
          | selected iv' s' st' => exact this.trans hlen
        · simp only [hnext, if_false, Option.some.injEq] at hr
          subst hr
          exact hlen

theorem PromptValue_levels (fuel : Nat) (h : Host) (st : State) (prompt : PromptValueStruct)
    (iv : List Nat) (timeout : Nat) (functor : Nat → Event → Nat → Bool) (r : Int)
    (iv' : List Nat) (st' : State)
    (hle : ∀ b ∈ st.levels, b ≤ 8)
    (hp : PromptValue fuel h st prompt iv timeout functor = some (r, iv', st')) :
    st'.levels = st.levels := by
  unfold PromptValue PromptValue.run at hp
  cases he : PromptValue.enter fuel h st prompt with
  | none => simp only [he] at hp; exact absurd hp (by simp)
  | some e =>
    obtain ⟨copy, st1⟩ := e
    have hes := value_enter_spec fuel h st prompt copy st1 he
    have hcl : copy.length = st1.unit.length := by
      rw [hes.1, levels_length, hes.2.1]
    have hcle : ∀ c ∈ copy, c ≤ 8 := by rw [hes.1]; exact hle
    simp only [he] at hp
    cases hf : PromptValue.fields fuel h prompt timeout functor copy fuel 0 iv
        (List.map h.stack (List.range st1.unit.length)) st1 with
    | none => simp only [hf] at hp; exact absurd hp (by simp)
    | some x =>
      have hs := fields_levels fuel h prompt timeout functor copy fuel 0 iv _ st1 x hf
      simp only [hf] at hp
      cases x with
      | timeout iv1 st2 =>
        simp only [Option.some.injEq, Prod.mk.injEq] at hp
        rw [← hp.2.2, ← hes.1]
        exact hs hcl hcle
      | selected iv1 s1 st2 =>
        simp only [Option.some.injEq, Prod.mk.injEq] at hp
        rw [← hp.2.2, ← hes.1]
        exact confirmAndRestore_levels copy st2 (hcl.trans hs.symm) hcle

theorem value_increment_wraps (lower upper : Nat) (h1 : lower ≤ upper)
    (h2 : upper < 255 ∨ (upper = 255 ∧ lower = 0)) :
    PromptValue.increment lower upper upper = lower := by
  unfold PromptValue.increment
  rcases h2 with h2 | ⟨h2, h3⟩
  · have : (upper + 1) % 256 = upper + 1 := Nat.mod_eq_of_lt (by omega)
    simp only [this]
    rw [if_pos (by omega)]
  · subst h2 h3
    decide

theorem value_increment_range (lower upper v : Nat) (h1 : lower ≤ v) (h2 : v ≤ upper)
    (h3 : upper < 255 ∨ lower = 0) :
    lower ≤ PromptValue.increment lower upper v ∧ PromptValue.increment lower upper v ≤ upper := by
  unfold PromptValue.increment
  simp only
  split <;> omega

theorem value_increment_step (lower upper v : Nat) (h2 : v < upper) (h3 : upper ≤ 255) :
    PromptValue.increment lower upper v = v + 1 := by
  unfold PromptValue.increment
  have : (v + 1) % 256 = v + 1 := Nat.mod_eq_of_lt (by omega)
  simp only [this]
  rw [if_neg (by omega)]

theorem value_decrement_range (lower upper v : Nat) (h1 : lower ≤ v) (h2 : v ≤ upper) :
    lower ≤ PromptValue.decrement lower upper v ∧ PromptValue.decrement lower upper v ≤ upper := by
  unfold PromptValue.decrement
  simp only
  split
  · split <;> omega
  · omega

theorem value_decrement_step (lower upper v : Nat) (h1 : lower < v) :
    PromptValue.decrement lower upper v = v - 1 := by
  unfold PromptValue.decrement
  simp only
  rw [if_pos (by omega), if_neg (by omega)]

set_option maxRecDepth 100000 in
/-- C5, failing input: a field with limits 5 and 255 at value 255; after one update resolved
as increment (then select) the field holds 0 and INCREMENT carries 0, not the lower limit 5:
`item_value += 1` wraps to 0 as `uint8_t` and 0 is not above the upper limit. -/
theorem PromptValue_increment_at_255 :
    (PromptValue 10 hostIncSelect display4 field5to255 [255] 4000 default_parameter).map
      (fun r => (r.1, r.2.1, r.2.2.log))
      = some (0, [0], [(Event.INCREMENT, 0), (Event.SELECTION, 0)]) := by
  decide

/-- C6: in `PromptValue`, for a field whose value equals `lower_limit` (zero included), an
update resolved as decrement leaves the field at `upper_limit` exactly and notifies
DECREMENT carrying `upper_limit`.  The order of the two limits plays no role here. -/
theorem PromptValue_decrement_wraparound (h : Host) (prompt : PromptValueStruct) (timeout : Nat)
    (functor : Nat → Event → Nat → Bool) (copy : List Nat) (item : Nat) (iv s : List Nat)
    (count : Nat) (st : State)
    (hitem : item < iv.length)
    (hval : iv.getD item 0 = prompt.item_lower_limit.getD item 0)
    (hupd : (IsInputUpdate h st).1 = true)
    (hdec : (IsInputIncrement h (IsInputUpdate h st).2).1 = false) :
    ∃ s' st', PromptValue.body h prompt timeout functor copy item iv s count st
        = PromptValue.Step.next (iv.set item (prompt.item_upper_limit.getD item 0)) s' 0 st' ∧
      (iv.set item (prompt.item_upper_limit.getD item 0)).getD item 0
        = prompt.item_upper_limit.getD item 0 ∧
      st'.log = st.log ++ [(Event.DECREMENT, prompt.item_upper_limit.getD item 0)] := by
  have hd : PromptValue.decrement (prompt.item_lower_limit.getD item 0)
      (prompt.item_upper_limit.getD item 0) (iv.getD item 0)
      = prompt.item_upper_limit.getD item 0 := by
    rw [hval]
    unfold PromptValue.decrement
    simp only
    split
    · rw [if_pos (by omega)]
    · rfl
  have hget : (iv.set item (prompt.item_upper_limit.getD item 0)).getD item 0
      = prompt.item_upper_limit.getD item 0 := by
    simp [List.getD_eq_getElem?_getD, List.getElem?_set, hitem]
  have hi := (IsInputUpdate_shape h st).next (IsInputIncrement_shape h (IsInputUpdate h st).2)
  refine ⟨(PromptValue.draw prompt item (iv.set item (prompt.item_upper_limit.getD item 0)) s
      (notify functor Event.DECREMENT
        ((iv.set item (prompt.item_upper_limit.getD item 0)).getD item 0)
        (IsInputIncrement h (IsInputUpdate h st).2).2).2).1,
    (PromptValue.draw prompt item (iv.set item (prompt.item_upper_limit.getD item 0)) s
      (notify functor Event.DECREMENT
        ((iv.set item (prompt.item_upper_limit.getD item 0)).getD item 0)
        (IsInputIncrement h (IsInputUpdate h st).2).2).2).2, ?_, hget, ?_⟩
  · unfold PromptValue.body
    simp only [hupd, hdec, hd, if_true, Bool.false_eq_true, if_false]
  · rw [(draw_shape prompt item _ s _).2, notify_log, hi.2, hget]

/-- Witness for C6: the field with limits 0 and 9 at value 0, update without increment. -/
theorem PromptValue_decrement_wraparound_witness :
    ∃ s' st', PromptValue.body hostDecHeld field09 4000 default_parameter [3, 3, 3, 3] 0 [0]
        [48, 48, 48, 48] 0 display4
        = PromptValue.Step.next ([0].set 0 (field09.item_upper_limit.getD 0 0)) s' 0 st' ∧
      ([0].set 0 (field09.item_upper_limit.getD 0 0)).getD 0 0
        = field09.item_upper_limit.getD 0 0 ∧
      st'.log = display4.log ++ [(Event.DECREMENT, field09.item_upper_limit.getD 0 0)] :=
  PromptValue_decrement_wraparound hostDecHeld field09 4000 default_parameter [3, 3, 3, 3] 0 [0]
    [48, 48, 48, 48] 0 display4 (by decide) (by decide) (by decide) (by decide)

/-- C7, failing input: a field with limits 5 and 255 holding 255 (inside its range); the
increment branch of `PromptValue` leaves 0, which is below the lower limit. Same defect as
in C5. -/
theorem PromptValue_range_broken_at_255 :
    (5 ≤ 255 ∧ 255 ≤ 255) ∧ PromptValue.increment 5 255 255 = 0 ∧
    ¬ (5 ≤ PromptValue.increment 5 255 255) := by
  decide

/-- C10: on a display whose units all have brightness at most 8, every run of
`PromptSelect` that returns (a selection or -1), and every run of `PromptValue` that
returns 0, leaves each unit's brightness as it was before the call. -/
theorem Prompt_brightness_restored (st : State) (hle : ∀ b ∈ st.levels, b ≤ 8) :
    (∀ fuel h prompt timeout functor,
      (PromptSelect fuel h st prompt timeout functor).isSome = true →
      (PromptSelect fuel h st prompt timeout functor).map (fun r => r.2.levels)
        = some st.levels) ∧
    (∀ fuel h prompt iv timeout functor,
      (PromptValue fuel h st prompt iv timeout functor).map (fun r => r.1) = some 0 →
      (PromptValue fuel h st prompt iv timeout functor).map (fun r => r.2.2.levels)
        = some st.levels) := by
  constructor
  · intro fuel h prompt timeout functor hsome
    cases hp : PromptSelect fuel h st prompt timeout functor with
    | none => rw [hp] at hsome; exact absurd hsome (by simp)
    | some x =>
      obtain ⟨r, st'⟩ := x
      simp only [Option.map_some', Option.some.injEq]
      exact PromptSelect_levels fuel h st prompt timeout functor r st' hle hp
  · intro fuel h prompt iv timeout functor hzero
    cases hp : PromptValue fuel h st prompt iv timeout functor with
    | none => rw [hp] at hzero; exact absurd hzero (by simp)
    | some x =>
      obtain ⟨r, iv', st'⟩ := x
      simp only [Option.map_some', Option.some.injEq]
      exact PromptValue_levels fuel h st prompt iv timeout functor r iv' st' hle hp

set_option maxRecDepth 100000 in
/-- Witness for C10: the four-unit display at brightness 3 with the two-item menu ended by
select, with the same menu timing out, and with the single-field value prompt. -/
theorem Prompt_brightness_restored_witness :
    (PromptSelect 10 hostIncSelect display4 menu2 500 default_parameter).map
      (fun r => r.2.levels) = some display4.levels ∧
    (PromptSelect 10 hostNone display4 menu2 0 default_parameter).map
      (fun r => r.2.levels) = some display4.levels ∧
    (PromptValue 10 hostIncSelect display4 field09 [9] 4000 default_parameter).map
      (fun r => r.2.2.levels) = some display4.levels :=
  have w := Prompt_brightness_restored display4 (by decide)
  ⟨w.1 10 hostIncSelect menu2 500 default_parameter (by decide),
   w.1 10 hostNone menu2 0 default_parameter (by decide),
   w.2 10 hostIncSelect field09 [9] 4000 default_parameter (by decide)⟩

theorem SetUnitValue_polls (st : State) (u c : Nat) : SamePolls st (SetUnitValue st u c).2 := by
  unfold SetUnitValue
  split
  · exact ⟨rfl, rfl⟩
  · exact ⟨rfl, rfl⟩

theorem draw_polls (prompt : PromptValueStruct) (item : Nat) (iv s : List Nat) (st : State) :
    SamePolls st (PromptValue.draw prompt item iv s st).2 := by
  unfold PromptValue.draw
  refine forLoop_invariant (SamePolls st) _ ?_ _ _ _ ⟨rfl, rfl⟩
  intro i a ha
  have h1 := SetUnitValue_polls a ((prompt.item_position.getD item 0 + i) % 256)
    ((if prompt.alphabetic = true then s.set (st.unit.length - 1) (iv.getD item 0)
      else itoa st s (iv.getD item 0)).getD (a.unit.length + i - prompt.item_digit_count.getD item 0) 0)
  have h2 := SetUnitBrightness_polls (SetUnitValue a ((prompt.item_position.getD item 0 + i) % 256)
    ((if prompt.alphabetic = true then s.set (st.unit.length - 1) (iv.getD item 0)
      else itoa st s (iv.getD item 0)).getD (a.unit.length + i - prompt.item_digit_count.getD item 0) 0)).2
    ((prompt.item_position.getD item 0 + i) % 256) prompt.brightness_max
  exact ⟨(h2.1.trans h1.1).trans ha.1, (h2.2.trans h1.2).trans ha.2⟩

theorem value_loop_idle (h : Host) (prompt : PromptValueStruct) (t : Nat)
    (functor : Nat → Event → Nat → Bool) (copy : List Nat) (item : Nat) (iv s : List Nat)
    (ht : t * 62 < 2 ^ 32) :
    ∀ (n fuel c : Nat) (st : State), QuietFrom h st → c + n ≤ t * 62 →
      ∃ st', PromptValue.loop h prompt t functor copy item (fuel + n) iv s c st
          = PromptValue.loop h prompt t functor copy item fuel iv s (c + n) st' ∧
        Shape st st' ∧ QuietFrom h st' := by
  intro n
  induction n with
  | zero => intro fuel c st hq _; exact ⟨st, rfl, Shape.srefl st, hq⟩
  | succ n ih =>
    intro fuel c st hq hc
    obtain ⟨hu, hq1⟩ := hq.update
    have hq1' : QuietFrom h (PromptValue.blink prompt t item (c + 1) (IsInputUpdate h st).2) :=
      (blink_polls _ _ _ _ _).quiet hq1
    obtain ⟨hs, hq2⟩ := hq1'.select
    have hmod : (c + 1) % 2 ^ 32 = c + 1 := Nat.mod_eq_of_lt (by omega)
    have htm : t * 62 % 2 ^ 32 = t * 62 := Nat.mod_eq_of_lt ht
    have hgt : ¬ (c + 1 > t * 62) := by omega
    have hbody : PromptValue.body h prompt t functor copy item iv s c st
        = PromptValue.Step.next iv s (c + 1)
            (PromptValue.blink prompt t item (c + 1) (IsInputUpdate h st).2) := by
      unfold PromptValue.body
      simp only [hu, hmod, htm, hgt, Bool.false_eq_true, if_false]
    obtain ⟨st', hl, hf, hq'⟩ := ih fuel (c + 1) _ hq2 (by omega)
    refine ⟨st', ?_, (((IsInputUpdate_shape h st).next (blink_shape _ _ _ _ _)).next
      (IsInputSelect_shape h _)).next hf, hq'⟩
    rw [← Nat.add_assoc, PromptValue.loop, hbody]
    simp only [hs, if_true]
    rw [hl]
    congr 1
    omega

theorem value_loop_timeout (h : Host) (prompt : PromptValueStruct) (t : Nat)
    (functor : Nat → Event → Nat → Bool) (copy : List Nat) (item : Nat) (iv s : List Nat)
    (ht : t * 62 < 2 ^ 32) (fuel : Nat) (st : State) (hq : QuietFrom h st)
    (hf : functor st.log.length Event.TIMEOUT (iv.getD item 0) = false) :
    ∃ st', PromptValue.loop h prompt t functor copy item (fuel + 1) iv s (t * 62) st
        = some (PromptValue.Exit.timeout iv st') ∧
      st'.log = st.log ++ [(Event.TIMEOUT, iv.getD item 0)] ∧
      (copy.length = st.unit.length → (∀ c ∈ copy, c ≤ 8) → st'.levels = copy) := by
  obtain ⟨hu, _⟩ := hq.update
  have hb : Shape st (PromptValue.blink prompt t item (t * 62 + 1) (IsInputUpdate h st).2) :=
    (IsInputUpdate_shape h st).next (blink_shape _ _ _ _ _)
  have hmod : (t * 62 + 1) % 2 ^ 32 = t * 62 + 1 := Nat.mod_eq_of_lt (by omega)
  have htm : t * 62 % 2 ^ 32 = t * 62 := Nat.mod_eq_of_lt ht
  have hgt : t * 62 + 1 > t * 62 := by omega
  have hn : (notify functor Event.TIMEOUT (iv.getD item 0)
      (PromptValue.blink prompt t item (t * 62 + 1) (IsInputUpdate h st).2)).1 = false := by
    simp only [notify, hb.2]; exact hf
  have hbody : PromptValue.body h prompt t functor copy item iv s (t * 62) st
      = PromptValue.Step.timeout iv (restoreBrightness copy
          (notify functor Event.TIMEOUT (iv.getD item 0)
            (PromptValue.blink prompt t item (t * 62 + 1) (IsInputUpdate h st).2)).2) := by
    unfold PromptValue.body
    simp only [hu, hmod, htm, hgt, hn, Bool.false_eq_true, if_false, if_true]
  refine ⟨_, by rw [PromptValue.loop, hbody], ?_, ?_⟩
  · rw [(restoreBrightness_shape _ _).2, notify_log, hb.2]
  · intro hlen hle
    refine restoreBrightness_levels copy _ ?_ hle
    rw [hlen]
    exact hb.1.symm

theorem fields_of_upTo (fuel : Nat) (h : Host) (prompt : PromptValueStruct) (timeout : Nat)
    (functor : Nat → Event → Nat → Bool) (copy : List Nat) (iv s : List Nat) (st : State)
    (hic : prompt.item_count ≤ 255) :
    ∀ (k : Nat) (ivk sk : List Nat) (stk : State), k < prompt.item_count →
      PromptValue.upTo fuel h prompt timeout functor copy k iv s st = some (ivk, sk, stk) →
      ∀ m, PromptValue.fields fuel h prompt timeout functor copy (m + k) 0 iv s st
        = PromptValue.fields fuel h prompt timeout functor copy m k ivk sk stk := by
  intro k
  induction k with
  | zero =>
    intro ivk sk stk _ hup m
    simp only [PromptValue.upTo, Option.some.injEq, Prod.mk.injEq] at hup
    obtain ⟨h1, h2, h3⟩ := hup
    subst h1 h2 h3
    rfl
  | succ k ih =>
    intro ivk sk stk hk hup m
    simp only [PromptValue.upTo] at hup
    cases hu : PromptValue.upTo fuel h prompt timeout functor copy k iv s st with
    | none => simp only [hu] at hup; exact absurd hup (by simp)
    | some x =>
      obtain ⟨iv1, s1, st1⟩ := x
      simp only [hu] at hup
      cases hf : PromptValue.field fuel h prompt timeout functor copy k iv1 s1 st1 with
      | none => simp only [hf] at hup; exact absurd hup (by simp)
      | some e =>
        cases e with
        | timeout iv2 st2 => simp only [hf] at hup; exact absurd hup (by simp)
        | selected iv2 s2 st2 =>
          simp only [hf, Option.some.injEq, Prod.mk.injEq] at hup
          obtain ⟨h1, h2, h3⟩ := hup
          subst h1 h2 h3
          have := ih iv1 s1 st1 (by omega) hu (m + 1)
          have hm : m + (k + 1) = m + 1 + k := by omega
          rw [hm, this, PromptValue.fields, hf]
          have hmod : (k + 1) % 256 = k + 1 := Nat.mod_eq_of_lt (by omega)
          simp only [hmod, hk, if_true]

theorem upTo_frame (fuel : Nat) (h : Host) (prompt : PromptValueStruct) (timeout : Nat)
    (functor : Nat → Event → Nat → Bool) (copy : List Nat) (iv s : List Nat) (st : State) :
    ∀ (k : Nat) (ivk sk : List Nat) (stk : State),
      PromptValue.upTo fuel h prompt timeout functor copy k iv s st = some (ivk, sk, stk) →
      stk.unit.length = st.unit.length ∧ ∀ j, k ≤ j → ivk[j]? = iv[j]? := by
  intro k
  induction k with
  | zero =>
    intro ivk sk stk hup
    simp only [PromptValue.upTo, Option.some.injEq, Prod.mk.injEq] at hup
    obtain ⟨h1, h2, h3⟩ := hup
    subst h1 h2 h3
    exact ⟨rfl, fun _ _ => rfl⟩
  | succ k ih =>
    intro ivk sk stk hup
    simp only [PromptValue.upTo] at hup
    cases hu : PromptValue.upTo fuel h prompt timeout functor copy k iv s st with
    | none => simp only [hu] at hup; exact absurd hup (by simp)
    | some x =>
      obtain ⟨iv1, s1, st1⟩ := x
      simp only [hu] at hup
      cases hf : PromptValue.field fuel h prompt timeout functor copy k iv1 s1 st1 with
      | none => simp only [hf] at hup; exact absurd hup (by simp)
      | some e =>
        cases e with
        | timeout iv2 st2 => simp only [hf] at hup; exact absurd hup (by simp)
        | selected iv2 s2 st2 =>
          simp only [hf, Option.some.injEq, Prod.mk.injEq] at hup
          obtain ⟨h1, h2, h3⟩ := hup
          subst h1 h2 h3
          obtain ⟨hl1, hv1⟩ := ih iv1 s1 st1 hu
          obtain ⟨events, hlen, _, _, _, hiv⟩ :=
            field_sound fuel h prompt timeout functor copy k iv1 s1 st1 _ hf
          refine ⟨hlen.trans hl1, ?_⟩
          intro j hj
          rw [hiv j (by omega), hv1 j (by omega)]

/-- C9: in `PromptValue` with a timeout `t ≥ 1`, `t * 62 < 2^32`, on a display in a valid
state (every brightness at most 8, which the setters maintain): when the field `k` is
entered and from then on no update or select is reported and the notification answers
false to TIMEOUT, the field's loop raises TIMEOUT carrying the field's value in its
iteration number `62 * t + 1` (not before) and `PromptValue` returns -1; every unit's
brightness is then as before the call, the value array is the one with which the field
was entered, its entries from `k` on being the caller's original values, and nothing but
that TIMEOUT is notified after the field was entered (no SELECTION for the fields from
`k` on). -/
theorem PromptValue_field_timeout (fuel : Nat) (h : Host) (st : State)
    (prompt : PromptValueStruct) (iv : List Nat) (t : Nat) (functor : Nat → Event → Nat → Bool)
    (k : Nat) (copy ivk sk : List Nat) (stk : State)
    (_ht1 : 1 ≤ t) (ht2 : t * 62 < 2 ^ 32)
    (hk : k < prompt.item_count) (hic : prompt.item_count ≤ 255)
    (hle : ∀ b ∈ st.levels, b ≤ 8)
    (hreach : PromptValue.reach fuel h st prompt iv t functor k = some (copy, ivk, sk, stk))
    (hq : QuietFrom h stk)
    (hf : ∀ n v, functor n Event.TIMEOUT v = false)
    (hfuel : t * 62 < fuel ∧ k < fuel) :
    (∃ st', PromptValue fuel h st prompt iv t functor = some (-1, ivk, st') ∧
      st'.levels = st.levels ∧
      st'.log = stk.log ++ [(Event.TIMEOUT, ivk.getD k 0)]) ∧
    (∀ j, k ≤ j → ivk[j]? = iv[j]?) ∧
    (∃ st', PromptValue.loop h prompt t functor copy k (t * 62 + 1) ivk
        (PromptValue.draw prompt k ivk sk stk).1 0
        (IsInputUpdate h (PromptValue.draw prompt k ivk sk stk).2).2
      = some (PromptValue.Exit.timeout ivk st')) ∧
    PromptValue.loop h prompt t functor copy k (t * 62) ivk
        (PromptValue.draw prompt k ivk sk stk).1 0
        (IsInputUpdate h (PromptValue.draw prompt k ivk sk stk).2).2 = none := by
  unfold PromptValue.reach at hreach
  cases he : PromptValue.enter fuel h st prompt with
  | none => simp only [he] at hreach; exact absurd hreach (by simp)
  | some en =>
    obtain ⟨copy1, st1⟩ := en
    simp only [he] at hreach
    cases hu : PromptValue.upTo fuel h prompt t functor copy1 k iv
        (List.map h.stack (List.range st1.unit.length)) st1 with
    | none => simp only [hu] at hreach; exact absurd hreach (by simp)
    | some x =>
      simp only [hu, Option.some.injEq, Prod.mk.injEq] at hreach
      obtain ⟨hc, hx⟩ := hreach
      subst hc hx
      have hes := value_enter_spec fuel h st prompt copy1 st1 he
      obtain ⟨hlenk, hvals⟩ := upTo_frame fuel h prompt t functor copy1 iv _ st1 k ivk sk stk hu
      have hqd : QuietFrom h (PromptValue.draw prompt k ivk sk stk).2 :=
        (draw_polls prompt k ivk sk stk).quiet hq
      obtain ⟨_, hqc⟩ := hqd.update
      have hshc : Shape stk (IsInputUpdate h (PromptValue.draw prompt k ivk sk stk).2).2 :=
        (draw_shape prompt k ivk sk stk).next (IsInputUpdate_shape h _)
      have key : ∀ f, ∃ st', PromptValue.loop h prompt t functor copy1 k (f + 1 + t * 62) ivk
          (PromptValue.draw prompt k ivk sk stk).1 0
          (IsInputUpdate h (PromptValue.draw prompt k ivk sk stk).2).2
          = some (PromptValue.Exit.timeout ivk st') ∧
          st'.log = stk.log ++ [(Event.TIMEOUT, ivk.getD k 0)] ∧ st'.levels = st.levels := by
        intro f
        obtain ⟨st2, hl, hsh, hq2⟩ := value_loop_idle h prompt t functor copy1 k ivk
          (PromptValue.draw prompt k ivk sk stk).1 ht2 (t * 62) (f + 1) 0 _ hqc (by omega)
        obtain ⟨st3, hl3, hlog, hlev⟩ := value_loop_timeout h prompt t functor copy1 k ivk
          (PromptValue.draw prompt k ivk sk stk).1 ht2 f st2 hq2 (hf _ _)
        refine ⟨st3, ?_, ?_, ?_⟩
        · rw [hl, Nat.zero_add, hl3]
        · rw [hlog, hsh.2, hshc.2]
        · rw [← hes.1]
          refine hlev ?_ (by rw [hes.1]; exact hle)
          rw [hes.1, levels_length, hsh.1, hshc.1, hlenk, hes.2.1]
      refine ⟨?_, hvals, ?_, ?_⟩
      · obtain ⟨st', hl, hlog, hlev⟩ := key (fuel - (t * 62 + 1))
        have hfe : fuel - (t * 62 + 1) + 1 + t * 62 = fuel := by omega
        rw [hfe] at hl
        refine ⟨st', ?_, hlev, hlog⟩
        have hfield : PromptValue.field fuel h prompt t functor copy1 k ivk sk stk
            = some (PromptValue.Exit.timeout ivk st') := by
          unfold PromptValue.field
          simp only [hl]
        have hfields : PromptValue.fields fuel h prompt t functor copy1 fuel 0 iv
            (List.map h.stack (List.range st1.unit.length)) st1
            = some (PromptValue.Exit.timeout ivk st') := by
          have := fields_of_upTo fuel h prompt t functor copy1 iv _ st1 hic k ivk sk stk hk hu
            (fuel - k - 1 + 1)
          have hm : fuel - k - 1 + 1 + k = fuel := by omega
          rw [hm] at this
          rw [this, PromptValue.fields, hfield]
        unfold PromptValue PromptValue.run
        simp only [he, hfields]
      · obtain ⟨st', hl, _, _⟩ := key 0
        have : 0 + 1 + t * 62 = t * 62 + 1 := by omega
        rw [this] at hl
        exact ⟨st', hl⟩
      · obtain ⟨st2, hl, _, _⟩ := value_loop_idle h prompt t functor copy1 k ivk
          (PromptValue.draw prompt k ivk sk stk).1 ht2 (t * 62) 0 0 _ hqc (by omega)
        rw [Nat.zero_add] at hl
        rw [hl]
        rfl

set_option maxRecDepth 100000 in
theorem reachedMinutes_eq :
    PromptValue.reach 300 hostSelectOnce display4 fieldsClock [12, 30] 4 default_parameter 1
      = some (reachedMinutes.1, reachedMinutes.2.1, reachedMinutes.2.2.1, reachedMinutes.2.2.2) := by
  decide

set_option maxRecDepth 100000 in
theorem reachedMinutes_quiet : QuietFrom hostSelectOnce reachedMinutes.2.2.2 := by
  have hp : reachedMinutes.2.2.2.polls_select = 2 := by decide
  constructor
  · intro f hf k _
    simp only [hostSelectOnce, Option.some.injEq] at hf
    subst hf
    rfl
  · intro f hf k hk
    simp only [hostSelectOnce, Option.some.injEq] at hf
    subst hf
    rw [hp] at hk
    have : k ≠ 0 := by omega
    simpa using this

set_option maxRecDepth 100000 in
/-- Witness for C9: the clock prompt with timeout 4; the hour field is ended by select at
once, then nothing happens while the minute field (field 1) is edited. -/
theorem PromptValue_field_timeout_witness :
    (∃ st', PromptValue 300 hostSelectOnce display4 fieldsClock [12, 30] 4 default_parameter
        = some (-1, reachedMinutes.2.1, st') ∧
      st'.levels = display4.levels ∧
      st'.log = reachedMinutes.2.2.2.log ++ [(Event.TIMEOUT, reachedMinutes.2.1.getD 1 0)]) ∧
    (PromptValue 300 hostSelectOnce display4 fieldsClock [12, 30] 4 default_parameter).map
      (fun r => (r.1, r.2.1, r.2.2.log))
      = some (-1, [12, 30], [(Event.SELECTION, 12), (Event.TIMEOUT, 30)]) :=
  ⟨(PromptValue_field_timeout 300 hostSelectOnce display4 fieldsClock [12, 30] 4
    default_parameter 1 reachedMinutes.1 reachedMinutes.2.1 reachedMinutes.2.2.1
    reachedMinutes.2.2.2 (by decide) (by decide) (by decide) (by decide) (by decide)
    reachedMinutes_eq reachedMinutes_quiet (fun _ _ => rfl) (by decide)).1, by decide⟩

theorem testBit_127 (i : Nat) : Nat.testBit 127 i = decide (i < 7) :=
  Nat.testBit_two_pow_sub_one 7 i

theorem testBit_128 (i : Nat) : Nat.testBit 128 i = decide (7 = i) :=
  @Nat.testBit_two_pow 7 i

theorem mask_or_char (c v : Nat) : ((c &&& 0x7F) ||| (v &&& 0x80)) &&& 0x7F = c &&& 0x7F := by
  apply Nat.eq_of_testBit_eq
  intro i
  simp only [Nat.testBit_and, Nat.testBit_or, testBit_127, testBit_128]
  by_cases h1 : i < 7
  · have h2 : ¬ (7 = i) := by omega
    simp [h1, h2]
  · simp [h1]

theorem mask_or_indicator (c v : Nat) : ((c &&& 0x7F) ||| (v &&& 0x80)) &&& 0x80 = v &&& 0x80 := by
  apply Nat.eq_of_testBit_eq
  intro i
  simp only [Nat.testBit_and, Nat.testBit_or, testBit_127, testBit_128]
  by_cases h1 : 7 = i
  · have h2 : ¬ (i < 7) := by omega
    simp [h1, h2]
  · simp [h1]

theorem mask_char_idem (c : Nat) : (c &&& 0x7F) &&& 0x7F = c &&& 0x7F := by
  apply Nat.eq_of_testBit_eq
  intro i
  simp only [Nat.testBit_and, testBit_127]
  cases c.testBit i <;> simp

theorem mask_char_indicator (c : Nat) : (c &&& 0x7F) &&& 0x80 = 0 := by
  apply Nat.eq_of_testBit_eq
  intro i
  simp only [Nat.testBit_and, testBit_127, testBit_128, Nat.zero_testBit]
  by_cases h1 : 7 = i
  · have h2 : ¬ (i < 7) := by omega
    simp [h1, h2]
  · simp [h1]

theorem mask_char_of_lt (c : Nat) (hc : c < 128) : c &&& 0x7F = c := by
  have : c &&& (2 ^ 7 - 1) = c % 2 ^ 7 := Nat.and_pow_two_sub_one_eq_mod c 7
  have h2 : c % 2 ^ 7 = c := Nat.mod_eq_of_lt (by omega)
  rw [h2] at this
  exact this

theorem mask_char_le (c : Nat) : c &&& 0x7F ≤ 127 := Nat.and_le_right

theorem or_indicator_char (v : Nat) : (v ||| 0x80) &&& 0x7F = v &&& 0x7F := by
  apply Nat.eq_of_testBit_eq
  intro i
  simp only [Nat.testBit_and, Nat.testBit_or, testBit_127, testBit_128]
  by_cases h1 : i < 7
  · have h2 : ¬ (7 = i) := by omega
    simp [h1, h2]
  · simp [h1]

theorem unit_getD (l : List UnitStruct) (i : Nat) (hi : i < l.length) :
    l.getD i ⟨0, 0⟩ = l[i] := by
  simp [List.getD_eq_getElem?_getD, List.getElem?_eq_getElem hi]

theorem SetUnitValue_unit (st : State) (i c : Nat) (hi : i < st.unit.length) :
    (SetUnitValue st i c).2.unit
      = st.unit.set i { st.unit[i] with value := (c &&& 0x7F) ||| (st.unit[i].value &&& 0x80) } := by
  unfold SetUnitValue
  simp only [hi, if_true, unit_getD st.unit i hi]

theorem SetUnitIndicator_unit (st : State) (i : Nat) (b : Bool) (hi : i < st.unit.length) :
    (SetUnitIndicator st i b).2.unit
      = st.unit.set i { st.unit[i] with
          value := if b = true then st.unit[i].value ||| 0x80 else st.unit[i].value &&& 0x7F } := by
  unfold SetUnitIndicator
  cases b <;> simp [hi, unit_getD st.unit i hi]

theorem SetUnitBrightness_unit (st : State) (i b : Nat) (hi : i < st.unit.length) (hb : b ≤ 8) :
    (SetUnitBrightness st i b).2.unit = st.unit.set i { st.unit[i] with brightness := b } := by
  unfold SetUnitBrightness Brightness.MAX
  simp only [hi, hb, if_true, unit_getD st.unit i hi]

theorem GetUnitValue_opt (st : State) (i : Nat) :
    GetUnitValue st i = ((st.unit[i]?).map (fun u => u.value &&& 0x7F)).getD 0 := by
  unfold GetUnitValue
  by_cases hi : i < st.unit.length
  · simp [hi, List.getElem?_eq_getElem hi]
  · simp [hi, List.getElem?_eq_none (Nat.le_of_not_lt hi)]

theorem GetUnitIndicator_opt (st : State) (i : Nat) :
    GetUnitIndicator st i = ((st.unit[i]?).map (fun u => (u.value &&& 0x80) != 0)).getD false := by
  unfold GetUnitIndicator
  by_cases hi : i < st.unit.length
  · simp [hi, List.getElem?_eq_getElem hi]
  · simp [hi, List.getElem?_eq_none (Nat.le_of_not_lt hi)]

theorem GetUnitBrightness_opt (st : State) (i : Nat) :
    GetUnitBrightness st i = ((st.unit[i]?).map (fun u => u.brightness)).getD 0 := by
  unfold GetUnitBrightness Brightness.MIN
  by_cases hi : i < st.unit.length
  · simp [hi, List.getElem?_eq_getElem hi]
  · simp [hi, List.getElem?_eq_none (Nat.le_of_not_lt hi)]

/-- C16: for an index `i < unit_count` and any character `c`, `SetUnitValue(i, c)` returns
`STATUS_OK`; afterwards `GetUnitValue(i)` is `c & 0x7F`, the indicator and the brightness
of unit `i` are as before, every other unit is unchanged and so is the rest of the state. -/
theorem SetUnitValue_GetUnitValue (st : State) (i c : Nat) (hi : i < st.unit.length) :
    (SetUnitValue st i c).1 = status_t.STATUS_OK ∧
    GetUnitValue (SetUnitValue st i c).2 i = c &&& 0x7F ∧
    GetUnitIndicator (SetUnitValue st i c).2 i = GetUnitIndicator st i ∧
    GetUnitBrightness (SetUnitValue st i c).2 i = GetUnitBrightness st i ∧
    (∀ j, j ≠ i → (SetUnitValue st i c).2.unit[j]? = st.unit[j]?) ∧
    (SetUnitValue st i c).2.unit.length = st.unit.length ∧
    (SetUnitValue st i c).2.log = st.log ∧ (SetUnitValue st i c).2.frames = st.frames := by
  have hu := SetUnitValue_unit st i c hi
  refine ⟨?_, ?_, ?_, ?_, ?_, ?_, ?_, ?_⟩
  · unfold SetUnitValue; simp only [hi, if_true]
  · rw [GetUnitValue_opt, hu]
    simp [List.getElem?_set, hi, mask_or_char]
  · rw [GetUnitIndicator_opt, GetUnitIndicator_opt, hu]
    simp [List.getElem?_set, hi, mask_or_indicator, List.getElem?_eq_getElem hi]
  · rw [GetUnitBrightness_opt, GetUnitBrightness_opt, hu]
    simp [List.getElem?_set, hi, List.getElem?_eq_getElem hi]
  · intro j hj
    rw [hu, List.getElem?_set_ne (Ne.symm hj)]
  · rw [hu, List.length_set]
  · exact (SetUnitValue_frame st i c).2
  · unfold SetUnitValue; simp only [hi, if_true]

/-- Witness for C16: unit 1 of the three-unit display, whose indicator is on, is set to
the character 0xDA. -/
theorem SetUnitValue_GetUnitValue_witness :
    GetUnitValue (SetUnitValue display3 1 218).2 1 = 218 &&& 0x7F ∧
    GetUnitIndicator (SetUnitValue display3 1 218).2 1 = GetUnitIndicator display3 1 :=
  have w := SetUnitValue_GetUnitValue display3 1 218 (by decide)
  ⟨w.2.1, w.2.2.1⟩

/-- C17: for an index `i ≥ unit_count`, `SetUnitValue`, `SetUnitIndicator` and
`SetUnitBrightness` return `STATUS_ERROR` and leave the whole state unchanged, and
`GetUnitValue`, `GetUnitIndicator`, `GetUnitBrightness` return 0, false and the minimum
brightness. -/
theorem index_out_of_range (st : State) (i c b : Nat) (state : Bool) (hi : st.unit.length ≤ i) :
    SetUnitValue st i c = (status_t.STATUS_ERROR, st) ∧
    SetUnitIndicator st i state = (status_t.STATUS_ERROR, st) ∧
    SetUnitBrightness st i b = (status_t.STATUS_ERROR, st) ∧
    GetUnitValue st i = 0 ∧ GetUnitIndicator st i = false ∧
    GetUnitBrightness st i = Brightness.MIN := by
  have hn : ¬ i < st.unit.length := Nat.not_lt.2 hi
  refine ⟨?_, ?_, ?_, ?_, ?_, ?_⟩
  · unfold SetUnitValue; simp only [hn, if_false]
  · unfold SetUnitIndicator; simp only [hn, if_false]
  · unfold SetUnitBrightness; simp only [hn, if_false]
  · unfold GetUnitValue; simp only [hn, if_false]
  · unfold GetUnitIndicator; simp only [hn, if_false]
  · unfold GetUnitBrightness; simp only [hn, if_false]

/-- Witness for C17: index 3 on the three-unit display. -/
theorem index_out_of_range_witness :
    SetUnitValue display3 3 65 = (status_t.STATUS_ERROR, display3) ∧
    SetUnitIndicator display3 3 true = (status_t.STATUS_ERROR, display3) ∧
    SetUnitBrightness display3 3 4 = (status_t.STATUS_ERROR, display3) ∧
    GetUnitValue display3 3 = 0 ∧ GetUnitIndicator display3 3 = false ∧
    GetUnitBrightness display3 3 = Brightness.MIN :=
  index_out_of_range display3 3 65 4 true (by decide)

theorem forLoop_units (g : Nat → UnitStruct → UnitStruct) (step : Nat → State → State)
    (hstep : ∀ i acc, i < acc.unit.length →
      (step i acc).unit = acc.unit.set i (g i (acc.unit.getD i ⟨0, 0⟩)))
    (st : State) : (forLoop step st.unit.length 0 st).unit = st.unit.mapIdx g := by
  have key := forLoop_invariant_idx
    (fun i (a : State) => a.unit.length = st.unit.length ∧
      ∀ j, a.unit[j]? = if j < i then (st.unit[j]?).map (g j) else st.unit[j]?)
    step st.unit.length
    (by
      intro i a hi ⟨hal, haj⟩
      have hia : i < a.unit.length := by omega
      refine ⟨by rw [hstep i a hia, List.length_set]; exact hal, ?_⟩
      intro j
      rw [hstep i a hia, List.getElem?_set]
      by_cases hij : i = j
      · subst hij
        have h1 : a.unit[i]? = st.unit[i]? := by
          have := haj i
          rw [if_neg (Nat.lt_irrefl i)] at this
          exact this
        have h2 : a.unit.getD i ⟨0, 0⟩ = (st.unit[i]?).getD ⟨0, 0⟩ := by
          rw [List.getD_eq_getElem?_getD, h1]
        rw [if_pos rfl, if_pos hia, if_pos (Nat.lt_succ_self i), h2,
          List.getElem?_eq_getElem hi]
        rfl
      · rw [if_neg hij, haj j]
        by_cases hji : j < i
        · rw [if_pos hji, if_pos (Nat.lt_succ_of_lt hji)]
        · rw [if_neg hji, if_neg (by omega)])
    st.unit.length 0 st (by omega) ⟨rfl, by simp⟩
  obtain ⟨_, hj⟩ := key
  apply List.ext_getElem?
  intro j
  rw [hj j, List.getElem?_mapIdx]
  by_cases hjn : j < 0 + st.unit.length
  · rw [if_pos hjn]
  · rw [if_neg hjn, List.getElem?_eq_none (by omega)]
    rfl

theorem SetDisplayValue_unit (st : State) (s : List Nat) :
    (SetDisplayValue st (some s)).2.unit
      = st.unit.mapIdx (fun j u =>
          { u with value := (s.getD j 0 &&& 0x7F) ||| (u.value &&& 0x80) }) := by
  unfold SetDisplayValue
  refine forLoop_units _ _ ?_ st
  intro i acc hi
  unfold SetUnitValue
  simp only [hi, if_true]

theorem SetDisplayIndicator_unit (st : State) (b : Bool) :
    (SetDisplayIndicator st b).2.unit
      = st.unit.mapIdx (fun _ u =>
          { u with value := if b = true then u.value ||| 0x80 else u.value &&& 0x7F }) := by
  unfold SetDisplayIndicator
  refine forLoop_units _ _ ?_ st
  intro i acc hi
  unfold SetUnitIndicator
  cases b <;> simp [hi]

theorem SetDisplayBrightness_unit (st : State) (b : Nat) (hb : b ≤ 8) :
    (SetDisplayBrightness st b).2.unit
      = st.unit.mapIdx (fun _ u => { u with brightness := b }) := by
  unfold SetDisplayBrightness Brightness.MAX
  simp only [hb, if_true]
  refine forLoop_units _ _ ?_ st
  intro i acc _
  rfl

theorem mapIdx_const {α β : Type} (f : α → β) (l : List α) :
    l.mapIdx (fun _ u => f u) = l.map f := by
  apply List.ext_getElem?
  intro j
  simp

theorem SetUnitBrightness_ok (st : State) (i level : Nat) (hi : i < st.unit.length)
    (hl : level ≤ 8) :
    SetUnitBrightness st i level
      = (status_t.STATUS_OK,
          { st with unit := st.unit.set i { st.unit.getD i ⟨0, 0⟩ with brightness := level } }) := by
  unfold SetUnitBrightness Brightness.MAX
  simp only [hi, hl, if_true]

theorem SetUnitBrightness_error (st : State) (i level : Nat)
    (h : st.unit.length ≤ i ∨ 8 < level) :
    SetUnitBrightness st i level = (status_t.STATUS_ERROR, st) := by
  unfold SetUnitBrightness Brightness.MAX
  by_cases hi : i < st.unit.length
  · have hl : ¬ level ≤ 8 := by omega
    simp only [hi, hl, if_true, if_false]
  · simp only [hi, if_false]

theorem SetDisplayBrightness_error (st : State) (level : Nat) (h : 8 < level) :
    SetDisplayBrightness st level = (status_t.STATUS_ERROR, st) := by
  have hl : ¬ level ≤ 8 := by omega
  unfold SetDisplayBrightness Brightness.MAX
  simp only [hl, if_false]

theorem SetDisplayBrightness_status (st : State) (level : Nat) (hl : level ≤ 8) :
    (SetDisplayBrightness st level).1 = status_t.STATUS_OK := by
  unfold SetDisplayBrightness Brightness.MAX
  simp only [hl, if_true]

/-- C18: `SetUnitBrightness(i, level)` returns `STATUS_ERROR` exactly when
`i ≥ unit_count` or `level > 8`, `SetDisplayBrightness(level)` exactly when `level > 8`;
on error the state is unchanged; on success the brightness of unit `i` (of every unit)
becomes `level`, and the stored characters and indicators and the rest of the state are
unchanged. -/
theorem brightness_setters (st : State) (i level : Nat) :
    ((SetUnitBrightness st i level).1 = status_t.STATUS_ERROR
      ↔ (st.unit.length ≤ i ∨ 8 < level)) ∧
    ((SetDisplayBrightness st level).1 = status_t.STATUS_ERROR ↔ 8 < level) ∧
    ((SetUnitBrightness st i level).1 = status_t.STATUS_ERROR →
      (SetUnitBrightness st i level).2 = st) ∧
    ((SetDisplayBrightness st level).1 = status_t.STATUS_ERROR →
      (SetDisplayBrightness st level).2 = st) ∧
    ((SetUnitBrightness st i level).1 = status_t.STATUS_OK →
      (SetUnitBrightness st i level).2.unit
        = st.unit.set i { st.unit.getD i ⟨0, 0⟩ with brightness := level } ∧
      GetUnitBrightness (SetUnitBrightness st i level).2 i = level ∧
      (∀ j, j ≠ i → (SetUnitBrightness st i level).2.unit[j]? = st.unit[j]?) ∧
      (SetUnitBrightness st i level).2.unit.map (fun u => u.value)
        = st.unit.map (fun u => u.value) ∧
      (SetUnitBrightness st i level).2.log = st.log ∧
      (SetUnitBrightness st i level).2.frames = st.frames) ∧
    ((SetDisplayBrightness st level).1 = status_t.STATUS_OK →
      (SetDisplayBrightness st level).2.unit
        = st.unit.map (fun u => { u with brightness := level }) ∧
      (∀ j, j < st.unit.length → GetUnitBrightness (SetDisplayBrightness st level).2 j = level) ∧
      (SetDisplayBrightness st level).2.unit.map (fun u => u.value)
        = st.unit.map (fun u => u.value) ∧
      (SetDisplayBrightness st level).2.log = st.log) := by
  have hunit : (SetUnitBrightness st i level).1 = status_t.STATUS_ERROR
      ↔ (st.unit.length ≤ i ∨ 8 < level) := by
    constructor
    · intro he
      by_contra hn
      rw [SetUnitBrightness_ok st i level (by omega) (by omega)] at he
      simp at he
    · intro h
      rw [SetUnitBrightness_error st i level h]
  have hdisp : (SetDisplayBrightness st level).1 = status_t.STATUS_ERROR ↔ 8 < level := by
    constructor
    · intro he
      by_contra hn
      rw [SetDisplayBrightness_status st level (by omega)] at he
      simp at he
    · intro h
      rw [SetDisplayBrightness_error st level h]
  refine ⟨hunit, hdisp, ?_, ?_, ?_, ?_⟩
  · intro he
    rw [SetUnitBrightness_error st i level (hunit.1 he)]
  · intro he
    rw [SetDisplayBrightness_error st level (hdisp.1 he)]
  · intro hok
    have hne : ¬ (st.unit.length ≤ i ∨ 8 < level) := by
      intro h
      rw [SetUnitBrightness_error st i level h] at hok
      simp at hok
    have hi : i < st.unit.length := by omega
    have hl : level ≤ 8 := by omega
    rw [SetUnitBrightness_ok st i level hi hl]
    refine ⟨rfl, ?_, ?_, ?_, rfl, rfl⟩
    · rw [GetUnitBrightness_opt]
      simp [List.getElem?_set, hi]
    · intro j hj
      simp only [List.getElem?_set_ne (Ne.symm hj)]
    · simp only [List.map_set]
      apply List.ext_getElem?
      intro j
      rw [List.getElem?_set]
      by_cases hij : i = j
      · subst hij
        simp [hi, List.getD_eq_getElem?_getD, List.getElem?_eq_getElem hi]
      · rw [if_neg hij]
  · intro hok
    have hl : level ≤ 8 := by
      by_contra hn
      rw [SetDisplayBrightness_error st level (by omega)] at hok
      simp at hok
    have hu : (SetDisplayBrightness st level).2.unit
        = st.unit.map (fun u => { u with brightness := level }) := by
      rw [SetDisplayBrightness_unit st level hl, mapIdx_const]
    refine ⟨hu, ?_, ?_, (SetDisplayBrightness_shape st level).2⟩
    · intro j hj
      rw [GetUnitBrightness_opt, hu]
      simp [List.getElem?_eq_getElem hj]
    · rw [hu, List.map_map]
      rfl

/-- Witness for C18: on the three-unit display, level 5 for unit 1 is stored and read back,
and level 9 is rejected with the state unchanged. -/
theorem brightness_setters_witness :
    GetUnitBrightness (SetUnitBrightness display3 1 5).2 1 = 5 ∧
    (SetUnitBrightness display3 1 9).2 = display3 ∧
    (SetDisplayBrightness display3 9).2 = display3 ∧
    (∀ j, j < display3.unit.length → GetUnitBrightness (SetDisplayBrightness display3 5).2 j = 5) :=
  ⟨((brightness_setters display3 1 5).2.2.2.2.1 (by decide)).2.1,
    (brightness_setters display3 1 9).2.2.1 (by decide),
    (brightness_setters display3 1 9).2.2.2.1 (by decide),
    ((brightness_setters display3 1 5).2.2.2.2.2 (by decide)).2.1⟩

theorem UnitsValid.set {st : State} (hv : UnitsValid st) (i : Nat) (u : UnitStruct)
    (hu : u.brightness ≤ 8 ∧ u.value < 256) (st' : State) (hst : st'.unit = st.unit.set i u) :
    UnitsValid st' := by
  intro x hx
  rw [hst] at hx
  rcases List.mem_or_eq_of_mem_set hx with h | h
  · exact hv x h
  · rw [h]; exact hu

theorem stored_char_lt (c v : Nat) : (c &&& 0x7F) ||| (v &&& 0x80) < 256 :=
  @Nat.or_lt_two_pow _ _ 8 (Nat.lt_of_le_of_lt Nat.and_le_right (by decide))
    (Nat.lt_of_le_of_lt Nat.and_le_right (by decide))

theorem SetUnitValue_valid (st : State) (i c : Nat) (hv : UnitsValid st) :
    UnitsValid (SetUnitValue st i c).2 := by
  by_cases hi : i < st.unit.length
  · refine hv.set i _ ⟨?_, ?_⟩ _ (SetUnitValue_unit st i c hi)
    · exact (hv _ (List.getElem_mem hi)).1
    · exact stored_char_lt c _
  · have : SetUnitValue st i c = (status_t.STATUS_ERROR, st) := by
      unfold SetUnitValue; simp only [hi, if_false]
    rw [this]; exact hv

theorem SetUnitIndicator_valid (st : State) (i : Nat) (b : Bool) (hv : UnitsValid st) :
    UnitsValid (SetUnitIndicator st i b).2 := by
  by_cases hi : i < st.unit.length
  · refine hv.set i _ ⟨?_, ?_⟩ _ (SetUnitIndicator_unit st i b hi)
    · exact (hv _ (List.getElem_mem hi)).1
    · have hlt := (hv _ (List.getElem_mem hi)).2
      simp only
      split
      · exact @Nat.or_lt_two_pow _ _ 8 hlt (by decide)
      · exact Nat.lt_of_le_of_lt Nat.and_le_right (by decide)
  · have : SetUnitIndicator st i b = (status_t.STATUS_ERROR, st) := by
      unfold SetUnitIndicator; simp only [hi, if_false]
    rw [this]; exact hv

theorem SetUnitBrightness_valid (st : State) (i b : Nat) (hv : UnitsValid st) :
    UnitsValid (SetUnitBrightness st i b).2 := by
  by_cases hok : i < st.unit.length ∧ b ≤ 8
  · refine hv.set i _ ⟨?_, ?_⟩ _ (SetUnitBrightness_unit st i b hok.1 hok.2)
    · exact hok.2
    · exact (hv _ (List.getElem_mem hok.1)).2
  · rw [SetUnitBrightness_error st i b (by omega)]; exact hv

theorem SetDisplayValue_valid (st : State) (s : Option (List Nat)) (hv : UnitsValid st) :
    UnitsValid (SetDisplayValue st s).2 := by
  unfold SetDisplayValue
  cases s with
  | none => exact hv
  | some s =>
    exact forLoop_invariant UnitsValid _ (fun i a ha => SetUnitValue_valid a i _ ha) _ _ _ hv

theorem SetDisplayIndicator_valid (st : State) (b : Bool) (hv : UnitsValid st) :
    UnitsValid (SetDisplayIndicator st b).2 := by
  unfold SetDisplayIndicator
  exact forLoop_invariant UnitsValid _ (fun i a ha => SetUnitIndicator_valid a i b ha) _ _ _ hv

theorem SetDisplayBrightness_valid (st : State) (b : Nat) (hv : UnitsValid st) :
    UnitsValid (SetDisplayBrightness st b).2 := by
  by_cases hb : b ≤ 8
  · intro u hu
    rw [SetDisplayBrightness_unit st b hb, mapIdx_const] at hu
    obtain ⟨u0, hu0, rfl⟩ := List.mem_map.1 hu
    exact ⟨hb, (hv u0 hu0).2⟩
  · rw [SetDisplayBrightness_error st b (by omega)]; exact hv

theorem Call.run_valid (h : Host) (st : State) (call : Call) (hv : UnitsValid st) :
    UnitsValid (Call.run h st call) ∧ (Call.run h st call).unit.length = st.unit.length := by
  cases call with
  | SetUnitValue unit character =>
    exact ⟨SetUnitValue_valid st _ _ hv, (SetUnitValue_frame st _ _).length⟩
  | SetUnitIndicator unit state =>
    exact ⟨SetUnitIndicator_valid st _ _ hv, (SetUnitIndicator_frame st _ _).length⟩
  | SetUnitBrightness unit brightness =>
    exact ⟨SetUnitBrightness_valid st _ _ hv, (SetUnitBrightness_shape st _ _).1⟩
  | SetDisplayValue string =>
    exact ⟨SetDisplayValue_valid st _ hv, (SetDisplayValue_frame st _).length⟩
  | SetDisplayValue_P string =>
    exact ⟨SetDisplayValue_valid st _ hv, (SetDisplayValue_frame st _).length⟩
  | SetDisplayValue_value value =>
    exact ⟨SetDisplayValue_valid st _ hv, (SetDisplayValue_frame st _).length⟩
  | SetDisplayIndicator state =>
    refine ⟨SetDisplayIndicator_valid st _ hv, ?_⟩
    exact (forLoop_invariant (Frame st) _
      (fun i a ha => ha.andThen (SetUnitIndicator_frame a i state)) _ _ _ (Frame.frefl st)).length
  | SetDisplayBrightness brightness =>
    exact ⟨SetDisplayBrightness_valid st _ hv, (SetDisplayBrightness_shape st _).1⟩

theorem foldl_valid (h : Host) : ∀ (calls : List Call) (st : State), UnitsValid st →
    UnitsValid (calls.foldl (Call.run h) st) ∧
      (calls.foldl (Call.run h) st).unit.length = st.unit.length := by
  intro calls
  induction calls with
  | nil => intro st hv; exact ⟨hv, rfl⟩
  | cons c cs ih =>
    intro st hv
    have h1 := Call.run_valid h st c hv
    have h2 := ih _ h1.1
    exact ⟨h2.1, h2.2.trans h1.2⟩

/-- C19: in every state reached from a freshly constructed display by any sequence of
`SetUnitValue`, `SetUnitIndicator`, `SetUnitBrightness`, `SetDisplayValue` (each of its
three overloads), `SetDisplayIndicator` and `SetDisplayBrightness` calls with arbitrary
arguments, every unit's brightness is at most 8 and every character returned by
`GetUnitValue` or `GetDisplayValue` is at most 127; the stored values are bytes and the
number of units is the one given at construction. -/
theorem unit_invariant (h : Host) (unit_count : Nat) (calls : List Call) :
    (∀ u ∈ (reached h unit_count calls).unit, u.brightness ≤ 8 ∧ u.value < 256) ∧
    (∀ i, GetUnitBrightness (reached h unit_count calls) i ≤ 8) ∧
    (∀ i, GetUnitValue (reached h unit_count calls) i ≤ 127) ∧
    (∀ c ∈ GetDisplayValue (reached h unit_count calls), c ≤ 127) ∧
    (reached h unit_count calls).unit.length = unit_count := by
  have h0 : UnitsValid (Initialize unit_count) := by
    intro u hu
    have := List.eq_of_mem_replicate hu
    rw [this]
    exact ⟨by decide, by decide⟩
  obtain ⟨hv, hl⟩ := foldl_valid h calls (Initialize unit_count) h0
  refine ⟨hv, ?_, ?_, ?_, ?_⟩
  · intro i
    unfold GetUnitBrightness Brightness.MIN
    split
    · rename_i hi
      rw [unit_getD _ i hi]
      exact (hv _ (List.getElem_mem hi)).1
    · omega
  · intro i
    unfold GetUnitValue
    split
    · exact mask_char_le _
    · omega
  · intro c hc
    unfold GetDisplayValue at hc
    obtain ⟨u, _, rfl⟩ := List.mem_map.1 hc
    exact mask_char_le _
  · exact hl.trans (List.length_replicate _ _)

theorem forLoop_last {σ : Type} (body : Nat → σ → σ) :
    ∀ (n i : Nat) (s : σ), forLoop body (n + 1) i s = body (i + n) (forLoop body n i s) := by
  intro n
  induction n with
  | zero => intro i s; rfl
  | succ n ih =>
    intro i s
    have := ih (i + 1) (body i s)
    rw [forLoop, this]
    have h1 : i + 1 + n = i + (n + 1) := by omega
    rw [h1]
    rfl

theorem shown_getElem? (w : List Nat) (uc j : Nat) :
    (shown w uc)[j]? = if j < uc then some (w.getD j 0 &&& 0x7F) else none := by
  unfold shown
  by_cases hj : j < uc
  · rw [if_pos hj, List.getElem?_map, List.getElem?_range hj]
    rfl
  · rw [if_neg hj, List.getElem?_eq_none (by simpa using hj)]

theorem GetDisplayValue_getElem? (st : State) (j : Nat) :
    (GetDisplayValue st)[j]? = (st.unit[j]?).map (fun u => u.value &&& 0x7F) := by
  unfold GetDisplayValue
  rw [List.getElem?_map]

theorem GetDisplayValue_length (st : State) : (GetDisplayValue st).length = st.unit.length := by
  unfold GetDisplayValue
  rw [List.length_map]

theorem GetDisplayValue_lt (st : State) : ∀ c ∈ GetDisplayValue st, c < 128 := by
  intro c hc
  unfold GetDisplayValue at hc
  obtain ⟨u, _, rfl⟩ := List.mem_map.1 hc
  exact Nat.lt_succ_of_le (mask_char_le _)

theorem GetDisplayValue_SetDisplayValue (st : State) (w : List Nat) :
    GetDisplayValue (SetDisplayValue st (some w)).2 = shown w st.unit.length := by
  apply List.ext_getElem?
  intro j
  rw [GetDisplayValue_getElem?, SetDisplayValue_unit, List.getElem?_mapIdx, shown_getElem?]
  by_cases hj : j < st.unit.length
  · rw [if_pos hj, List.getElem?_eq_getElem hj]
    simp only [Option.map_some', mask_or_char]
  · rw [if_neg hj, List.getElem?_eq_none (by omega)]
    rfl

theorem shown_eq_take (w : List Nat) (uc : Nat) (h7 : ∀ c ∈ w, c < 128) (hl : uc ≤ w.length) :
    shown w uc = w.take uc := by
  apply List.ext_getElem?
  intro j
  rw [shown_getElem?, List.getElem?_take]
  by_cases hj : j < uc
  · have hjw : j < w.length := by omega
    rw [if_pos hj, if_pos hj, List.getD_eq_getElem?_getD, List.getElem?_eq_getElem hjw,
      Option.getD_some, mask_char_of_lt _ (h7 _ (List.getElem_mem hjw))]
  · rw [if_neg hj, if_neg hj]

theorem strlen_eq_length (s : List Nat) (hnul : ∀ c ∈ s, c ≠ 0) : strlen s = s.length := by
  unfold strlen
  have : s.takeWhile (fun c => c != 0) = s := by
    rw [List.takeWhile_eq_self_iff]
    intro c hc
    simpa using hnul c hc
  rw [this]

theorem scroll_loop_frame (st : State) (s : List Nat) (n : Nat) (dir : Direction) (d k : Nat) :
    Frame st (forLoop (fun index acc =>
      delay d (match dir with
        | Direction.LEFT => (SetDisplayValue acc (some (s.drop (1 + index)))).2
        | Direction.RIGHT => (SetDisplayValue acc (some (s.drop (n - index - 1)))).2)) k 0 st) := by
  refine forLoop_invariant (Frame st) _ ?_ _ _ _ (Frame.frefl st)
  intro i a ha
  cases dir
  · exact (ha.andThen (SetDisplayValue_frame a _)).andThen (delay_frame _ _)
  · exact (ha.andThen (SetDisplayValue_frame a _)).andThen (delay_frame _ _)

theorem GetDisplayValue_delay (d : Nat) (st : State) :
    GetDisplayValue (delay d st) = GetDisplayValue st := rfl

theorem EffectScroll_shown (st : State) (text : List Nat) (dir : Direction) (d : Nat)
    (hlen : text.length ≤ 255) (hnul : ∀ c ∈ text, c ≠ 0) :
    GetDisplayValue (EffectScroll st text dir d)
      = match dir with
        | Direction.LEFT => shown ((GetDisplayValue st ++ text).drop text.length) st.unit.length
        | Direction.RIGHT => shown (text ++ GetDisplayValue st) st.unit.length := by
  have hs : strlen text % 256 = text.length := by
    rw [strlen_eq_length text hnul]
    exact Nat.mod_eq_of_lt (by omega)
  have hcur : shown (GetDisplayValue st) st.unit.length = GetDisplayValue st := by
    rw [shown_eq_take _ _ (GetDisplayValue_lt st) (by rw [GetDisplayValue_length]),
      ← GetDisplayValue_length st, List.take_length]
  unfold EffectScroll
  simp only [hs, List.take_length]
  cases hn : text.length with
  | zero =>
    have ht : text = [] := List.length_eq_zero.1 hn
    subst ht
    cases dir
    · simp only [forLoop, List.append_nil, List.drop_zero, hcur]
    · simp only [forLoop, List.nil_append, hcur]
  | succ k =>
    rw [forLoop_last]
    have hf := scroll_loop_frame st
      (match dir with
        | Direction.LEFT => GetDisplayValue st ++ text
        | Direction.RIGHT => text ++ GetDisplayValue st) (k + 1) dir d k
    cases dir
    · simp only [GetDisplayValue_delay, GetDisplayValue_SetDisplayValue]
      simp only at hf
      rw [hf.length, Nat.zero_add, Nat.add_comm 1 k]
    · simp only [GetDisplayValue_delay, GetDisplayValue_SetDisplayValue]
      simp only at hf
      rw [hf.length]
      have : k + 1 - (0 + k) - 1 = 0 := by omega
      rw [this, List.drop_zero]

/-- C11: for a text of length `n ≤ 255` without NUL and of 7-bit characters, after
`EffectScroll(text, LEFT, d)` the display shows the last `unit_count` characters of
`cur ++ text` (those from position `n` on), and after `EffectScroll(text, RIGHT, d)` the
first `unit_count` characters of `text ++ cur`, where `cur` is what it showed before; so
for `n = 0` it is unchanged, for `n < unit_count` the other positions keep characters of
`cur`, and for `n ≥ unit_count` it shows the tail (LEFT) or the head (RIGHT) of `text`. -/
theorem EffectScroll_final (st : State) (text : List Nat) (d : Nat)
    (hlen : text.length ≤ 255) (hnul : ∀ c ∈ text, c ≠ 0) (h7 : ∀ c ∈ text, c < 128) :
    GetDisplayValue (EffectScroll st text Direction.LEFT d)
      = (GetDisplayValue st ++ text).drop text.length ∧
    GetDisplayValue (EffectScroll st text Direction.RIGHT d)
      = (text ++ GetDisplayValue st).take st.unit.length ∧
    (text.length = 0 →
      GetDisplayValue (EffectScroll st text Direction.LEFT d) = GetDisplayValue st ∧
      GetDisplayValue (EffectScroll st text Direction.RIGHT d) = GetDisplayValue st) ∧
    (text.length < st.unit.length →
      GetDisplayValue (EffectScroll st text Direction.LEFT d)
        = (GetDisplayValue st).drop text.length ++ text ∧
      GetDisplayValue (EffectScroll st text Direction.RIGHT d)
        = text ++ (GetDisplayValue st).take (st.unit.length - text.length)) ∧
    (st.unit.length ≤ text.length →
      GetDisplayValue (EffectScroll st text Direction.LEFT d)
        = text.drop (text.length - st.unit.length) ∧
      GetDisplayValue (EffectScroll st text Direction.RIGHT d) = text.take st.unit.length) := by
  have hcl := GetDisplayValue_length st
  have hall : ∀ c ∈ GetDisplayValue st ++ text, c < 128 := by
    intro c hc
    rcases List.mem_append.1 hc with h | h
    · exact GetDisplayValue_lt st c h
    · exact h7 c h
  have hall' : ∀ c ∈ text ++ GetDisplayValue st, c < 128 := by
    intro c hc
    rcases List.mem_append.1 hc with h | h
    · exact h7 c h
    · exact GetDisplayValue_lt st c h
  have hL : GetDisplayValue (EffectScroll st text Direction.LEFT d)
      = (GetDisplayValue st ++ text).drop text.length := by
    rw [EffectScroll_shown st text Direction.LEFT d hlen hnul]
    simp only
    rw [shown_eq_take _ _ (fun c hc => hall c (List.mem_of_mem_drop hc))
      (by rw [List.length_drop, List.length_append, hcl]; omega)]
    apply List.take_of_length_le
    rw [List.length_drop, List.length_append, hcl]
    omega
  have hR : GetDisplayValue (EffectScroll st text Direction.RIGHT d)
      = (text ++ GetDisplayValue st).take st.unit.length := by
    rw [EffectScroll_shown st text Direction.RIGHT d hlen hnul]
    simp only
    rw [shown_eq_take _ _ hall' (by rw [List.length_append, hcl]; omega)]
  refine ⟨hL, hR, ?_, ?_, ?_⟩
  · intro h0
    have ht : text = [] := List.length_eq_zero.1 h0
    subst ht
    rw [hL, hR]
    refine ⟨?_, ?_⟩
    · simp only [List.append_nil, List.length_nil, List.drop_zero]
    · rw [List.nil_append, ← hcl, List.take_length]
  · intro hlt
    rw [hL, hR]
    constructor
    · rw [List.drop_append_of_le_length (by rw [hcl]; omega)]
    · rw [List.take_append_eq_append_take, List.take_of_length_le (by omega)]
  · intro hge
    rw [hL, hR]
    constructor
    · have : text.length = (GetDisplayValue st).length + (text.length - st.unit.length) := by
        rw [hcl]; omega
      rw [this, List.drop_append]
      congr 1
      simp only [List.length_drop, hcl]
      omega
    · rw [List.take_append_of_le_length hge]

/-- Witness for C11: "AB" scrolled into the four-unit display showing "WXYZ". -/
theorem EffectScroll_final_witness :
    GetDisplayValue (EffectScroll displayWXYZ [65, 66] Direction.LEFT 50)
      = (GetDisplayValue displayWXYZ ++ [65, 66]).drop [65, 66].length ∧
    GetDisplayValue (EffectScroll displayWXYZ [65, 66] Direction.RIGHT 50)
      = ([65, 66] ++ GetDisplayValue displayWXYZ).take displayWXYZ.unit.length :=
  have w := EffectScroll_final displayWXYZ [65, 66] 50 (by decide) (by decide) (by decide)
  ⟨w.1, w.2.1⟩

/-- C12: `EffectScroll(text, LEFT, d)` followed by `EffectScroll(r, RIGHT, d')`, for a
NUL-free `text` of length `n ≤ 255` and a NUL-free `r` of the same length whose first
`min(n, unit_count)` characters are those the display showed at first, leaves the display
showing exactly what it showed at first. -/
theorem EffectScroll_round_trip (st : State) (text r : List Nat) (d d' : Nat)
    (hlen : text.length ≤ 255) (hnul : ∀ c ∈ text, c ≠ 0)
    (hrlen : r.length = text.length) (hrnul : ∀ c ∈ r, c ≠ 0)
    (hpre : r.take (min text.length st.unit.length)
      = (GetDisplayValue st).take (min text.length st.unit.length)) :
    GetDisplayValue (EffectScroll (EffectScroll st text Direction.LEFT d) r Direction.RIGHT d')
      = GetDisplayValue st := by
  have hcl := GetDisplayValue_length st
  have hf := EffectScroll_frame st text Direction.LEFT d
  rw [EffectScroll_shown _ r Direction.RIGHT d' (by omega) hrnul,
    EffectScroll_shown st text Direction.LEFT d hlen hnul]
  simp only
  rw [hf.length]
  apply List.ext_getElem?
  intro j
  rw [shown_getElem?]
  by_cases hj : j < st.unit.length
  · rw [if_pos hj]
    have hjc : j < (GetDisplayValue st).length := by omega
    have hcur : (GetDisplayValue st)[j]? = some (GetDisplayValue st)[j] :=
      List.getElem?_eq_getElem hjc
    have h7 : (GetDisplayValue st)[j] < 128 :=
      GetDisplayValue_lt st _ (List.getElem_mem hjc)
    rw [hcur, List.getD_eq_getElem?_getD]
    by_cases hjn : j < text.length
    · have hjr : j < r.length := by omega
      have h1 : r[j]? = (GetDisplayValue st)[j]? := by
        have hm : j < min text.length st.unit.length := by omega
        have := congrArg (fun l => l[j]?) hpre
        simp only [List.getElem?_take, hm, if_true] at this
        exact this
      rw [List.getElem?_append_left hjr, h1, hcur, Option.getD_some, mask_char_of_lt _ h7]
    · rw [List.getElem?_append_right (by omega), shown_getElem?, if_pos (by omega),
        List.getD_eq_getElem?_getD, List.getElem?_drop]
      have hidx : text.length + (j - r.length) = j := by omega
      rw [hidx, List.getElem?_append_left (by omega), hcur]
      simp only [Option.getD_some, mask_char_idem, mask_char_of_lt _ h7]
  · rw [if_neg hj, List.getElem?_eq_none (by omega)]

/-- Witness for C12: "ABCDEF" scrolled in from the right of "WXYZ", then "WXYZ12" from the
left. -/
theorem EffectScroll_round_trip_witness :
    GetDisplayValue (EffectScroll (EffectScroll displayWXYZ [65, 66, 67, 68, 69, 70]
        Direction.LEFT 50) [87, 88, 89, 90, 49, 50] Direction.RIGHT 50)
      = GetDisplayValue displayWXYZ :=
  EffectScroll_round_trip displayWXYZ [65, 66, 67, 68, 69, 70] [87, 88, 89, 90, 49, 50] 50 50
    (by decide) (by decide) (by decide) (by decide) (by decide)

theorem flags_length (st : State) : st.flags.length = st.unit.length := by
  unfold State.flags
  exact List.length_map _ _

theorem flags_set_char (l : List UnitStruct) (i c : Nat) :
    (l.set i { l.getD i ⟨0, 0⟩ with
        value := (c &&& 0x7F) ||| ((l.getD i ⟨0, 0⟩).value &&& 0x80) }).map
        (fun u => (u.value &&& 0x80, u.brightness))
      = l.map (fun u => (u.value &&& 0x80, u.brightness)) := by
  apply List.ext_getElem
  · simp
  · intro n h1 h2
    have hn : n < l.length := by simpa using h2
    simp only [List.getElem_map, List.getElem_set]
    split
    · subst_vars
      simp only [mask_or_indicator, List.getD_eq_getElem?_getD, List.getElem?_eq_getElem hn,
        Option.getD_some]
    · rfl

theorem SetUnitValue_flags (st : State) (i c : Nat) :
    (SetUnitValue st i c).2.flags = st.flags := by
  unfold SetUnitValue State.flags
  split
  · exact flags_set_char _ _ _
  · rfl

theorem SetUnitValue_frames (st : State) (i c : Nat) :
    (SetUnitValue st i c).2.frames = st.frames := by
  unfold SetUnitValue
  split <;> rfl

theorem SetDisplayValue_flags (st : State) (s : Option (List Nat)) :
    (SetDisplayValue st s).2.flags = st.flags ∧ (SetDisplayValue st s).2.frames = st.frames := by
  unfold SetDisplayValue
  cases s with
  | none => exact ⟨rfl, rfl⟩
  | some w =>
    exact forLoop_invariant (fun a : State => a.flags = st.flags ∧ a.frames = st.frames) _
      (fun i a ha => ⟨(SetUnitValue_flags a i _).trans ha.1, (SetUnitValue_frames a i _).trans ha.2⟩)
      _ _ _ ⟨rfl, rfl⟩

theorem GetUnitValue_shown (st : State) (i : Nat) :
    GetUnitValue st i = ((GetDisplayValue st)[i]?).getD 0 := by
  rw [GetUnitValue_opt, GetDisplayValue_getElem?]

theorem GetUnitIndicator_flags (st : State) (i : Nat) :
    GetUnitIndicator st i = ((st.flags[i]?).map (fun p => p.1 != 0)).getD false := by
  rw [GetUnitIndicator_opt]
  unfold State.flags
  rw [List.getElem?_map, Option.map_map]
  rfl

theorem GetUnitBrightness_flags (st : State) (i : Nat) :
    GetUnitBrightness st i = ((st.flags[i]?).map (fun p => p.2)).getD 0 := by
  rw [GetUnitBrightness_opt]
  unfold State.flags
  rw [List.getElem?_map, Option.map_map]
  rfl

theorem shown_GetDisplayValue (st : State) :
    shown (GetDisplayValue st) st.unit.length = GetDisplayValue st := by
  rw [shown_eq_take _ _ (GetDisplayValue_lt st) (by rw [GetDisplayValue_length]),
    ← GetDisplayValue_length st, List.take_length]

theorem strobe_loop (st : State) (s : List Nat) (d n : Nat) :
    (forLoop (fun count acc =>
        delay d (if count % 2 ≠ 0 then (SetDisplayValue acc (some s)).2
          else forLoop (fun index a => (SetUnitValue a index 32).2) acc.unit.length 0 acc))
      n 0 st).flags = st.flags ∧
    (forLoop (fun count acc =>
        delay d (if count % 2 ≠ 0 then (SetDisplayValue acc (some s)).2
          else forLoop (fun index a => (SetUnitValue a index 32).2) acc.unit.length 0 acc))
      n 0 st).frames.map Prod.fst = st.frames.map Prod.fst ++ List.replicate n d := by
  have key := forLoop_invariant_idx
    (fun i (a : State) => a.flags = st.flags ∧
      a.frames.map Prod.fst = st.frames.map Prod.fst ++ List.replicate i d)
    (fun count acc =>
        delay d (if count % 2 ≠ 0 then (SetDisplayValue acc (some s)).2
          else forLoop (fun index a => (SetUnitValue a index 32).2) acc.unit.length 0 acc))
    n
    (by
      intro i a _ ⟨hf, hfr⟩
      have hin : (if i % 2 ≠ 0 then (SetDisplayValue a (some s)).2
          else forLoop (fun index b => (SetUnitValue b index 32).2) a.unit.length 0 a).flags
            = a.flags ∧
          (if i % 2 ≠ 0 then (SetDisplayValue a (some s)).2
          else forLoop (fun index b => (SetUnitValue b index 32).2) a.unit.length 0 a).frames
            = a.frames := by
        split
        · exact SetDisplayValue_flags a (some s)
        · exact forLoop_invariant (fun b : State => b.flags = a.flags ∧ b.frames = a.frames) _
            (fun i b hb =>
              ⟨(SetUnitValue_flags b i _).trans hb.1, (SetUnitValue_frames b i _).trans hb.2⟩)
            _ _ _ ⟨rfl, rfl⟩
      refine ⟨hin.1.trans hf, ?_⟩
      show List.map Prod.fst (_ ++ [(d, _)]) = _
      rw [List.map_append, hin.2, hfr, List.append_assoc, List.replicate_succ']
      rfl)
    n 0 st (by omega) ⟨rfl, by simp⟩
  simpa using key

/-- C13: for every display state and every iteration count `n`, after `EffectStrobe(n, d)`
every unit's character, indicator flag and brightness (as read by `GetUnitValue`,
`GetUnitIndicator` and `GetUnitBrightness`) are what they were before the call, the display
has as many units as before, and `delay` has been called exactly `n` times, each time
with `d`. -/
theorem EffectStrobe_restores (st : State) (n d : Nat) :
    (∀ i, GetUnitValue (EffectStrobe st n d) i = GetUnitValue st i ∧
      GetUnitIndicator (EffectStrobe st n d) i = GetUnitIndicator st i ∧
      GetUnitBrightness (EffectStrobe st n d) i = GetUnitBrightness st i) ∧
    GetDisplayValue (EffectStrobe st n d) = GetDisplayValue st ∧
    (EffectStrobe st n d).unit.length = st.unit.length ∧
    (EffectStrobe st n d).frames.map Prod.fst = st.frames.map Prod.fst ++ List.replicate n d := by
  obtain ⟨hlf, hlr⟩ := strobe_loop st (GetDisplayValue st) d n
  have hfin : ∀ st1 : State, (SetDisplayValue st1 (some (GetDisplayValue st))).2
      = EffectStrobe st n d → st1.flags = st.flags →
      st1.frames.map Prod.fst = st.frames.map Prod.fst ++ List.replicate n d →
      (EffectStrobe st n d).flags = st.flags ∧
      GetDisplayValue (EffectStrobe st n d) = GetDisplayValue st ∧
      (EffectStrobe st n d).frames.map Prod.fst
        = st.frames.map Prod.fst ++ List.replicate n d := by
    intro st1 he hf hr
    have hl1 : st1.unit.length = st.unit.length := by
      rw [← flags_length, hf, flags_length]
    rw [← he]
    refine ⟨(SetDisplayValue_flags st1 _).1.trans hf, ?_, ?_⟩
    · rw [GetDisplayValue_SetDisplayValue, hl1, shown_GetDisplayValue]
    · rw [(SetDisplayValue_flags st1 _).2, hr]
  obtain ⟨hf, hv, hr⟩ := hfin _ rfl hlf hlr
  refine ⟨fun i => ⟨?_, ?_, ?_⟩, hv, ?_, hr⟩
  · rw [GetUnitValue_shown, GetUnitValue_shown, hv]
  · rw [GetUnitIndicator_flags, GetUnitIndicator_flags, hf]
  · rw [GetUnitBrightness_flags, GetUnitBrightness_flags, hf]
  · rw [← flags_length, hf, flags_length]

set_option maxRecDepth 1000000 in
/-- C14, failing input: a two-unit display showing "AB" and a random source whose every
result is 0 (within each requested range). `EffectSlotMachine` returns, and the display
then shows "A0": in the fifth round the latch loop picks the latched unit 0 again and
again, its `uint8_t` counter wraps through 0, and the loop ends by latching unit 0 a
second time, so unit 1 is never latched and keeps a random digit. -/
theorem EffectSlotMachine_AB_not_restored :
    GetDisplayValue displayAB = [65, 66] ∧
    (EffectSlotMachine 300 hostNone displayAB 10).map GetDisplayValue = some [65, 48] := by
  decide

set_option maxRecDepth 1000000 in
/-- C15, failing inputs. On a display of 253 units `EffectSlotMachine` never returns,
whatever the fuel: the `uint8_t` round counter is compared with `unit_count + 3 = 256`.
On the two-unit display with every random result 0, the latch loop of the fifth round,
entered with unit 0 latched, ends with unit 0 latched and unit 1 not: the round has
latched no new unit, and the call ends after its 5 rounds of 5 frames with one unit
latched, not two. -/
theorem EffectSlotMachine_round_budget_broken :
    (¬ ∃ fuel st', EffectSlotMachine fuel hostNone display253 10 = some st') ∧
    (EffectSlotMachine.latch hostNone 300 [1, 0] displayAB).map (fun r => r.1) = some [1, 0] ∧
    (EffectSlotMachine 300 hostNone displayAB 10).map (fun st' => st'.frames.length) = some 25 := by
  refine ⟨?_, by decide, by decide⟩
  rintro ⟨fuel, st', hr⟩
  unfold EffectSlotMachine at hr
  rw [rounds_diverge hostNone 10 _ fuel 0 _ display253
    (Nat.le_of_eq (List.length_replicate 253 _).symm) (by omega)] at hr
  exact absurd hr (by simp)

theorem itoa_loop_length (uc : Nat) :
    ∀ (n index : Nat) (s : List Nat) (value : Nat),
      (itoa.loop uc n index s value).length = s.length := by
  intro n
  induction n with
  | zero => intro index s value; rfl
  | succ n ih =>
    intro index s value
    rw [itoa.loop, ih, List.length_set]

theorem getD_set_self (s : List Nat) (i v : Nat) (hi : i < s.length) :
    (s.set i v).getD i 0 = v := by
  rw [List.getD_eq_getElem?_getD, List.getElem?_set_self hi]
  rfl

theorem getD_set_other (s : List Nat) (i j v : Nat) (hij : i ≠ j) :
    (s.set i v).getD j 0 = s.getD j 0 := by
  rw [List.getD_eq_getElem?_getD, List.getD_eq_getElem?_getD, List.getElem?_set_ne hij]

/-- The digits written by the loop of `itoa`: counted from the right end of the buffer,
position `k` receives digit `k - index` of `value` when the loop reaches it. -/
theorem itoa_loop_getD (uc : Nat) :
    ∀ (n index : Nat) (s : List Nat) (value k : Nat), s.length = uc → index + n ≤ uc → k < uc →
      (itoa.loop uc n index s value).getD (uc - 1 - k) 0
        = if index ≤ k ∧ k < index + n then 48 + (value / 10 ^ (k - index)) % 10
          else s.getD (uc - 1 - k) 0 := by
  intro n
  induction n with
  | zero =>
    intro index s value k _ _ _
    have hc : ¬ (index ≤ k ∧ k < index + 0) := by omega
    rw [if_neg hc]
    rfl
  | succ n ih =>
    intro index s value k hs hle hk
    rw [itoa.loop, ih (index + 1) _ (value / 10) k (by rw [List.length_set]; exact hs)
      (by omega) hk]
    by_cases h1 : k < index
    · have hc1 : ¬ (index + 1 ≤ k ∧ k < index + 1 + n) := by omega
      have hc2 : ¬ (index ≤ k ∧ k < index + (n + 1)) := by omega
      rw [if_neg hc1, if_neg hc2, getD_set_other _ _ _ _ (by omega)]
    · by_cases h2 : k = index
      · subst h2
        have hc1 : ¬ (k + 1 ≤ k ∧ k < k + 1 + n) := by omega
        have hc2 : k ≤ k ∧ k < k + (n + 1) := by omega
        have he : uc - k - 1 = uc - 1 - k := by omega
        rw [if_neg hc1, if_pos hc2, he, getD_set_self _ _ _ (by omega), Nat.sub_self,
          Nat.pow_zero, Nat.div_one]
      · by_cases h3 : k < index + (n + 1)
        · have hc1 : index + 1 ≤ k ∧ k < index + 1 + n := by omega
          have hc2 : index ≤ k ∧ k < index + (n + 1) := by omega
          have he : k - index = (k - (index + 1)) + 1 := by omega
          rw [if_pos hc1, if_pos hc2, he, Nat.pow_succ, Nat.div_div_eq_div_mul,
            Nat.mul_comm 10]
        · have hc1 : ¬ (index + 1 ≤ k ∧ k < index + 1 + n) := by omega
          have hc2 : ¬ (index ≤ k ∧ k < index + (n + 1)) := by omega
          rw [if_neg hc1, if_neg hc2, getD_set_other _ _ _ _ (by omega)]

/-- After `itoa(s, value)` the character `k` places from the right end of the buffer is
the decimal digit `k` of `value`. -/
theorem itoa_getD (st : State) (s : List Nat) (value k : Nat) (hs : s.length = st.unit.length)
    (hk : k < st.unit.length) :
    (itoa st s value).getD (st.unit.length - 1 - k) 0 = 48 + (value / 10 ^ k) % 10 := by
  unfold itoa
  rw [itoa_loop_getD st.unit.length st.unit.length 0 s value k hs (by omega) hk,
    if_pos (by omega), Nat.sub_zero]

theorem chars_set_brightness (l : List UnitStruct) (i b : Nat) :
    (l.set i { l.getD i ⟨0, 0⟩ with brightness := b }).map (fun u => u.value &&& 0x7F)
      = l.map (fun u => u.value &&& 0x7F) := by
  apply List.ext_getElem
  · simp
  · intro n h1 h2
    have hn : n < l.length := by simpa using h2
    simp only [List.getElem_map, List.getElem_set]
    split
    · subst_vars
      simp [List.getD_eq_getElem?_getD, List.getElem?_eq_getElem hn]
    · rfl

theorem GetDisplayValue_SetUnitBrightness (st : State) (p b : Nat) :
    GetDisplayValue (SetUnitBrightness st p b).2 = GetDisplayValue st := by
  unfold SetUnitBrightness GetDisplayValue
  split
  · split
    · exact chars_set_brightness _ _ _
    · rfl
  · rfl

theorem GetUnitValue_SetUnitBrightness (st : State) (p b q : Nat) :
    GetUnitValue (SetUnitBrightness st p b).2 q = GetUnitValue st q := by
  rw [GetUnitValue_shown, GetUnitValue_shown, GetDisplayValue_SetUnitBrightness]

theorem GetUnitBrightness_SetUnitValue (st : State) (p c q : Nat) :
    GetUnitBrightness (SetUnitValue st p c).2 q = GetUnitBrightness st q := by
  rw [GetUnitBrightness_flags, GetUnitBrightness_flags, SetUnitValue_flags]

theorem GetUnitValue_SetUnitValue (st : State) (p c q : Nat) (hp : p < st.unit.length) :
    GetUnitValue (SetUnitValue st p c).2 q = if q = p then c &&& 0x7F else GetUnitValue st q := by
  rw [GetUnitValue_opt, GetUnitValue_opt, SetUnitValue_unit st p c hp, List.getElem?_set]
  by_cases hq : q = p
  · subst hq
    simp [hp, mask_or_char]
  · rw [if_neg (Ne.symm hq), if_neg hq]

theorem GetUnitBrightness_SetUnitBrightness (st : State) (p b q : Nat) (hp : p < st.unit.length)
    (hb : b ≤ 8) :
    GetUnitBrightness (SetUnitBrightness st p b).2 q
      = if q = p then b else GetUnitBrightness st q := by
  rw [GetUnitBrightness_opt, GetUnitBrightness_opt, SetUnitBrightness_unit st p b hp hb,
    List.getElem?_set]
  by_cases hq : q = p
  · subst hq
    simp [hp]
  · rw [if_neg (Ne.symm hq), if_neg hq]

/-- The drawing loop of a field: unit `position + j` receives the buffer character at
`unit_count - digit_count + j` and, for a valid level, the brightness `brightness_max`. -/
theorem draw_loop (s1 : List Nat) (position digit_count bmax : Nat) (st : State)
    (hlen : st.unit.length ≤ 255) (hpos : position + digit_count ≤ st.unit.length) :
    (forLoop (fun index acc =>
        (SetUnitBrightness (SetUnitValue acc ((position + index) % 256)
          (s1.getD (acc.unit.length + index - digit_count) 0)).2
          ((position + index) % 256) bmax).2) digit_count 0 st).unit.length = st.unit.length ∧
    ∀ j, j < digit_count →
      GetUnitValue (forLoop (fun index acc =>
        (SetUnitBrightness (SetUnitValue acc ((position + index) % 256)
          (s1.getD (acc.unit.length + index - digit_count) 0)).2
          ((position + index) % 256) bmax).2) digit_count 0 st) (position + j)
        = s1.getD (st.unit.length + j - digit_count) 0 &&& 0x7F ∧
      (bmax ≤ 8 → GetUnitBrightness (forLoop (fun index acc =>
        (SetUnitBrightness (SetUnitValue acc ((position + index) % 256)
          (s1.getD (acc.unit.length + index - digit_count) 0)).2
          ((position + index) % 256) bmax).2) digit_count 0 st) (position + j) = bmax) := by
  have key := forLoop_invariant_idx
    (fun i (a : State) => a.unit.length = st.unit.length ∧
      ∀ j, j < i →
        GetUnitValue a (position + j) = s1.getD (st.unit.length + j - digit_count) 0 &&& 0x7F ∧
        (bmax ≤ 8 → GetUnitBrightness a (position + j) = bmax))
    (fun index acc =>
        (SetUnitBrightness (SetUnitValue acc ((position + index) % 256)
          (s1.getD (acc.unit.length + index - digit_count) 0)).2
          ((position + index) % 256) bmax).2)
    digit_count
    (by
      intro i a hi ⟨hal, haj⟩
      have hmod : (position + i) % 256 = position + i := Nat.mod_eq_of_lt (by omega)
      have hp : position + i < a.unit.length := by omega
      have hl1 : (SetUnitValue a (position + i)
          (s1.getD (a.unit.length + i - digit_count) 0)).2.unit.length = a.unit.length :=
        (SetUnitValue_frame a _ _).length
      simp only [hmod]
      refine ⟨((SetUnitBrightness_shape _ _ _).1).trans (hl1.trans hal), ?_⟩
      intro j hj
      constructor
      · rw [GetUnitValue_SetUnitBrightness, GetUnitValue_SetUnitValue _ _ _ _ hp]
        by_cases hji : j = i
        · subst hji
          rw [if_pos rfl, hal]
        · rw [if_neg (by omega)]
          exact (haj j (by omega)).1
      · intro hb
        rw [GetUnitBrightness_SetUnitBrightness _ _ _ _ (by rw [hl1]; exact hp) hb]
        by_cases hji : j = i
        · subst hji
          rw [if_pos rfl]
        · rw [if_neg (by omega), GetUnitBrightness_SetUnitValue]
          exact (haj j (by omega)).2 hb)
    digit_count 0 st (by omega) ⟨rfl, fun j hj => absurd hj (Nat.not_lt_zero j)⟩
  simp only [Nat.zero_add] at key
  exact key

/-- C20: the rendering of a field of `PromptValue`, as done on field entry and after every
increment or decrement, for a field with `digit_count ≤ unit_count` and
`position + digit_count ≤ unit_count`. In numeric mode the unit at `position + j`
(`j < digit_count`) shows the digit character `'0' + (value / 10^(digit_count-1-j)) % 10`;
in alphabetic mode the last unit of the field shows `value & 0x7F`; in both modes the
brightness of the field's units is `brightness_max` when that is at most 8. -/
theorem PromptValue_field_rendering (prompt : PromptValueStruct) (item : Nat)
    (item_value s : List Nat) (st : State)
    (hs : s.length = st.unit.length) (hlen : st.unit.length ≤ 255)
    (hdc : prompt.item_digit_count.getD item 0 ≤ st.unit.length)
    (hpos : prompt.item_position.getD item 0 + prompt.item_digit_count.getD item 0
      ≤ st.unit.length) :
    (prompt.alphabetic = false → ∀ j, j < prompt.item_digit_count.getD item 0 →
      GetUnitValue (PromptValue.draw prompt item item_value s st).2
          (prompt.item_position.getD item 0 + j)
        = 48 + (item_value.getD item 0 / 10 ^ (prompt.item_digit_count.getD item 0 - 1 - j)) % 10) ∧
    (prompt.alphabetic = true → 0 < prompt.item_digit_count.getD item 0 →
      GetUnitValue (PromptValue.draw prompt item item_value s st).2
          (prompt.item_position.getD item 0 + prompt.item_digit_count.getD item 0 - 1)
        = item_value.getD item 0 &&& 0x7F) ∧
    (prompt.brightness_max ≤ 8 → ∀ j, j < prompt.item_digit_count.getD item 0 →
      GetUnitBrightness (PromptValue.draw prompt item item_value s st).2
          (prompt.item_position.getD item 0 + j) = prompt.brightness_max) := by
  refine ⟨?_, ?_, ?_⟩
  · intro ha j hj
    have hd := (draw_loop (itoa st s (item_value.getD item 0))
      (prompt.item_position.getD item 0) (prompt.item_digit_count.getD item 0)
      prompt.brightness_max st hlen hpos).2 j hj
    unfold PromptValue.draw
    simp only [ha, Bool.false_eq_true, if_false]
    rw [hd.1]
    have hidx : st.unit.length + j - prompt.item_digit_count.getD item 0
        = st.unit.length - 1 - (prompt.item_digit_count.getD item 0 - 1 - j) := by omega
    rw [hidx, itoa_getD st s _ _ hs (by omega)]
    exact mask_char_of_lt _ (by have := Nat.mod_lt (item_value.getD item 0
      / 10 ^ (prompt.item_digit_count.getD item 0 - 1 - j)) (by decide : 0 < 10); omega)
  · intro ha h0
    have hd := (draw_loop (s.set (st.unit.length - 1) (item_value.getD item 0))
      (prompt.item_position.getD item 0) (prompt.item_digit_count.getD item 0)
      prompt.brightness_max st hlen hpos).2 (prompt.item_digit_count.getD item 0 - 1) (by omega)
    have hq : prompt.item_position.getD item 0 + prompt.item_digit_count.getD item 0 - 1
        = prompt.item_position.getD item 0 + (prompt.item_digit_count.getD item 0 - 1) := by omega
    unfold PromptValue.draw
    simp only [ha, if_true]
    rw [hq, hd.1]
    have hidx : st.unit.length + (prompt.item_digit_count.getD item 0 - 1)
        - prompt.item_digit_count.getD item 0 = st.unit.length - 1 := by omega
    rw [hidx, getD_set_self _ _ _ (by omega)]
  · intro hb j hj
    unfold PromptValue.draw
    exact ((draw_loop _ (prompt.item_position.getD item 0)
      (prompt.item_digit_count.getD item 0) prompt.brightness_max st hlen hpos).2 j hj).2 hb

/-- Witness for C20: the three-digit field at position 1 of a four-unit display, value 42:
the units 1, 2, 3 show "042" at brightness 8; and the alphabetic field at position 3 with
value 0xC1 shows "A". -/
theorem PromptValue_field_rendering_witness :
    (∀ j, j < 3 →
      GetUnitValue (PromptValue.draw field5to255 0 [42] [0, 0, 0, 0] display4).2 (1 + j)
        = 48 + (42 / 10 ^ (3 - 1 - j)) % 10) ∧
    (∀ j, j < 3 →
      GetUnitBrightness (PromptValue.draw field5to255 0 [42] [0, 0, 0, 0] display4).2 (1 + j)
        = 8) ∧
    GetUnitValue (PromptValue.draw fieldLetter 0 [193] [0, 0, 0, 0] display4).2 (3 + 1 - 1)
      = 193 &&& 0x7F :=
  have w := PromptValue_field_rendering field5to255 0 [42] [0, 0, 0, 0] display4
    (by decide) (by decide) (by decide) (by decide)
  have a := PromptValue_field_rendering fieldLetter 0 [193] [0, 0, 0, 0] display4
    (by decide) (by decide) (by decide) (by decide)
  ⟨w.1 rfl, w.2.2 (by decide), a.2.1 rfl (by decide)⟩

/-- The update branch of the loop body of `PromptValue` ends with the rendering of the field
for the new value, on a display of the same size. -/
theorem body_update_draws (h : Host) (prompt : PromptValueStruct) (timeout : Nat)
    (functor : Nat → Event → Nat → Bool) (bc : List Nat) (item : Nat) (iv s : List Nat)
    (count : Nat) (st : State) (hupd : (IsInputUpdate h st).1 = true) :
    ∃ iv1 st1, st1.unit = st.unit ∧
      (iv1 = iv.set item (PromptValue.increment (prompt.item_lower_limit.getD item 0)
          (prompt.item_upper_limit.getD item 0) (iv.getD item 0)) ∨
       iv1 = iv.set item (PromptValue.decrement (prompt.item_lower_limit.getD item 0)
          (prompt.item_upper_limit.getD item 0) (iv.getD item 0))) ∧
      PromptValue.body h prompt timeout functor bc item iv s count st
        = PromptValue.Step.next iv1 (PromptValue.draw prompt item iv1 s st1).1 0
            (PromptValue.draw prompt item iv1 s st1).2 := by
  have hu : (IsInputUpdate h st).2.unit = st.unit := by
    unfold IsInputUpdate; split <;> rfl
  have hi : (IsInputIncrement h (IsInputUpdate h st).2).2.unit = st.unit := by
    rw [← hu]; unfold IsInputIncrement; split <;> rfl
  unfold PromptValue.body
  simp only [hupd, if_true]
  by_cases hinc : (IsInputIncrement h (IsInputUpdate h st).2).1 = true
  · simp only [hinc, if_true]
    exact ⟨_, (notify functor Event.INCREMENT _ (IsInputIncrement h (IsInputUpdate h st).2).2).2,
      hi, Or.inl rfl, rfl⟩
  · simp only [hinc, if_false]
    exact ⟨_, (notify functor Event.DECREMENT _ (IsInputIncrement h (IsInputUpdate h st).2).2).2,
      hi, Or.inr rfl, rfl⟩

theorem Still.rfl_ (st : State) : Still st st := ⟨rfl, rfl⟩

theorem Still.step {a b c : State} (h1 : Still a b) (h2 : Still b c) : Still a c :=
  ⟨h2.1.trans h1.1, h2.2.trans h1.2⟩

theorem random_fast_still (h : Host) (st : State) (a b : Nat) : Still st (random_fast h st a b).2 :=
  ⟨rfl, rfl⟩

theorem SetUnitValue_still (st : State) (i c : Nat) : Still st (SetUnitValue st i c).2 :=
  ⟨SetUnitValue_flags st i c, SetUnitValue_frames st i c⟩

theorem latch_still (h : Host) : ∀ (fuel : Nat) (array : List Nat) (st : State) (r : List Nat × State),
    EffectSlotMachine.latch h fuel array st = some r → Still st r.2 := by
  intro fuel
  induction fuel with
  | zero => intro array st r hr; simp [EffectSlotMachine.latch] at hr
  | succ n ih =>
    intro array st r hr
    simp only [EffectSlotMachine.latch] at hr
    split at hr
    · exact (random_fast_still h st _ _).step (ih _ _ _ hr)
    · cases hr; exact random_fast_still h st 0 st.unit.length

theorem render_still (h : Host) (s array : List Nat) (st : State) :
    Still st (EffectSlotMachine.render h s array st) := by
  unfold EffectSlotMachine.render
  refine forLoop_invariant (Still st) _ ?_ _ _ _ (Still.rfl_ st)
  intro i a ha
  split
  · exact ha.step (SetUnitValue_still a i _)
  · exact (ha.step (random_fast_still h a _ _)).step (SetUnitValue_still _ i _)

theorem round_frames (h : Host) (ms : Nat) (s array : List Nat) (st : State) (n : Nat) :
    (forLoop (fun _ acc => delay ms (EffectSlotMachine.render h s array acc)) n 0 st).flags
      = st.flags ∧
    (forLoop (fun _ acc => delay ms (EffectSlotMachine.render h s array acc)) n 0 st).frames.map
      Prod.fst = st.frames.map Prod.fst ++ List.replicate n ms := by
  have key := forLoop_invariant_idx
    (fun i (a : State) => a.flags = st.flags ∧
      a.frames.map Prod.fst = st.frames.map Prod.fst ++ List.replicate i ms)
    (fun _ acc => delay ms (EffectSlotMachine.render h s array acc)) n
    (by
      intro i a _ ⟨hf, hfr⟩
      have hr := render_still h s array a
      refine ⟨hr.1.trans hf, ?_⟩
      show List.map Prod.fst (_ ++ [(ms, _)]) = _
      rw [List.map_append, hr.2, hfr, List.append_assoc, List.replicate_succ']
      rfl)
    n 0 st (by omega) ⟨rfl, by simp⟩
  simpa using key

/-- The rounds of `EffectSlotMachine` on a display of at most 252 units: when the round
loop entered at `count` returns, it has shown 5 frames for each of the remaining
`unit_count + 3 - count` rounds and has left indicators and brightness alone. -/
theorem rounds_budget (h : Host) (ms : Nat) (s : List Nat) :
    ∀ (fuel count : Nat) (array : List Nat) (st st' : State),
      EffectSlotMachine.rounds h ms s fuel count array st = some st' →
      st.unit.length ≤ 252 → count ≤ st.unit.length + 3 →
      st'.flags = st.flags ∧
      st'.frames.map Prod.fst
        = st.frames.map Prod.fst ++ List.replicate (5 * (st.unit.length + 3 - count)) ms := by
  intro fuel
  induction fuel with
  | zero => intro count array st st' hr; simp [EffectSlotMachine.rounds] at hr
  | succ n ih =>
    intro count array st st' hr hlen hc
    simp only [EffectSlotMachine.rounds] at hr
    split at hr
    · rename_i hlt
      split at hr
      · cases hr
      · rename_i array1 st1 heq
        have h1 : Still st st1 := by
          split at heq
          · exact latch_still h _ _ _ _ heq
          · cases heq; exact Still.rfl_ st
        obtain ⟨h2f, h2r⟩ := round_frames h ms s array1 st1 5
        have hl2 : (forLoop (fun _ acc => delay ms (EffectSlotMachine.render h s array1 acc))
            5 0 st1).unit.length = st.unit.length := by
          rw [← flags_length, h2f, h1.1, flags_length]
        have hmod : (count + 1) % 256 = count + 1 := Nat.mod_eq_of_lt (by omega)
        rw [hmod] at hr
        obtain ⟨h3f, h3r⟩ := ih _ _ _ _ hr (by rw [hl2]; exact hlen) (by rw [hl2]; omega)
        refine ⟨h3f.trans (h2f.trans h1.1), ?_⟩
        rw [h3r, h2r, h1.2, hl2, List.append_assoc, ← List.replicate_add]
        congr 2
        omega
    · rename_i hge
      cases hr
      have h0 : 5 * (st.unit.length + 3 - count) = 0 := by omega
      rw [h0]
      exact ⟨rfl, by simp⟩

/-- On a display of at most 252 units `EffectSlotMachine` returns, whatever the random
results; it has then called `delay` exactly `5 * (unit_count + 3)` times, and every unit's
indicator and brightness are as before. -/
theorem EffectSlotMachine_budget (h : Host) (st : State) (ms : Nat)
    (hlen : st.unit.length ≤ 252) :
    ∃ st', EffectSlotMachine (257 * st.unit.length + 5) h st ms = some st' ∧
      (∀ i, GetUnitIndicator st' i = GetUnitIndicator st i ∧
        GetUnitBrightness st' i = GetUnitBrightness st i) ∧
      st'.frames.map Prod.fst
        = st.frames.map Prod.fst ++ List.replicate (5 * (st.unit.length + 3)) ms := by
  obtain ⟨st', hst⟩ := rounds_terminates h ms (GetDisplayValue st) (257 * st.unit.length + 5) 0
    (List.replicate st.unit.length 0) st hlen (by omega)
    (by intro a ha; rw [List.eq_of_mem_replicate ha]; omega)
    (by rw [List.length_replicate]; omega)
  obtain ⟨hf, hr⟩ := rounds_budget h ms _ _ _ _ _ _ hst hlen (by omega)
  refine ⟨st', hst, fun i => ⟨?_, ?_⟩, hr⟩
  · rw [GetUnitIndicator_flags, GetUnitIndicator_flags, hf]
  · rw [GetUnitBrightness_flags, GetUnitBrightness_flags, hf]

theorem or_indicator_set (v : Nat) : (v ||| 0x80) &&& 0x80 = 0x80 := by
  apply Nat.eq_of_testBit_eq
  intro i
  simp only [Nat.testBit_and, Nat.testBit_or, testBit_128]
  by_cases h1 : 7 = i
  · simp [h1]
  · simp [h1]

/-- What `SetDisplayIndicator` does to the units: every indicator reads `state`, characters
and brightness are as before. -/
theorem SetDisplayIndicator_effect (st : State) (state : Bool) :
    (∀ i, i < st.unit.length → GetUnitIndicator (SetDisplayIndicator st state).2 i = state) ∧
    (∀ i, GetUnitValue (SetDisplayIndicator st state).2 i = GetUnitValue st i) ∧
    (∀ i, GetUnitBrightness (SetDisplayIndicator st state).2 i = GetUnitBrightness st i) ∧
    (SetDisplayIndicator st state).2.unit.length = st.unit.length := by
  have hu := SetDisplayIndicator_unit st state
  refine ⟨?_, ?_, ?_, ?_⟩
  · intro i hi
    rw [GetUnitIndicator_opt, hu, List.getElem?_mapIdx, List.getElem?_eq_getElem hi]
    cases state
    · simp [mask_char_indicator]
    · simp [or_indicator_set]
  · intro i
    rw [GetUnitValue_opt, GetUnitValue_opt, hu, List.getElem?_mapIdx]
    cases hx : st.unit[i]? with
    | none => rfl
    | some u =>
      cases state
      · simp [mask_char_idem]
      · simp [or_indicator_char]
  · intro i
    rw [GetUnitBrightness_opt, GetUnitBrightness_opt, hu, List.getElem?_mapIdx]
    cases hx : st.unit[i]? with
    | none => rfl
    | some u => cases state <;> rfl
  · rw [hu, List.length_mapIdx]

/-- C24, failing input: every call. `SetDisplayIndicator(state)` returns `STATUS_ERROR` on
every display and for both values of `state` (here: the three-unit display, `true`),
although it has set every unit's indicator to `state` and left characters and brightness
alone; `SetDisplayValue` and `SetDisplayBrightness` return `STATUS_OK` on the same
display. -/
theorem SetDisplayIndicator_returns_error :
    (∀ (st : State) (state : Bool), (SetDisplayIndicator st state).1 = status_t.STATUS_ERROR) ∧
    (SetDisplayIndicator display3 true).1 = status_t.STATUS_ERROR ∧
    (∀ i, i < 3 → GetUnitIndicator (SetDisplayIndicator display3 true).2 i = true) ∧
    GetDisplayValue (SetDisplayIndicator display3 true).2 = GetDisplayValue display3 ∧
    (SetDisplayValue display3 (some [65, 66, 67])).1 = status_t.STATUS_OK ∧
    (SetDisplayBrightness display3 5).1 = status_t.STATUS_OK := by
  refine ⟨fun _ _ => rfl, rfl, ?_, by decide, rfl, by decide⟩
  intro i hi
  exact (SetDisplayIndicator_effect display3 true).1 i hi

theorem SetUnitValue_other (st : State) (p c q : Nat) (hq : p ≠ q) :
    (SetUnitValue st p c).2.unit[q]? = st.unit[q]? := by
  unfold SetUnitValue
  split
  · exact List.getElem?_set_ne hq
  · rfl

theorem SetUnitBrightness_other (st : State) (p b q : Nat) (hq : p ≠ q) :
    (SetUnitBrightness st p b).2.unit[q]? = st.unit[q]? := by
  unfold SetUnitBrightness
  split
  · split
    · exact List.getElem?_set_ne hq
    · rfl
  · rfl

/-- The rendering of a field writes no unit outside `[position, position + digit_count)`. -/
theorem draw_outside (prompt : PromptValueStruct) (item : Nat) (iv s : List Nat) (st : State)
    (hlen : st.unit.length ≤ 255)
    (hpos : prompt.item_position.getD item 0 + prompt.item_digit_count.getD item 0
      ≤ st.unit.length)
    (q : Nat)
    (hq : q < prompt.item_position.getD item 0 ∨
      prompt.item_position.getD item 0 + prompt.item_digit_count.getD item 0 ≤ q) :
    (PromptValue.draw prompt item iv s st).2.unit[q]? = st.unit[q]? := by
  unfold PromptValue.draw
  have key := forLoop_invariant_idx
    (fun (_ : Nat) (a : State) => a.unit[q]? = st.unit[q]?)
    (fun index acc =>
      (SetUnitBrightness (SetUnitValue acc ((prompt.item_position.getD item 0 + index) % 256)
        ((if prompt.alphabetic = true then s.set (st.unit.length - 1) (iv.getD item 0)
          else itoa st s (iv.getD item 0)).getD
          (acc.unit.length + index - prompt.item_digit_count.getD item 0) 0)).2
        ((prompt.item_position.getD item 0 + index) % 256) prompt.brightness_max).2)
    (prompt.item_digit_count.getD item 0)
    (by
      intro i a hi ha
      have hmod : (prompt.item_position.getD item 0 + i) % 256
          = prompt.item_position.getD item 0 + i := Nat.mod_eq_of_lt (by omega)
      simp only [hmod]
      rw [SetUnitBrightness_other _ _ _ _ (by omega), SetUnitValue_other _ _ _ _ (by omega)]
      exact ha)
    (prompt.item_digit_count.getD item 0) 0 st (by omega) rfl
  exact key

theorem getters_of_unit_eq (st st' : State) (q : Nat) (hq : st'.unit[q]? = st.unit[q]?) :
    GetUnitValue st' q = GetUnitValue st q ∧ GetUnitIndicator st' q = GetUnitIndicator st q ∧
    GetUnitBrightness st' q = GetUnitBrightness st q := by
  rw [GetUnitValue_opt, GetUnitValue_opt, GetUnitIndicator_opt, GetUnitIndicator_opt,
    GetUnitBrightness_opt, GetUnitBrightness_opt, hq]
  exact ⟨rfl, rfl, rfl⟩

/-- C21: an increment or decrement update of a field of `PromptValue` with
`position + digit_count ≤ unit_count` leaves every unit whose index is outside
`[position, position + digit_count)` as it was (character, indicator and brightness), and
changes no other entry of the caller's value array. -/
theorem PromptValue_partial_redraw (h : Host) (prompt : PromptValueStruct) (timeout : Nat)
    (functor : Nat → Event → Nat → Bool) (bc : List Nat) (item : Nat) (iv s : List Nat)
    (count : Nat) (st : State) (hupd : (IsInputUpdate h st).1 = true)
    (hlen : st.unit.length ≤ 255)
    (hpos : prompt.item_position.getD item 0 + prompt.item_digit_count.getD item 0
      ≤ st.unit.length) :
    ∃ iv1 s1 st1,
      PromptValue.body h prompt timeout functor bc item iv s count st
        = PromptValue.Step.next iv1 s1 0 st1 ∧
      (∀ q, (q < prompt.item_position.getD item 0 ∨
          prompt.item_position.getD item 0 + prompt.item_digit_count.getD item 0 ≤ q) →
        st1.unit[q]? = st.unit[q]? ∧
        GetUnitValue st1 q = GetUnitValue st q ∧
        GetUnitIndicator st1 q = GetUnitIndicator st q ∧
        GetUnitBrightness st1 q = GetUnitBrightness st q) ∧
      st1.unit.length = st.unit.length ∧
      (∀ k, k ≠ item → iv1[k]? = iv[k]?) ∧ iv1.length = iv.length := by
  obtain ⟨iv1, st0, hu, hiv, hb⟩ :=
    body_update_draws h prompt timeout functor bc item iv s count st hupd
  refine ⟨iv1, _, _, hb, ?_, ?_, ?_, ?_⟩
  · intro q hq
    have hd := draw_outside prompt item iv1 s st0 (by rw [hu]; exact hlen)
      (by rw [hu]; exact hpos) q hq
    rw [hu] at hd
    exact ⟨hd, getters_of_unit_eq st _ q hd⟩
  · rw [(draw_shape prompt item iv1 s st0).1, hu]
  · intro k hk
    rcases hiv with hiv | hiv <;> rw [hiv] <;> exact List.getElem?_set_ne (Ne.symm hk)
  · rcases hiv with hiv | hiv <;> rw [hiv] <;> exact List.length_set _ _ _

/-- Witness for C21: the clock prompt with values 12 and 30 on a display showing "12:3":
an increment of the minutes field (units 2 and 3) leaves units 0 and 1 and the hours
alone. -/
theorem PromptValue_partial_redraw_witness :
    ∃ iv1 s1 st1,
      PromptValue.body hostHeld fieldsClock 4000 default_parameter [3, 3, 3, 3] 1 [12, 30]
          [0, 0, 0, 0] 0 display12c3 = PromptValue.Step.next iv1 s1 0 st1 ∧
      st1.unit[0]? = display12c3.unit[0]? ∧ st1.unit[1]? = display12c3.unit[1]? ∧
      iv1[0]? = some 12 :=
  have ⟨iv1, s1, st1, hb, ho, _, hi, _⟩ :=
    PromptValue_partial_redraw hostHeld fieldsClock 4000 default_parameter [3, 3, 3, 3] 1
      [12, 30] [0, 0, 0, 0] 0 display12c3 (by decide) (by decide) (by decide)
  ⟨iv1, s1, st1, hb, (ho 0 (Or.inl (by decide))).1, (ho 1 (Or.inl (by decide))).1,
    hi 0 (by decide)⟩

theorem GetUnitValue_frameChars (ms : Nat) (st : State) (i : Nat) :
    (frameChars (ms, st.unit)).getD i 0 = GetUnitValue st i := by
  rw [GetUnitValue_shown, List.getD_eq_getElem?_getD]
  rfl

/-- One frame of `EffectSlotMachine` keeps a ':' that the snapshot has at index 1. -/
theorem render_separator (h : Host) (s array : List Nat) (st : State)
    (h1 : 1 < st.unit.length) (hs : s.getD 1 0 = 58) :
    (EffectSlotMachine.render h s array st).unit.length = st.unit.length ∧
    GetUnitValue (EffectSlotMachine.render h s array st) 1 = 58 := by
  unfold EffectSlotMachine.render
  have key := forLoop_invariant_idx
    (fun i (a : State) => a.unit.length = st.unit.length ∧ (1 < i → GetUnitValue a 1 = 58))
    (fun index acc =>
      if array.getD index 0 ≠ 0 ∨ (index = 1 ∧ s.getD index 0 = 58) then
        (SetUnitValue acc index (s.getD index 0)).2
      else
        (SetUnitValue (random_fast h acc 0 10).2 index ((48 + (random_fast h acc 0 10).1) % 256)).2)
    st.unit.length
    (by
      intro i a hi ⟨hal, ha1⟩
      have hia : i < a.unit.length := by omega
      beta_reduce
      by_cases hcond : array.getD i 0 ≠ 0 ∨ (i = 1 ∧ s.getD i 0 = 58)
      · simp only [if_pos hcond]
        refine ⟨(SetUnitValue_frame a _ _).length.trans hal, ?_⟩
        intro hlt
        rw [GetUnitValue_SetUnitValue a i _ 1 hia]
        by_cases h1i : 1 = i
        · subst h1i
          rw [if_pos rfl, hs]
          decide
        · rw [if_neg h1i]
          exact ha1 (by omega)
      · have hne : i ≠ 1 := by
          intro h1i
          apply hcond
          subst h1i
          exact Or.inr ⟨rfl, hs⟩
        simp only [if_neg hcond]
        refine ⟨(SetUnitValue_frame _ _ _).length.trans hal, ?_⟩
        intro hlt
        rw [GetUnitValue_SetUnitValue (random_fast h a 0 10).2 i _ 1 hia,
          if_neg (Ne.symm hne)]
        exact ha1 (by omega))
    st.unit.length 0 st (by omega) ⟨rfl, fun hlt => absurd hlt (by omega)⟩
  simp only [Nat.zero_add] at key
  exact ⟨key.1, key.2 h1⟩

theorem round_separator (h : Host) (ms : Nat) (s array : List Nat) (st : State)
    (h1 : 1 < st.unit.length) (hs : s.getD 1 0 = 58) (n : Nat) :
    (forLoop (fun _ acc => delay ms (EffectSlotMachine.render h s array acc)) n 0 st).unit.length
      = st.unit.length ∧
    ∃ new, (forLoop (fun _ acc => delay ms (EffectSlotMachine.render h s array acc)) n 0
        st).frames = st.frames ++ new ∧ ∀ f ∈ new, (frameChars f).getD 1 0 = 58 := by
  refine forLoop_invariant
    (fun a : State => a.unit.length = st.unit.length ∧
      ∃ new, a.frames = st.frames ++ new ∧ ∀ f ∈ new, (frameChars f).getD 1 0 = 58)
    _ ?_ n 0 st ⟨rfl, [], by simp, by simp⟩
  intro i a ⟨hal, new, hfr, hall⟩
  obtain ⟨hrl, hrv⟩ := render_separator h s array a (by omega) hs
  refine ⟨hrl.trans hal, new ++ [(ms, (EffectSlotMachine.render h s array a).unit)], ?_, ?_⟩
  · show (EffectSlotMachine.render h s array a).frames ++ _ = _
    rw [(render_still h s array a).2, hfr, List.append_assoc]
  · intro f hf
    rcases List.mem_append.1 hf with hf | hf
    · exact hall f hf
    · rw [List.mem_singleton.1 hf, GetUnitValue_frameChars]
      exact hrv

/-- When the round loop of `EffectSlotMachine` returns, every frame it has shown has ':' at
unit 1, provided the snapshot has. -/
theorem rounds_separator (h : Host) (ms : Nat) (s : List Nat) (hs : s.getD 1 0 = 58) :
    ∀ (fuel count : Nat) (array : List Nat) (st st' : State),
      EffectSlotMachine.rounds h ms s fuel count array st = some st' → 1 < st.unit.length →
      ∃ new, st'.frames = st.frames ++ new ∧ ∀ f ∈ new, (frameChars f).getD 1 0 = 58 := by
  intro fuel
  induction fuel with
  | zero => intro count array st st' hr; simp [EffectSlotMachine.rounds] at hr
  | succ n ih =>
    intro count array st st' hr h1
    simp only [EffectSlotMachine.rounds] at hr
    split at hr
    · split at hr
      · cases hr
      · rename_i array1 st1 heq
        have hst : Still st st1 := by
          split at heq
          · exact latch_still h _ _ _ _ heq
          · cases heq; exact Still.rfl_ st
        have hl1 : st1.unit.length = st.unit.length := by
          rw [← flags_length, hst.1, flags_length]
        obtain ⟨hl2, new2, hf2, hall2⟩ := round_separator h ms s array1 st1 (by omega) hs 5
        obtain ⟨new3, hf3, hall3⟩ := ih _ _ _ _ hr (by rw [hl2]; omega)
        refine ⟨new2 ++ new3, ?_, ?_⟩
        · rw [hf3, hf2, hst.2, List.append_assoc]
        · intro f hf
          rcases List.mem_append.1 hf with hf | hf
          · exact hall2 f hf
          · exact hall3 f hf
    · cases hr
      exact ⟨[], by simp, by simp⟩

/-- C22, as the code has it: the exemption is for unit 1. On a display of 2 to 252 units
whose unit 1 shows ':' before the call, `EffectSlotMachine` returns for every sequence of
random results, and every one of the `5 * (unit_count + 3)` frames it has shown (every
sub-frame of every round, the first three rounds included) has ':' at unit 1. -/
theorem EffectSlotMachine_separator (h : Host) (st : State) (ms : Nat)
    (hlen : st.unit.length ≤ 252) (h1 : 1 < st.unit.length) (hc : GetUnitValue st 1 = 58) :
    ∃ st' new, EffectSlotMachine (257 * st.unit.length + 5) h st ms = some st' ∧
      st'.frames = st.frames ++ new ∧ new.length = 5 * (st.unit.length + 3) ∧
      ∀ f ∈ new, (frameChars f).getD 1 0 = 58 := by
  obtain ⟨st', hst, _, hr⟩ := EffectSlotMachine_budget h st ms hlen
  have hs : (GetDisplayValue st).getD 1 0 = 58 := by
    rw [List.getD_eq_getElem?_getD, ← GetUnitValue_shown]
    exact hc
  obtain ⟨new, hf, hall⟩ := rounds_separator h ms (GetDisplayValue st) hs _ _ _ _ _ hst h1
  refine ⟨st', new, hst, hf, ?_, hall⟩
  have hlen2 := congrArg List.length hr
  rw [hf] at hlen2
  simp only [List.length_map, List.length_append, List.length_replicate] at hlen2
  omega

/-- Witness for C22: the display showing "1:23", every random result 0. -/
theorem EffectSlotMachine_separator_witness :
    ∃ st' new, EffectSlotMachine (257 * display1c23.unit.length + 5) hostNone display1c23 10
        = some st' ∧
      st'.frames = display1c23.frames ++ new ∧ new.length = 5 * (display1c23.unit.length + 3) ∧
      ∀ f ∈ new, (frameChars f).getD 1 0 = 58 :=
  EffectSlotMachine_separator hostNone display1c23 10 (by decide) (by decide) (by decide)

set_option maxRecDepth 1000000 in
/-- C22, counterexample: on the display showing "12:3", whose unit 2 shows ':', with every
random result 0, the first frame of `EffectSlotMachine` shows "0000": unit 2 shows a random
digit, not ':'. -/
theorem EffectSlotMachine_separator_counterexample :
    GetUnitValue display12c3 2 = 58 ∧
    (EffectSlotMachine 1033 hostNone display12c3 10).map
      (fun st' => (st'.frames.map frameChars).head?) = some (some [48, 48, 48, 48]) := by
  decide

theorem SameSelect.same (st : State) : SameSelect st st := rfl

theorem SameSelect.andAlso {a b c : State} (h1 : SameSelect a b) (h2 : SameSelect b c) :
    SameSelect a c :=
  Eq.trans h2 h1

theorem SetUnitValue_select (st : State) (u c : Nat) : SameSelect st (SetUnitValue st u c).2 :=
  (SetUnitValue_polls st u c).2

theorem SetDisplayValue_select (st : State) (s : Option (List Nat)) :
    SameSelect st (SetDisplayValue st s).2 := by
  unfold SetDisplayValue
  cases s with
  | none => exact SameSelect.same st
  | some w =>
    exact forLoop_invariant (SameSelect st) _
      (fun i a ha => ha.andAlso (SetUnitValue_select a i _)) _ _ _ (SameSelect.same st)

theorem SetDisplayValue_P_select (st : State) (s : List Nat) :
    SameSelect st (SetDisplayValue_P st s).2 :=
  SetDisplayValue_select st _

theorem EffectScroll_select (st : State) (s : List Nat) (d : Direction) (ms : Nat) :
    SameSelect st (EffectScroll st s d ms) := by
  unfold EffectScroll
  refine forLoop_invariant (SameSelect st) _ ?_ _ _ _ (SameSelect.same st)
  intro i a ha
  cases d
  · exact ha.andAlso (SetDisplayValue_select a _)
  · exact ha.andAlso (SetDisplayValue_select a _)

theorem EffectScroll_P_select (st : State) (s : List Nat) (d : Direction) (ms : Nat) :
    SameSelect st (EffectScroll_P st s d ms) :=
  EffectScroll_select st _ d ms

theorem IsInputUpdate_select (h : Host) (st : State) : SameSelect st (IsInputUpdate h st).2 := by
  unfold IsInputUpdate
  cases h.m_callback_is_update <;> exact SameSelect.same st

theorem IsInputIncrement_select (h : Host) (st : State) :
    SameSelect st (IsInputIncrement h st).2 := by
  unfold IsInputIncrement
  cases h.m_callback_is_increment <;> exact SameSelect.same st

theorem latch_select (h : Host) : ∀ (fuel : Nat) (array : List Nat) (st : State)
    (r : List Nat × State),
    EffectSlotMachine.latch h fuel array st = some r → SameSelect st r.2 := by
  intro fuel
  induction fuel with
  | zero => intro array st r hr; simp [EffectSlotMachine.latch] at hr
  | succ n ih =>
    intro array st r hr
    simp only [EffectSlotMachine.latch] at hr
    split at hr
    · exact SameSelect.andAlso (SameSelect.same st)
        (ih _ (random_fast h st 0 st.unit.length).2 _ hr)
    · cases hr; exact SameSelect.same st

theorem render_select (h : Host) (s array : List Nat) (st : State) :
    SameSelect st (EffectSlotMachine.render h s array st) := by
  unfold EffectSlotMachine.render
  refine forLoop_invariant (SameSelect st) _ ?_ _ _ _ (SameSelect.same st)
  intro i a ha
  split
  · exact ha.andAlso (SetUnitValue_select a i _)
  · exact ha.andAlso (SetUnitValue_select (random_fast h a 0 10).2 i _)

theorem rounds_select (h : Host) (ms : Nat) (s : List Nat) :
    ∀ (fuel count : Nat) (array : List Nat) (st st' : State),
      EffectSlotMachine.rounds h ms s fuel count array st = some st' → SameSelect st st' := by
  intro fuel
  induction fuel with
  | zero => intro count array st st' hr; simp [EffectSlotMachine.rounds] at hr
  | succ n ih =>
    intro count array st st' hr
    simp only [EffectSlotMachine.rounds] at hr
    split at hr
    · split at hr
      · cases hr
      · rename_i array1 st1 heq
        have h1 : SameSelect st st1 := by
          split at heq
          · exact latch_select h _ _ _ _ heq
          · cases heq; exact SameSelect.same st
        refine SameSelect.andAlso ?_ (ih _ _ _ _ hr)
        exact forLoop_invariant (SameSelect st)
          (fun _ acc => delay ms (EffectSlotMachine.render h s array1 acc))
          (fun i a ha => ha.andAlso (render_select h s array1 a)) _ _ _ h1
    · cases hr; exact SameSelect.same st

theorem showTitle_select (fuel : Nat) (h : Host) (title : Option (List Nat)) (st st' : State)
    (hr : showTitle fuel h title st = some st') : SameSelect st st' := by
  unfold showTitle at hr
  cases title with
  | none => cases hr; exact SameSelect.same st
  | some t =>
    simp only [Option.map_eq_some'] at hr
    obtain ⟨a, ha, rfl⟩ := hr
    exact (SetDisplayValue_P_select st t).andAlso (rounds_select h 10 _ _ _ _ _ a ha)

theorem blankAndCopy_select (d : Direction) (st : State) :
    SameSelect st (blankAndCopy d st).2 := by
  unfold blankAndCopy
  exact forLoop_invariant (fun (a : List Nat × State) => SameSelect st a.2) _
    (fun i a ha => SameSelect.andAlso ha (EffectScroll_select a.2 _ _ _)) _ _ _ (SameSelect.same st)

theorem redraw_select (h : Host) (prompt : PromptSelectStruct) (sel : Nat) (st : State) :
    SameSelect st (PromptSelect.redraw h prompt sel st) := by
  unfold PromptSelect.redraw
  split
  · refine SameSelect.andAlso ?_ (EffectScroll_P_select _ _ _ _)
    exact forLoop_invariant (SameSelect st) _
      (fun i a ha => ha.andAlso (EffectScroll_select a _ _ _)) _ _ _ (IsInputIncrement_select h st)
  · exact SetDisplayValue_P_select st _

theorem select_enter_select (fuel : Nat) (h : Host) (st : State) (prompt : PromptSelectStruct)
    (copy : List Nat) (st1 : State) (he : PromptSelect.enter fuel h st prompt = some (copy, st1)) :
    SameSelect st st1 := by
  unfold PromptSelect.enter at he
  cases ht : showTitle fuel h prompt.title st with
  | none => rw [ht] at he; exact absurd he (by simp)
  | some st0 =>
    rw [ht] at he
    have h0 := showTitle_select fuel h _ st st0 ht
    have hd : SameSelect st0 (PromptSelect.initialDirection h prompt st0).2 := by
      unfold PromptSelect.initialDirection
      split
      · exact IsInputIncrement_select h st0
      · exact SameSelect.same st0
    simp only [Option.some.injEq, Prod.mk.injEq] at he
    obtain ⟨_, hs⟩ := he
    rw [← hs]
    exact (((h0.andAlso hd).andAlso (blankAndCopy_select _ _)).andAlso
      (EffectScroll_P_select _ _ _ _)).andAlso (IsInputUpdate_select _ _)

theorem IsInputSelect_some (h : Host) (f : Nat → Bool) (hcb : h.m_callback_is_select = some f)
    (st : State) :
    (IsInputSelect h st).1 = f st.polls_select ∧
    (IsInputSelect h st).2.polls_select = st.polls_select + 1 := by
  unfold IsInputSelect
  rw [hcb]
  exact ⟨rfl, rfl⟩

/-- The body of the loop of `PromptSelect` does not poll the select input. -/
theorem select_body_select (h : Host) (prompt : PromptSelectStruct) (tc : Nat)
    (functor : Nat → Event → Nat → Bool) (sel count : Nat) (st : State) :
    SameSelect st (Step.state (PromptSelect.body h prompt tc functor sel count st)) := by
  have hu := IsInputUpdate_select h st
  have hi := hu.andAlso (IsInputIncrement_select h (IsInputUpdate h st).2)
  unfold PromptSelect.body
  by_cases h1 : (IsInputUpdate h st).1 = true
  · simp only [h1, if_true]
    by_cases h2 : (IsInputIncrement h (IsInputUpdate h st).2).1 = true
    · simp only [h2, if_true, Step.state]
      exact SameSelect.andAlso hi (redraw_select h prompt _ _)
    · simp only [h2, Step.state]
      exact SameSelect.andAlso hi (redraw_select h prompt _ _)
  · simp only [h1]
    by_cases h3 : (count + 1) % 2 ^ 32 > tc
    · simp only [h3, if_true]
      by_cases h4 : (notify functor Event.TIMEOUT sel (IsInputUpdate h st).2).1 = true
      · simp only [h4, if_true, Step.state]
        exact hu
      · simp only [h4, Step.state]
        exact hu
    · simp only [h3, Step.state]
      exact hu

/-- When the select input answers true to the poll number `k` from now on and false to the
polls before it, the loop of `PromptSelect` ends within `k + 1` iterations. -/
theorem select_loop_press (h : Host) (prompt : PromptSelectStruct) (tc : Nat)
    (functor : Nat → Event → Nat → Bool) (f : Nat → Bool)
    (hcb : h.m_callback_is_select = some f) :
    ∀ (k fuel sel count : Nat) (st : State), k < fuel →
      (∀ j, j < k → f (st.polls_select + j) = false) → f (st.polls_select + k) = true →
      ∃ r st', PromptSelect.loop h prompt tc functor fuel sel count st = some (r, st') := by
  intro k
  induction k with
  | zero =>
    intro fuel sel count st hf _ hpress
    obtain ⟨n, rfl⟩ : ∃ n, fuel = n + 1 := ⟨fuel - 1, by omega⟩
    have hb := select_body_select h prompt tc functor sel count st
    rw [PromptSelect.loop]
    cases hbody : PromptSelect.body h prompt tc functor sel count st with
    | timeout st1 => exact ⟨none, st1, rfl⟩
    | next sel1 count1 st1 =>
      rw [hbody] at hb
      have hp := IsInputSelect_some h f hcb st1
      have hs : st1.polls_select = st.polls_select := hb
      have htrue : (IsInputSelect h st1).1 = true := by
        rw [hp.1, hs]; exact hpress
      simp only [htrue, Bool.true_eq_false, if_false]
      exact ⟨_, _, rfl⟩
  | succ k ih =>
    intro fuel sel count st hf hquiet hpress
    obtain ⟨n, rfl⟩ : ∃ n, fuel = n + 1 := ⟨fuel - 1, by omega⟩
    have hb := select_body_select h prompt tc functor sel count st
    rw [PromptSelect.loop]
    cases hbody : PromptSelect.body h prompt tc functor sel count st with
    | timeout st1 => exact ⟨none, st1, rfl⟩
    | next sel1 count1 st1 =>
      rw [hbody] at hb
      have hp := IsInputSelect_some h f hcb st1
      have hs : st1.polls_select = st.polls_select := hb
      have hfalse : (IsInputSelect h st1).1 = false := by
        rw [hp.1, hs]; exact hquiet 0 (by omega)
      simp only [hfalse, if_true]
      have hps : (IsInputSelect h st1).2.polls_select = st.polls_select + 1 := by
        rw [hp.2, hs]
      refine ih n sel1 count1 _ (by omega) ?_ ?_
      · intro j hj
        rw [hps]
        have := hquiet (j + 1) (by omega)
        rw [← this]
        congr 1
        omega
      · rw [hps, ← hpress]
        congr 1
        omega

/-- The outcome of `PromptSelect` on an input trace with a select press: when the select
input answers true to its poll number `k` of the call and false to the polls before, and
the title sequence ends, `PromptSelect` returns within fuel `k + 1`. It returns either the
final selection converted to `int8_t`, the last notification being SELECTION with that
selection, which is the initial selection after the notified increments and decrements;
or -1, the last notification then being a TIMEOUT that the functor answered false. -/
theorem PromptSelect_select_exit (fuel : Nat) (h : Host) (st : State)
    (prompt : PromptSelectStruct) (timeout : Nat) (functor : Nat → Event → Nat → Bool)
    (f : Nat → Bool) (k : Nat)
    (hic : prompt.item_count ≤ 255) (hinit : prompt.initial_selection < prompt.item_count)
    (hcb : h.m_callback_is_select = some f)
    (hquiet : ∀ j, j < k → f (st.polls_select + j) = false)
    (hpress : f (st.polls_select + k) = true)
    (htitle : prompt.title = none ∨ (st.unit.length ≤ 252 ∧ 257 * st.unit.length + 5 ≤ fuel))
    (hfuel : k < fuel) :
    ∃ r st', PromptSelect fuel h st prompt timeout functor = some (r, st') ∧
      ((∃ sel, r = toInt8 sel ∧ sel < prompt.item_count ∧
          st'.log.getLast? = some (Event.SELECTION, sel) ∧
          sel = replaySelection prompt.item_count prompt.initial_selection
            (st'.log.drop st.log.length)) ∨
       (r = -1 ∧ ∃ events v, st'.log = st.log ++ events ++ [(Event.TIMEOUT, v)] ∧
          functor (st.log ++ events).length Event.TIMEOUT v = false)) := by
  obtain ⟨copy, st1, he⟩ := select_enter_terminates fuel h st prompt htitle
  have hsel : st1.polls_select = st.polls_select := select_enter_select fuel h st prompt copy st1 he
  have hlog0 : st1.log = st.log := (enter_spec fuel h st prompt copy st1 he).2.2
  obtain ⟨r, st2, hl⟩ := select_loop_press h prompt (timeout * 3000 % 2 ^ 32) functor f hcb k fuel
    prompt.initial_selection 0 st1 hfuel (by rw [hsel]; exact hquiet) (by rw [hsel]; exact hpress)
  have hsound := loop_sound h prompt _ functor hic fuel _ 0 st1 r st2 hinit hl
  have hrun : PromptSelect.run fuel h st prompt timeout functor = some (r, copy, st2) := by
    unfold PromptSelect.run
    simp only [he, hl]
  cases r with
  | none =>
    obtain ⟨events, v, _, hlog, _, hf⟩ := hsound
    refine ⟨-1, st2, ?_, Or.inr ⟨rfl, events, v, ?_, ?_⟩⟩
    · unfold PromptSelect
      rw [hrun]
    · rw [hlog, hlog0]
    · rw [← hlog0]; exact hf
  | some sel =>
    obtain ⟨events, hrun2⟩ := hsound
    have hlog : (PromptSelect.leave functor copy sel st2).2.log
        = st.log ++ (events ++ [(Event.SELECTION, sel)]) := by
      rw [leave_log, hrun2.2.1, hlog0, List.append_assoc]
    refine ⟨toInt8 sel, (PromptSelect.leave functor copy sel st2).2, ?_,
      Or.inl ⟨sel, rfl, hrun2.2.2.2.2, ?_, ?_⟩⟩
    · unfold PromptSelect
      rw [hrun]
      simp only [PromptSelect.leave]
    · rw [hlog, ← List.append_assoc, List.getLast?_concat]
    · rw [hlog, List.drop_left, replaySelection_append, ← hrun2.2.2.1]
      simp [replaySelection]

set_option maxRecDepth 100000 in
/-- C2, failing input: four units, 200 items, initial selection 150, select pressed at
once. The final selection is 150 and the SELECTION notification carries it, but
`PromptSelect` returns -106: `return selection;` converts the `uint8_t` selection to the
`int8_t` return type. -/
theorem PromptSelect_selection_150_returns_negative :
    (PromptSelect.run 10 hostSelect display4 menu200 500 default_parameter).map (fun r => r.1)
      = some (some 150) ∧
    (PromptSelect 10 hostSelect display4 menu200 500 default_parameter).map
      (fun r => (r.1, r.2.log)) = some (-106, [(Event.SELECTION, 150)]) ∧
    toInt8 150 = -106 := by
  decide

set_option maxRecDepth 100000 in
/-- The example of the specification: four units, items "AB12" and "CD34", initial
selection 0, inputs update with increment, then select: `PromptSelect` returns 1 and
notifies INCREMENT 1, then SELECTION 1. -/
theorem PromptSelect_example_returns_1 :
    (PromptSelect 10 hostIncSelect display4 menu2 500 default_parameter).map
      (fun r => (r.1, r.2.log)) = some (1, [(Event.INCREMENT, 1), (Event.SELECTION, 1)]) := by
  decide

end CDisplay
